import Mathlib

/-!
# multi-input: axis cells, devices and the device registry

Shallow embedding of `virtual_axis.hpp`, `device.hpp`, `device.cpp`,
`context.cpp`, `enumeration.cpp`, `axis_utils.hpp`, `axis_utils.cpp` and of
`rb_minput_set_value` and `rb_minput_vibrate` of `api.cpp`.

* The C++ `float` held by an axis is an abstract value type `α`; the
  operations only move values around, so the results hold for every
  value type (the literal `0` of `reset` is the `Zero α` instance).
* `std::unordered_map` is an association list. Iteration order of the C++
  container is unspecified; the list order stands for whatever order the
  container iterates in. `emplace` keeps an existing entry, `erase`
  removes the entry the iterator points at.
* A pointer into `m_axes` is the position of the entry paired with the
  axis found there.
* The calls made to the user supplied device callback are recorded, oldest
  first, in the context.
* Where the code compares, negates or divides values, the value type is a
  linear ordered ring or field: the arithmetic is exact, there is no NaN and
  no rounding.
-/

namespace multi_input

/-! ## virtual_axis.hpp -/

/-- The struct `virtual_axis`: three value slots. -/
structure virtual_axis (α : Type) where
  m_current : α
  m_previous : α
  m_next : α
deriving DecidableEq, Repr

namespace virtual_axis

variable {α : Type}

/-- Default constructor: all three slots are zero. -/
def init [Zero α] : virtual_axis α :=
  { m_current := 0, m_previous := 0, m_next := 0 }

/-- The method `set`: overwrite the staged value. -/
def set (a : virtual_axis α) (value : α) : virtual_axis α :=
  { a with m_next := value }

/-- The method `add`: accumulate into the staged value. -/
def add [Add α] (a : virtual_axis α) (value : α) : virtual_axis α :=
  { a with m_next := a.m_next + value }

/-- The method `commit`: previous takes current, then current takes next. -/
def commit (a : virtual_axis α) : virtual_axis α :=
  { a with m_previous := a.m_current, m_current := a.m_next }

/-- The method `get`. -/
def get (a : virtual_axis α) : α := a.m_current

/-- The method `get_previous`. -/
def get_previous (a : virtual_axis α) : α := a.m_previous

/-- The method `get_next`. -/
def get_next (a : virtual_axis α) : α := a.m_next

end virtual_axis

/-! ## input_code.hpp, device_event.hpp -/

/-- The enum class `input_code : int`, by its underlying value. -/
structure input_code where
  val : Int
deriving DecidableEq, Repr

/-- The enumerator `none = 0`. -/
def input_code.none : input_code := ⟨0⟩

/-- The enumerator `key_a = 100010`. -/
def input_code.key_a : input_code := ⟨100010⟩

/-- The enumerator `mouse_x = 200013`. -/
def input_code.mouse_x : input_code := ⟨200013⟩

/-- The enumerator `pad_a = 300020`. -/
def input_code.pad_a : input_code := ⟨300020⟩

/-- The enum class `device_event`. -/
inductive device_event where
  | created
  | removed
  | unusable
  | usable
deriving DecidableEq, Repr

/-! ## device.hpp, device.cpp -/

/-- The struct `device_meta`. -/
structure device_meta where
  m_name : String
  m_location_id : String
  m_internal_id : String
  m_vendor_id : Int
  m_product_id : Int
  m_revision : Int
  m_serial : String
deriving DecidableEq, Repr

/-- Value-initialised `device_meta`, as produced by `m_meta()`. -/
def device_meta.init : device_meta :=
  { m_name := "", m_location_id := "", m_internal_id := "",
    m_vendor_id := 0, m_product_id := 0, m_revision := 0, m_serial := "" }

/-- Dynamic type of a device object: it selects the override of the virtual
`can_vibrate`. -/
inductive device_kind where
  | base
  | xi2
  | evdev
  | raw_input
  | xinput
  | hidm
deriving DecidableEq, Repr

/-- Result of `m_axes.find(code)`: position and contents of the entry. -/
def axes_find {α : Type} :
    List (input_code × virtual_axis α) → input_code → Option (Nat × virtual_axis α)
  | [], _ => Option.none
  | (k, a) :: rest, code =>
    if k = code then some (0, a)
    else (axes_find rest code).map (fun r => (r.1 + 1, r.2))

/-- Result of `m_axes.emplace(code, value)`: the map afterwards; an entry that
already has the key is kept as it is. -/
def axes_emplace {α : Type} (axes : List (input_code × virtual_axis α))
    (code : input_code) (value : virtual_axis α) : List (input_code × virtual_axis α) :=
  match axes_find axes code with
  | some _ => axes
  | Option.none => axes ++ [(code, value)]

/-- The struct `device`. The back pointer `m_ctx` is not stored: the context
is passed to the one method that uses it. The field `m_can_vibrate` is the
member of that name of the evdev and hidm backends. -/
structure device (α : Type) where
  m_id : Int
  m_meta : device_meta
  m_axes : List (input_code × virtual_axis α)
  m_is_usable : Bool
  kind : device_kind
  m_can_vibrate : Bool
deriving DecidableEq, Repr

namespace device

variable {α : Type}

/-- Constructor `device::device(ctx, id)`, for an object of dynamic type `kind`. -/
def init (kind : device_kind) (id : Int) : device α :=
  { m_id := id, m_meta := device_meta.init, m_axes := [], m_is_usable := true,
    kind := kind, m_can_vibrate := false }

/-- The method `get_id`. -/
def get_id (d : device α) : Int := d.m_id

/-- The method `get_name`. -/
def get_name (d : device α) : String := d.m_meta.m_name

/-- The method `is_usable`. -/
def is_usable (d : device α) : Bool := d.m_is_usable

/-- The virtual method `can_vibrate` with its overrides. -/
def can_vibrate (d : device α) : Bool :=
  match d.kind with
  | device_kind.evdev => d.m_can_vibrate
  | device_kind.hidm => d.m_can_vibrate
  | device_kind.xinput => d.is_usable
  | _ => false

/-- The method `get_axis`: null for `none` and for a code without an entry. -/
def get_axis (d : device α) (code : input_code) : Option (Nat × virtual_axis α) :=
  if code = input_code.none then Option.none
  else axes_find d.m_axes code

/-- The method `add_axis`: the returned pointer and the device afterwards. -/
def add_axis [Zero α] (d : device α) (code : input_code) :
    Option (Nat × virtual_axis α) × device α :=
  if code = input_code.none then (Option.none, d)
  else
    let axes := axes_emplace d.m_axes code virtual_axis.init
    (axes_find axes code, { d with m_axes := axes })

/-- The method `get_axis_count`. -/
def get_axis_count (d : device α) : Nat := d.m_axes.length

/-- The method `get_axis_codes`. -/
def get_axis_codes (d : device α) : List input_code :=
  d.m_axes.map (fun pair => pair.1)

/-- The method `reset`. -/
def reset [Zero α] (d : device α) : device α :=
  { d with m_axes := d.m_axes.map (fun pair => (pair.1, (pair.2.set 0).commit)) }

/-- The base implementation of the virtual method `commit`. -/
def commit (d : device α) : device α :=
  { d with m_axes := d.m_axes.map (fun pair => (pair.1, pair.2.commit)) }

end device

/-- Write through a pointer obtained from `get_axis(code)`: `f` is applied to
the entry that `m_axes.find(code)` points at. -/
def axes_modify {α : Type} (f : virtual_axis α → virtual_axis α) :
    List (input_code × virtual_axis α) → input_code → List (input_code × virtual_axis α)
  | [], _ => []
  | (k, a) :: rest, code =>
    if k = code then (k, f a) :: rest else (k, a) :: axes_modify f rest code

/-- Body of `device::set_usable` up to the call into the context: the object
afterwards and the event passed to `notify_device`, if the flag changed. -/
def device.set_usable_step {α : Type} (d : device α) (usable : Bool) :
    device α × Option device_event :=
  let changed := d.m_is_usable != usable
  let d1 := { d with m_is_usable := usable }
  if changed then
    (d1, some (if usable then device_event.usable else device_event.unusable))
  else (d1, Option.none)

/-! ## context.hpp, context.cpp -/

/-- The POD struct `api_device`; the borrowed C strings are their contents. -/
structure api_device where
  m_id : Int
  m_name : String
  m_location_id : String
  m_internal_id : String
  m_vendor_id : Int
  m_product_id : Int
  m_revision : Int
  m_serial : String
  m_is_usable : Bool
  m_can_vibrate : Bool
  m_axis_count : Nat
deriving DecidableEq, Repr

/-- The method `api_device::set_from`. -/
def api_device.set_from {α : Type} (d : device α) : api_device :=
  { m_id := d.get_id,
    m_name := d.m_meta.m_name,
    m_location_id := d.m_meta.m_location_id,
    m_internal_id := d.m_meta.m_internal_id,
    m_vendor_id := d.m_meta.m_vendor_id,
    m_product_id := d.m_meta.m_product_id,
    m_revision := d.m_meta.m_revision,
    m_serial := d.m_meta.m_serial,
    m_is_usable := d.is_usable,
    m_can_vibrate := d.can_vibrate,
    m_axis_count := d.get_axis_count }

/-- One invocation of `m_options.m_device_callback(event, id, info)`; a null
`info` is `none`. -/
structure device_call where
  event : device_event
  id : Int
  info : Option api_device
deriving DecidableEq, Repr

/-- Result of `m_devices.find(id)`. -/
def devices_find {α : Type} : List (Int × device α) → Int → Option (device α)
  | [], _ => Option.none
  | (k, d) :: rest, id => if k = id then some d else devices_find rest id

/-- Result of `m_devices.emplace(id, dev)`: an entry that already has the key
is kept and `dev` is dropped. -/
def devices_emplace {α : Type} (devs : List (Int × device α)) (id : Int) (dev : device α) :
    List (Int × device α) :=
  match devices_find devs id with
  | some _ => devs
  | Option.none => devs ++ [(id, dev)]

/-- Result of `m_devices.erase(m_devices.find(id))`. -/
def devices_erase {α : Type} : List (Int × device α) → Int → List (Int × device α)
  | [], _ => []
  | (k, d) :: rest, id => if k = id then rest else (k, d) :: devices_erase rest id

/-- Write through a pointer obtained from `get_device(id)`. -/
def devices_modify {α : Type} (f : device α → device α) :
    List (Int × device α) → Int → List (Int × device α)
  | [], _ => []
  | (k, d) :: rest, id =>
    if k = id then (k, f d) :: rest else (k, d) :: devices_modify f rest id

/-- Increment of an `int64_t`. Signed overflow is undefined in C++; the
wrap-around of the two-complement machine stands for it, and results about
the counter are stated for runs that stay below the maximum. -/
def wrap_int64 (x : Int) : Int := (x + 2 ^ 63) % 2 ^ 64 - 2 ^ 63

/-- The struct `context`: the registry, the id counter and the record of the
calls made to the device callback (oldest first). Sources, the log sink and
the log level are not part of the model. -/
structure context (α : Type) where
  m_devices : List (Int × device α)
  m_next_unique_id : Int
  m_device_calls : List device_call
deriving DecidableEq, Repr

namespace context

variable {α : Type}

/-- State set up by the member initialisers of `context::context`: no device,
counter at 1. -/
def init : context α :=
  { m_devices := [], m_next_unique_id := 1, m_device_calls := [] }

/-- The method `get_device`. -/
def get_device (c : context α) (id : Int) : Option (device α) :=
  devices_find c.m_devices id

/-- The method `get_devices`. -/
def get_devices (c : context α) : List (device α) :=
  c.m_devices.map (fun pair => pair.2)

/-- The method `get_next_id`: the returned id and the context afterwards. -/
def get_next_id (c : context α) : Int × context α :=
  (c.m_next_unique_id, { c with m_next_unique_id := wrap_int64 (c.m_next_unique_id + 1) })

/-- The method `notify_device`. -/
def notify_device (c : context α) (id : Int) (event : device_event) : context α :=
  match devices_find c.m_devices id with
  | Option.none =>
    { c with m_device_calls := c.m_device_calls ++ [⟨event, id, Option.none⟩] }
  | some d =>
    { c with m_device_calls := c.m_device_calls ++ [⟨event, id, some (api_device.set_from d)⟩] }

/-- The method `add_device`. -/
def add_device (c : context α) (dev : device α) : context α :=
  let id := dev.get_id
  notify_device { c with m_devices := devices_emplace c.m_devices id dev } id
    device_event.created

/-- The method `remove_device`. -/
def remove_device (c : context α) (id : Int) : context α :=
  match devices_find c.m_devices id with
  | Option.none => c
  | some _ =>
    notify_device { c with m_devices := devices_erase c.m_devices id } id
      device_event.removed

/-- The method `reset`. -/
def reset [Zero α] (c : context α) : context α :=
  { c with m_devices := c.m_devices.map (fun pair => (pair.1, pair.2.reset)) }

/-- The method `device::set_usable` called on the object that the registry
holds under `id` (as `xi2_source` does after `get_device`): the flag is written
into the registered object before `notify_device` looks it up. -/
def set_usable (c : context α) (id : Int) (usable : Bool) : context α :=
  match devices_find c.m_devices id with
  | Option.none => c
  | some d =>
    let devs := devices_modify (fun o => (o.set_usable_step usable).1) c.m_devices id
    let c1 := { c with m_devices := devs }
    match (d.set_usable_step usable).2 with
    | some event => c1.notify_device d.m_id event
    | Option.none => c1

end context

/-- The method `device::set_usable` called on an object that the registry does
not hold, such as the object under construction in a backend constructor:
the device afterwards and the context afterwards. -/
def device.set_usable {α : Type} (d : device α) (c : context α) (usable : Bool) :
    device α × context α :=
  match (d.set_usable_step usable).2 with
  | some event => ((d.set_usable_step usable).1, c.notify_device d.m_id event)
  | Option.none => ((d.set_usable_step usable).1, c)

/-- Head of the constructor `xi2_device::xi2_device`: the base constructor,
`update_meta` (its result is the parameter `meta`) and
`set_usable(info.enabled)`. -/
def xi2_device_init {α : Type} (c : context α) (id : Int) (mt : device_meta)
    (enabled : Bool) : device α × context α :=
  let d0 : device α := device.init device_kind.xi2 id
  let d1 := { d0 with m_meta := mt }
  d1.set_usable c enabled

/-- The function `find_first_device`; the code range is a list, the two out
parameters are the returned pair, `none` is the result `false`. -/
def find_first_device {α : Type} (callback : Int → input_code → α → α → α → Bool)
    (dev : device α) : List input_code → Option (Int × input_code)
  | [] => Option.none
  | code :: rest =>
    match dev.get_axis code with
    | Option.none => find_first_device callback dev rest
    | some axis =>
      let id := dev.get_id
      if callback id code axis.2.get axis.2.get_previous axis.2.get_next then
        some (id, code)
      else find_first_device callback dev rest

/-- Loop of `context::find_first` over the registry; `filter` is `none` when
`begin` or `end` is null. -/
def find_first_loop {α : Type} (callback : Int → input_code → α → α → α → Bool)
    (filter : Option (List input_code)) :
    List (Int × device α) → Option (Int × input_code)
  | [] => Option.none
  | pair :: rest =>
    let dev := pair.2
    if !dev.is_usable then find_first_loop callback filter rest
    else
      match filter with
      | Option.none =>
        let supported := dev.get_axis_codes
        if supported.length = 0 then find_first_loop callback filter rest
        else
          match find_first_device callback dev supported with
          | some found => some found
          | Option.none => find_first_loop callback filter rest
      | some codes =>
        match find_first_device callback dev codes with
        | some found => some found
        | Option.none => find_first_loop callback filter rest

/-- The method `context::find_first`. -/
def context.find_first {α : Type} (c : context α)
    (callback : Int → input_code → α → α → α → Bool)
    (filter : Option (List input_code)) : Option (Int × input_code) :=
  find_first_loop callback filter c.m_devices

/-- The test callback `any_non_zero` of `test/main.cpp`. -/
def any_non_zero {α : Type} [Zero α] [DecidableEq α]
    (_id : Int) (_code : input_code) (current _previous _next : α) : Bool :=
  if current ≠ 0 then true else false

/-- The API function `rb_minput_set_value` for a non-null context: the
returned flag and the context afterwards. -/
def rb_minput_set_value {α : Type} (c : context α) (id : Int) (code : input_code)
    (value : α) : Bool × context α :=
  match c.get_device id with
  | Option.none => (false, c)
  | some dev =>
    match dev.get_axis code with
    | Option.none => (false, c)
    | some _ =>
      let write : device α → device α :=
        fun o => { o with m_axes := axes_modify (fun a => a.set value) o.m_axes code }
      (true, { c with m_devices := devices_modify write c.m_devices id })

/-- The codes `find_first` walks for a device: the filter when one is given,
otherwise the codes of the device. -/
def find_first_codes {α : Type} (filter : Option (List input_code)) (dev : device α) :
    List input_code :=
  match filter with
  | Option.none => dev.get_axis_codes
  | some codes => codes

/-- Invariant of the registry: keys are unique (it is a map) and every device
is stored under its own id (`add_device` is the only insertion). -/
def context.wf {α : Type} (c : context α) : Prop :=
  (c.m_devices.map (fun pair => pair.1)).Nodup ∧
    ∀ pair ∈ c.m_devices, pair.2.m_id = pair.1

/-- Operations of the registry that may be interleaved with `get_next_id`. -/
inductive context_op (α : Type) where
  | get_next_id
  | add_device (dev : device α)
  | remove_device (id : Int)

/-- Run a sequence of operations; the ids returned by the `get_next_id`
calls, in call order, and the context afterwards. -/
def context.run {α : Type} (c : context α) : List (context_op α) → List Int × context α
  | [] => ([], c)
  | context_op.get_next_id :: rest =>
    let r := c.get_next_id
    let out := context.run r.2 rest
    (r.1 :: out.1, out.2)
  | context_op.add_device dev :: rest => context.run (c.add_device dev) rest
  | context_op.remove_device id :: rest => context.run (c.remove_device id) rest

/-- A device after a sequence of `add_axis` calls, pointers discarded. -/
def device.add_axes {α : Type} [Zero α] (d : device α) (codes : List input_code) : device α :=
  codes.foldl (fun acc code => (acc.add_axis code).2) d

/-- A device with one `pad_a` axis whose committed value is 5. -/
def sample_pad : device Int :=
  { m_id := 1, m_meta := device_meta.init,
    m_axes := [(input_code.pad_a, { m_current := 5, m_previous := 0, m_next := 5 })],
    m_is_usable := true, kind := device_kind.base, m_can_vibrate := false }

/-- A context whose registry holds `sample_pad` under its id 1. -/
def sample_pad_context : context Int :=
  { m_devices := [(1, sample_pad)], m_next_unique_id := 2, m_device_calls := [] }

/-- Device 1 with a `pad_a` axis, as a backend builds it. -/
def device_a : device Int := (device.init device_kind.base 1).add_axes [input_code.pad_a]

/-- Device 2 with a `pad_a` axis, as a backend builds it. -/
def device_b : device Int := (device.init device_kind.evdev 2).add_axes [input_code.pad_a]

/-- A second object that claims the id of `device_a`. -/
def device_a_clone : device Int := device.init device_kind.xinput 1

/-- A context with `device_a` and `device_b` registered. -/
def two_pads : context Int := (context.init.add_device device_a).add_device device_b

/-- The context `two_pads` after 1 was staged on the `pad_a` axis of device 2,
with no commit. -/
def two_pads_staged : context Int := (rb_minput_set_value two_pads 2 input_code.pad_a 1).2

/-- The registry invariant can be checked by evaluation. -/
instance context.wf_decidable {α : Type} [DecidableEq α] (c : context α) : Decidable c.wf := by
  unfold context.wf
  infer_instance

/-! ## enumeration.hpp, enumeration.cpp -/

/-- The struct `enumeration`. A `device*` of the snapshot stands for the object
it pointed to when the snapshot was taken; the two iterators are offsets into
`m_devices`. The back pointer `m_ctx` is never read and is left out. -/
structure enumeration (α : Type) where
  m_devices : List (device α)
  m_current : Nat
  m_end : Nat
deriving DecidableEq, Repr

namespace enumeration

variable {α : Type}

/-- The method `reset`. -/
def reset (e : enumeration α) : enumeration α :=
  { e with m_current := 0, m_end := e.m_devices.length }

/-- Constructor `enumeration::enumeration(context*)`. -/
def init (c : context α) : enumeration α :=
  reset { m_devices := c.get_devices, m_current := 0, m_end := 0 }

/-- The copy and move constructors. -/
def copy (other : enumeration α) : enumeration α :=
  reset { m_devices := other.m_devices, m_current := 0, m_end := 0 }

/-- The method `next`: the returned pointer (`none` is null) and the
enumeration afterwards. -/
def next (e : enumeration α) : Option (device α) × enumeration α :=
  if e.m_current = e.m_end then (Option.none, e)
  else (e.m_devices[e.m_current]?, { e with m_current := e.m_current + 1 })

/-- The results of `k` successive calls of `next`, in call order, and the
enumeration afterwards. -/
def nexts : enumeration α → Nat → List (Option (device α)) × enumeration α
  | e, 0 => ([], e)
  | e, k + 1 =>
    let r := e.next
    let out := nexts r.2 k
    (r.1 :: out.1, out.2)

end enumeration

/-- Calls on a context and on an enumeration taken from it. -/
inductive session_op (α : Type) where
  | next
  | add_device (dev : device α)
  | remove_device (id : Int)

/-- Number of `next` calls in a sequence. -/
def session_nexts {α : Type} : List (session_op α) → Nat
  | [] => 0
  | session_op.next :: rest => session_nexts rest + 1
  | _ :: rest => session_nexts rest

/-- Run a sequence of calls: the results of the `next` calls, in call order,
with the context and the enumeration afterwards. -/
def session_run {α : Type} (c : context α) (e : enumeration α) :
    List (session_op α) → List (Option (device α)) × context α × enumeration α
  | [] => ([], c, e)
  | session_op.next :: rest =>
    let r := e.next
    let out := session_run c r.2 rest
    (r.1 :: out.1, out.2)
  | session_op.add_device dev :: rest => session_run (c.add_device dev) e rest
  | session_op.remove_device id :: rest => session_run (c.remove_device id) e rest

/-! ## axis_utils.hpp, axis_utils.cpp -/

/-- The function `apply_deadzone` in exact arithmetic. The quotient has no
value when `abs_max - deadzone` is zero (the float division gives NaN or an
infinity there); that case is `none`. -/
def apply_deadzone {α : Type} [LinearOrderedField α] (value abs_max deadzone : α) :
    Option α :=
  if value ≤ deadzone then some 0
  else
    let value1 := if value > abs_max then abs_max else value
    let value2 := value1 - deadzone
    if abs_max - deadzone = 0 then Option.none
    else some (value2 / (abs_max - deadzone))

/-- Write through a pointer obtained from `get_axis(code)`. -/
def device.write_axis {α : Type} (d : device α) (code : input_code)
    (f : virtual_axis α → virtual_axis α) : device α :=
  { d with m_axes := axes_modify f d.m_axes code }

/-- The function `detail::derive_axis`. -/
def derive_axis {α : Type} [LinearOrderedRing α] (dev : device α)
    (source negative positive : input_code) : device α :=
  match dev.get_axis source, dev.get_axis negative, dev.get_axis positive with
  | some axis, some _, some _ =>
    let value := axis.2.get_next
    if value > 0 then
      (dev.write_axis positive (fun a => a.set value)).write_axis negative (fun a => a.set 0)
    else
      (dev.write_axis positive (fun a => a.set 0)).write_axis negative
        (fun a => a.set (-value))
  | _, _, _ => dev

/-- The function `detail::derive_button_axis`. -/
def derive_button_axis {α : Type} [LinearOrderedRing α] (dev : device α)
    (negative positive target : input_code) : device α :=
  match dev.get_axis target, dev.get_axis negative, dev.get_axis positive with
  | some _, some negative_axis, some positive_axis =>
    let negative_value := negative_axis.2.get_next
    let positive_value := positive_axis.2.get_next
    if negative_value ≠ 0 then dev.write_axis target (fun a => a.set (-negative_value))
    else dev.write_axis target (fun a => a.set positive_value)
  | _, _, _ => dev

/-- The enumerator `pad_left_stick_up = 300000`. -/
def input_code.pad_left_stick_up : input_code := ⟨300000⟩

/-- The enumerator `pad_left_stick_down = 300001`. -/
def input_code.pad_left_stick_down : input_code := ⟨300001⟩

/-- The enumerator `pad_left_stick_left = 300002`. -/
def input_code.pad_left_stick_left : input_code := ⟨300002⟩

/-- The enumerator `pad_left_stick_right = 300003`. -/
def input_code.pad_left_stick_right : input_code := ⟨300003⟩

/-- The enumerator `pad_left_stick_x = 300005`. -/
def input_code.pad_left_stick_x : input_code := ⟨300005⟩

/-- The enumerator `pad_left_stick_y = 300006`. -/
def input_code.pad_left_stick_y : input_code := ⟨300006⟩

/-- The enumerator `pad_right_stick_up = 300007`. -/
def input_code.pad_right_stick_up : input_code := ⟨300007⟩

/-- The enumerator `pad_right_stick_down = 300008`. -/
def input_code.pad_right_stick_down : input_code := ⟨300008⟩

/-- The enumerator `pad_right_stick_left = 300009`. -/
def input_code.pad_right_stick_left : input_code := ⟨300009⟩

/-- The enumerator `pad_right_stick_right = 300010`. -/
def input_code.pad_right_stick_right : input_code := ⟨300010⟩

/-- The enumerator `pad_right_stick_x = 300012`. -/
def input_code.pad_right_stick_x : input_code := ⟨300012⟩

/-- The enumerator `pad_right_stick_y = 300013`. -/
def input_code.pad_right_stick_y : input_code := ⟨300013⟩

/-- The enumerator `pad_dpad_up = 300014`. -/
def input_code.pad_dpad_up : input_code := ⟨300014⟩

/-- The enumerator `pad_dpad_down = 300015`. -/
def input_code.pad_dpad_down : input_code := ⟨300015⟩

/-- The enumerator `pad_dpad_left = 300016`. -/
def input_code.pad_dpad_left : input_code := ⟨300016⟩

/-- The enumerator `pad_dpad_right = 300017`. -/
def input_code.pad_dpad_right : input_code := ⟨300017⟩

/-- The enumerator `pad_dpad_x = 300018`. -/
def input_code.pad_dpad_x : input_code := ⟨300018⟩

/-- The enumerator `pad_dpad_y = 300019`. -/
def input_code.pad_dpad_y : input_code := ⟨300019⟩

/-- The function `derive_stick_pre_commit`. -/
def derive_stick_pre_commit {α : Type} [LinearOrderedRing α] (dev : device α) : device α :=
  let d1 := derive_axis dev input_code.pad_left_stick_x input_code.pad_left_stick_left
    input_code.pad_left_stick_right
  let d2 := derive_axis d1 input_code.pad_left_stick_y input_code.pad_left_stick_down
    input_code.pad_left_stick_up
  let d3 := derive_axis d2 input_code.pad_right_stick_x input_code.pad_right_stick_left
    input_code.pad_right_stick_right
  let d4 := derive_axis d3 input_code.pad_right_stick_y input_code.pad_right_stick_down
    input_code.pad_right_stick_up
  let d5 := derive_button_axis d4 input_code.pad_dpad_left input_code.pad_dpad_right
    input_code.pad_dpad_x
  derive_button_axis d5 input_code.pad_dpad_down input_code.pad_dpad_up input_code.pad_dpad_y

/-! ## log_level.hpp, api.cpp -/

/-- The enumerator `mouse_x_left = 200007`. -/
def input_code.mouse_x_left : input_code := ⟨200007⟩

/-- The enumerator `mouse_x_right = 200008`. -/
def input_code.mouse_x_right : input_code := ⟨200008⟩

/-- A mouse with the `mouse_x` axis and its two directional axes; 3 is staged
on `mouse_x`. -/
def sample_mouse : device Int :=
  ((device.init device_kind.xi2 3).add_axes
    [input_code.mouse_x, input_code.mouse_x_left, input_code.mouse_x_right]).write_axis
      input_code.mouse_x (fun a => a.set 3)

/-- A pad with the six d-pad axes; left and right are both pressed and so is
up. -/
def sample_dpad : device Int :=
  ((((device.init device_kind.evdev 4).add_axes
    [input_code.pad_dpad_left, input_code.pad_dpad_right, input_code.pad_dpad_x,
      input_code.pad_dpad_down, input_code.pad_dpad_up, input_code.pad_dpad_y]).write_axis
      input_code.pad_dpad_left (fun a => a.set 1)).write_axis
      input_code.pad_dpad_right (fun a => a.set 1)).write_axis
      input_code.pad_dpad_up (fun a => a.set 1)

/-- The enumerator `mouse_left = 200000`. -/
def input_code.mouse_left : input_code := ⟨200000⟩

/-- The enumerator `mouse_right = 200001`. -/
def input_code.mouse_right : input_code := ⟨200001⟩

/-- The enumerator `mouse_middle = 200002`. -/
def input_code.mouse_middle : input_code := ⟨200002⟩

/-- The enumerator `mouse_fourth = 200003`. -/
def input_code.mouse_fourth : input_code := ⟨200003⟩

/-- The enumerator `mouse_fifth = 200004`. -/
def input_code.mouse_fifth : input_code := ⟨200004⟩

/-- The enumerator `mouse_y_up = 200009`. -/
def input_code.mouse_y_up : input_code := ⟨200009⟩

/-- The enumerator `mouse_y_down = 200010`. -/
def input_code.mouse_y_down : input_code := ⟨200010⟩

/-- The enumerator `mouse_wheel_up = 200011`. -/
def input_code.mouse_wheel_up : input_code := ⟨200011⟩

/-- The enumerator `mouse_wheel_down = 200012`. -/
def input_code.mouse_wheel_down : input_code := ⟨200012⟩

/-- The enumerator `mouse_y = 200014`. -/
def input_code.mouse_y : input_code := ⟨200014⟩

/-- The enumerator `mouse_wheel = 200015`. -/
def input_code.mouse_wheel : input_code := ⟨200015⟩

/-- The enumerator `pad_left_stick = 300004`. -/
def input_code.pad_left_stick : input_code := ⟨300004⟩

/-- The enumerator `pad_right_stick = 300011`. -/
def input_code.pad_right_stick : input_code := ⟨300011⟩

/-- The enumerator `pad_b = 300021`. -/
def input_code.pad_b : input_code := ⟨300021⟩

/-- The enumerator `pad_x = 300022`. -/
def input_code.pad_x : input_code := ⟨300022⟩

/-- The enumerator `pad_y = 300023`. -/
def input_code.pad_y : input_code := ⟨300023⟩

/-- The enumerator `pad_left_trigger = 300024`. -/
def input_code.pad_left_trigger : input_code := ⟨300024⟩

/-- The enumerator `pad_right_trigger = 300025`. -/
def input_code.pad_right_trigger : input_code := ⟨300025⟩

/-- The enumerator `pad_left_bumper = 300026`. -/
def input_code.pad_left_bumper : input_code := ⟨300026⟩

/-- The enumerator `pad_right_bumper = 300027`. -/
def input_code.pad_right_bumper : input_code := ⟨300027⟩

/-- The enumerator `pad_back = 300028`. -/
def input_code.pad_back : input_code := ⟨300028⟩

/-- The enumerator `pad_start = 300029`. -/
def input_code.pad_start : input_code := ⟨300029⟩

/-- What the type `std::unordered_map` and `add_axis` guarantee for `m_axes`:
keys are unique and `none` is not a key. -/
def device.axes_wf {α : Type} (d : device α) : Prop :=
  (d.m_axes.map (fun pair => pair.1)).Nodup ∧
    input_code.none ∉ d.m_axes.map (fun pair => pair.1)

/-- The API function `rb_minput_get_axis_count` for a non-null context. -/
def rb_minput_get_axis_count {α : Type} (c : context α) (id : Int) : Nat :=
  match c.get_device id with
  | Option.none => 0
  | some device => device.get_axis_count

/-- The API function `rb_minput_get_axes` for a non-null context: `none` is the
result 0, otherwise the codes copied into a buffer of `buffer_size` entries
(a null buffer is not modelled). -/
def rb_minput_get_axes {α : Type} (c : context α) (id : Int) (buffer_size : Nat) :
    Option (List input_code) :=
  match c.get_device id with
  | Option.none => Option.none
  | some device =>
    if buffer_size = 0 then Option.none
    else
      let axes := device.get_axis_codes
      some (axes.take (min buffer_size axes.length))

/-- The API function `rb_minput_get_values` for a non-null context: `none` is
the result 0, otherwise the values written to `current`, `previous` and
`next`. -/
def rb_minput_get_values {α : Type} (c : context α) (id : Int) (code : input_code) :
    Option (α × α × α) :=
  match c.get_device id with
  | Option.none => Option.none
  | some device =>
    match device.get_axis code with
    | Option.none => Option.none
    | some axis => some (axis.2.get, axis.2.get_previous, axis.2.get_next)

/-- The function `detail::maybe_reset_axis`. -/
def maybe_reset_axis {α : Type} [Zero α] (dev : device α) (code : input_code) : device α :=
  match dev.get_axis code with
  | Option.none => dev
  | some _ => dev.write_axis code (fun a => a.set 0)

/-- First statement of `derive_mouse_pre_commit`: reverse the staged value of
`mouse_y` when the device has that axis. -/
def derive_mouse_reverse_y {α : Type} [LinearOrderedRing α] (dev : device α) : device α :=
  match dev.get_axis input_code.mouse_y with
  | some axis => dev.write_axis input_code.mouse_y (fun a => a.set (-axis.2.get_next))
  | Option.none => dev

/-- The function `derive_mouse_pre_commit`. -/
def derive_mouse_pre_commit {α : Type} [LinearOrderedRing α] (dev : device α) : device α :=
  let d0 := derive_mouse_reverse_y dev
  let d1 := derive_axis d0 input_code.mouse_x input_code.mouse_x_left input_code.mouse_x_right
  let d2 := derive_axis d1 input_code.mouse_y input_code.mouse_y_down input_code.mouse_y_up
  derive_axis d2 input_code.mouse_wheel input_code.mouse_wheel_down input_code.mouse_wheel_up

/-- The function `derive_mouse_post_commit`. -/
def derive_mouse_post_commit {α : Type} [Zero α] (dev : device α) : device α :=
  maybe_reset_axis (maybe_reset_axis (maybe_reset_axis dev input_code.mouse_x)
    input_code.mouse_y) input_code.mouse_wheel

/-- The method `xi2_device::commit`. -/
def xi2_device_commit {α : Type} [LinearOrderedRing α] (dev : device α) : device α :=
  derive_mouse_post_commit (derive_mouse_pre_commit dev).commit

/-- The method `raw_input_device::commit`. -/
def raw_input_device_commit {α : Type} [LinearOrderedRing α] (dev : device α) : device α :=
  derive_mouse_post_commit (derive_mouse_pre_commit dev).commit

/-! ## xinput_device.cpp, hidm_device.cpp: value mapping -/

/-- The constant `deadzone_left_stick`. -/
def deadzone_left_stick {α : Type} [LinearOrderedField α] : α := 7849

/-- The constant `deadzone_right_stick`. -/
def deadzone_right_stick {α : Type} [LinearOrderedField α] : α := 8689

/-- The constant `deadzone_trigger`. -/
def deadzone_trigger {α : Type} [LinearOrderedField α] : α := 30

/-- The function `get_deadzone_for` of `xinput_device.cpp`. -/
def get_deadzone_for {α : Type} [LinearOrderedField α] (code : input_code) : α :=
  if code = input_code.pad_left_stick_x ∨ code = input_code.pad_left_stick_y then
    deadzone_left_stick
  else if code = input_code.pad_right_stick_x ∨ code = input_code.pad_right_stick_y then
    deadzone_right_stick
  else if code = input_code.pad_left_trigger ∨ code = input_code.pad_right_trigger then
    deadzone_trigger
  else 0

/-- The function `get_max_for` of `xinput_device.cpp`. -/
def get_max_for {α : Type} [LinearOrderedField α] (code : input_code) : α :=
  if code = input_code.pad_left_stick_x ∨ code = input_code.pad_left_stick_y ∨
      code = input_code.pad_right_stick_x ∨ code = input_code.pad_right_stick_y then 32767
  else if code = input_code.pad_left_trigger ∨ code = input_code.pad_right_trigger then 255
  else 0

/-- The function `map_value` of `xinput_device.cpp`; it has a value when the
call of `apply_deadzone` has one. -/
def map_value {α : Type} [LinearOrderedField α] (code : input_code) (raw_value : α) :
    Option α :=
  let deadzone : α := get_deadzone_for code
  let max : α := get_max_for code
  if raw_value < 0 then (apply_deadzone (-raw_value) max deadzone).map (fun v => -v)
  else apply_deadzone raw_value max deadzone

/-- The function `get_pad_deadzone_for` of `hidm_device.cpp`. -/
def get_pad_deadzone_for {α : Type} [LinearOrderedField α] (code : input_code) : α :=
  if code = input_code.pad_left_stick_x ∨ code = input_code.pad_left_stick_y then
    deadzone_left_stick
  else if code = input_code.pad_right_stick_x ∨ code = input_code.pad_right_stick_y then
    deadzone_right_stick
  else if code = input_code.pad_left_trigger ∨ code = input_code.pad_right_trigger then
    deadzone_trigger
  else 0

/-- The function `get_pad_max_for` of `hidm_device.cpp`. -/
def get_pad_max_for {α : Type} [LinearOrderedField α] (code : input_code) : α :=
  if code = input_code.pad_left_stick_x ∨ code = input_code.pad_left_stick_y ∨
      code = input_code.pad_right_stick_x ∨ code = input_code.pad_right_stick_y then 32767
  else if code = input_code.pad_left_trigger ∨ code = input_code.pad_right_trigger then 255
  else 0

/-- The function `map_pad_value` of `hidm_device.cpp`. -/
def map_pad_value {α : Type} [LinearOrderedField α] (code : input_code) (raw_value : α) :
    Option α :=
  let deadzone : α := get_pad_deadzone_for code
  let max : α := get_pad_max_for code
  let raw_value1 :=
    if code = input_code.pad_left_stick_y ∨ code = input_code.pad_right_stick_y then -raw_value
    else raw_value
  if raw_value1 < 0 then (apply_deadzone (-raw_value1) max deadzone).map (fun v => -v)
  else apply_deadzone raw_value1 max deadzone

/-! ## evdev_device.cpp: post_update -/

/-- The static array `buttons` of `evdev_device::post_update`. -/
def evdev_post_update_buttons : List input_code :=
  [input_code.pad_a, input_code.pad_b, input_code.pad_x, input_code.pad_x,
    input_code.pad_dpad_left, input_code.pad_dpad_right, input_code.pad_dpad_up,
    input_code.pad_dpad_down, input_code.pad_left_stick, input_code.pad_right_stick,
    input_code.pad_left_bumper, input_code.pad_right_bumper, input_code.pad_back,
    input_code.pad_start]

/-- The counting loop of `evdev_device::post_update` over a list of codes. -/
def evdev_post_update_count {α : Type} [Zero α] [DecidableEq α] (dev : device α) :
    List input_code → Nat
  | [] => 0
  | code :: rest =>
    match dev.get_axis code with
    | some axis =>
      if axis.2.get_next ≠ 0 then evdev_post_update_count dev rest + 1
      else evdev_post_update_count dev rest
    | Option.none => evdev_post_update_count dev rest

/-- The method `evdev_device::post_update`. -/
def evdev_post_update {α : Type} [Zero α] [DecidableEq α] (dev : device α) : device α :=
  if !dev.is_usable then dev
  else if evdev_post_update_count dev evdev_post_update_buttons ≥ 6 then dev.reset
  else dev

/-- The pad buttons: the codes named by the comment and the list of
`post_update`, each once. -/
def pad_buttons : List input_code :=
  [input_code.pad_a, input_code.pad_b, input_code.pad_x, input_code.pad_y,
    input_code.pad_dpad_left, input_code.pad_dpad_right, input_code.pad_dpad_up,
    input_code.pad_dpad_down, input_code.pad_left_stick, input_code.pad_right_stick,
    input_code.pad_left_bumper, input_code.pad_right_bumper, input_code.pad_back,
    input_code.pad_start]

/-- An evdev pad with all pad buttons on which the given buttons are pressed
(1 is staged on each). -/
def pressed_pad (pressed : List input_code) : device Int :=
  pressed.foldl (fun d code => d.write_axis code (fun a => a.set 1))
    ((device.init device_kind.evdev 5).add_axes pad_buttons)

/-! ## setupdi.cpp: enumerate_devices -/

/-- What the SetupDI calls report for one present device: the instance id, the
friendly name (empty when the device has none) and the result of
`get_hid_info`. -/
structure present_device where
  instance_id : String
  name : String
  m_has_attrs : Bool
  m_product_name : String
  m_vendor_id : Int
  m_product_id : Int
  m_revision : Int
  m_serial : String
deriving DecidableEq, Repr

/-- The struct `setup_device_info`. -/
structure setup_device_info where
  m_instance_id : String
  m_friendly_name : String
  m_location_id : String
  m_vendor_id : Int
  m_product_id : Int
  m_revision : Int
  m_serial : String
deriving DecidableEq, Repr

/-- The function `is_blacklisted`; the two prefixes are `root`, a backslash and
`rdp_kbd` or `rdp_mou`. -/
def is_blacklisted (instance_id : String) : Bool :=
  instance_id.startsWith ("root" ++ String.singleton (Char.ofNat 92) ++ "rdp_kbd") ||
    instance_id.startsWith ("root" ++ String.singleton (Char.ofNat 92) ++ "rdp_mou")

/-- Body of the `else` branch that fills `device_info` for a device not yet in
`result`. -/
def make_setup_device_info (dev : present_device) : setup_device_info :=
  let name :=
    if dev.m_has_attrs && decide (dev.m_product_name.length > 0) then dev.m_product_name
    else dev.name
  { m_instance_id := dev.instance_id,
    m_friendly_name := name,
    m_location_id := dev.instance_id,
    m_vendor_id := if dev.m_has_attrs then dev.m_vendor_id else 0,
    m_product_id := if dev.m_has_attrs then dev.m_product_id else 0,
    m_revision := if dev.m_has_attrs then dev.m_revision else 0,
    m_serial := if dev.m_has_attrs then dev.m_serial else "" }

/-- The `while (true)` loop of `enumerate_devices` over the list of present
devices: `SetupDiEnumDeviceInfo` fails with `ERROR_NO_MORE_ITEMS` exactly when
`device_index` is past the list. Each iteration uses one unit of `fuel`;
`none` means the loop has not left after `fuel` iterations. The result map is
a list of entries, newest last. -/
def enumerate_devices_loop (devices : List present_device) :
    Nat → Nat → List (String × setup_device_info) → Option (List (String × setup_device_info))
  | 0, _, _ => Option.none
  | fuel + 1, device_index, result =>
    match devices[device_index]? with
    | Option.none => some result
    | some dev =>
      if dev.name = "" then enumerate_devices_loop devices fuel device_index result
      else if is_blacklisted dev.name then enumerate_devices_loop devices fuel device_index result
      else if (result.find? (fun entry => entry.1 = dev.instance_id)).isNone then
        enumerate_devices_loop devices fuel (device_index + 1)
          (result ++ [(dev.instance_id, make_setup_device_info dev)])
      else enumerate_devices_loop devices fuel (device_index + 1) result

/-- A present device without a friendly name. -/
def nameless_device : present_device :=
  { instance_id := "usb", name := "", m_has_attrs := false, m_product_name := "",
    m_vendor_id := 0, m_product_id := 0, m_revision := 0, m_serial := "" }

/-! ## raw_input_device.cpp -/

/-- The `RIM_TYPEMOUSE` case of the constructor of `raw_input_device` for a
mouse that reports `dwNumberOfButtons` buttons; `mt` is the meta data the
constructor sets first. -/
def raw_input_device_init_mouse {α : Type} [Zero α] (id : Int) (mt : device_meta)
    (dwNumberOfButtons : Nat) : device α :=
  let d0 : device α := device.init device_kind.raw_input id
  let d1 := { d0 with m_meta := mt }
  let d2 := d1.add_axes [input_code.mouse_x, input_code.mouse_x_left,
    input_code.mouse_x_right, input_code.mouse_y, input_code.mouse_y_up,
    input_code.mouse_y_down, input_code.mouse_wheel, input_code.mouse_wheel_up,
    input_code.mouse_wheel_down, input_code.mouse_left, input_code.mouse_right]
  let d3 := if dwNumberOfButtons > 2 then (d2.add_axis input_code.mouse_middle).2 else d2
  let d4 := if dwNumberOfButtons > 3 then (d3.add_axis input_code.mouse_fourth).2 else d3
  if dwNumberOfButtons > 4 then (d4.add_axis input_code.mouse_fifth).2 else d4

/-- The flag `RI_MOUSE_BUTTON_1_DOWN` (Windows header value). -/
def RI_MOUSE_BUTTON_1_DOWN : Nat := 1

/-- The flag `RI_MOUSE_BUTTON_1_UP` (Windows header value). -/
def RI_MOUSE_BUTTON_1_UP : Nat := 2

/-- The flag `RI_MOUSE_BUTTON_2_DOWN` (Windows header value). -/
def RI_MOUSE_BUTTON_2_DOWN : Nat := 4

/-- The flag `RI_MOUSE_BUTTON_2_UP` (Windows header value). -/
def RI_MOUSE_BUTTON_2_UP : Nat := 8

/-- The flag `RI_MOUSE_BUTTON_3_DOWN` (Windows header value). -/
def RI_MOUSE_BUTTON_3_DOWN : Nat := 16

/-- The flag `RI_MOUSE_BUTTON_3_UP` (Windows header value). -/
def RI_MOUSE_BUTTON_3_UP : Nat := 32

/-- The flag `RI_MOUSE_BUTTON_4_DOWN` (Windows header value). -/
def RI_MOUSE_BUTTON_4_DOWN : Nat := 64

/-- The flag `RI_MOUSE_BUTTON_4_UP` (Windows header value). -/
def RI_MOUSE_BUTTON_4_UP : Nat := 128

/-- The flag `RI_MOUSE_BUTTON_5_DOWN` (Windows header value). -/
def RI_MOUSE_BUTTON_5_DOWN : Nat := 256

/-- The flag `RI_MOUSE_BUTTON_5_UP` (Windows header value). -/
def RI_MOUSE_BUTTON_5_UP : Nat := 512

/-- The method `raw_input_device::update_mouse_button`. The pointer returned by
`get_axis` is used without a check: `none` is the write through a null
pointer. -/
def raw_input_update_mouse_button {α : Type} [Zero α] [One α] (dev : device α)
    (code : input_code) (button_flags is_up_flag is_down_flag : Nat) : Option (device α) :=
  let is_up := (button_flags &&& is_up_flag) ≠ 0
  let is_down := (button_flags &&& is_down_flag) ≠ 0
  if ¬ is_up ∧ ¬ is_down then some dev
  else
    match dev.get_axis code with
    | Option.none => Option.none
    | some _ => some (dev.write_axis code (fun a => a.set (if is_down then 1 else 0)))

/-- The method `raw_input_device::update_mouse_axis`. The pointer returned by
`get_axis` is used without a check: `none` is the write through a null
pointer. -/
def raw_input_update_mouse_axis {α : Type} [LinearOrderedField α] (dev : device α)
    (code : input_code) (value : α) : Option (device α) :=
  if |value| < 1 / 100000 then some dev
  else
    match dev.get_axis code with
    | Option.none => Option.none
    | some _ => some (dev.write_axis code (fun a => a.add value))

/-- The method `raw_input_device::update_mouse` from its first call of
`update_mouse_axis` on; `wheel`, `update_pos`, `x` and `y` are the values it
computed from the packet before. -/
def raw_input_update_mouse {α : Type} [LinearOrderedField α] (dev : device α)
    (wheel : α) (update_pos : Bool) (x y : α) (button_flags : Nat) : Option (device α) := do
  let d1 ← raw_input_update_mouse_axis dev input_code.mouse_wheel wheel
  let d2 ← if update_pos then
      (raw_input_update_mouse_axis d1 input_code.mouse_x x).bind
        (fun d => raw_input_update_mouse_axis d input_code.mouse_y y)
    else some d1
  let d3 ← raw_input_update_mouse_button d2 input_code.mouse_left button_flags
    RI_MOUSE_BUTTON_1_UP RI_MOUSE_BUTTON_1_DOWN
  let d4 ← raw_input_update_mouse_button d3 input_code.mouse_right button_flags
    RI_MOUSE_BUTTON_2_UP RI_MOUSE_BUTTON_2_DOWN
  let d5 ← raw_input_update_mouse_button d4 input_code.mouse_middle button_flags
    RI_MOUSE_BUTTON_3_UP RI_MOUSE_BUTTON_3_DOWN
  let d6 ← raw_input_update_mouse_button d5 input_code.mouse_fourth button_flags
    RI_MOUSE_BUTTON_4_UP RI_MOUSE_BUTTON_4_DOWN
  raw_input_update_mouse_button d6 input_code.mouse_fifth button_flags
    RI_MOUSE_BUTTON_5_UP RI_MOUSE_BUTTON_5_DOWN

/-! ## xi2_device.cpp: update_motion -/

/-- The valuator numbers an `xi2_device` recorded in `add_valuator_class`; -1
when the device has no such valuator. -/
structure xi2_valuators where
  m_axis_rel_x : Int
  m_axis_rel_y : Int
  m_axis_rel_horiz_wheel : Int
  m_axis_rel_vert_wheel : Int
deriving DecidableEq, Repr

/-- The method `xi2_device::update_motion`; the event is the list of the set
mask bits with their raw values, in increasing order of the bit. -/
def xi2_update_motion {α : Type} [Add α] (v : xi2_valuators) (dev : device α) :
    List (Int × α) → device α
  | [] => dev
  | (idx, value) :: rest =>
    let axis :=
      if idx = v.m_axis_rel_x then dev.get_axis input_code.mouse_x
      else if idx = v.m_axis_rel_y then dev.get_axis input_code.mouse_y
      else if idx = v.m_axis_rel_vert_wheel then dev.get_axis input_code.mouse_wheel
      else Option.none
    let code :=
      if idx = v.m_axis_rel_x then input_code.mouse_x
      else if idx = v.m_axis_rel_y then input_code.mouse_y
      else input_code.mouse_wheel
    match axis with
    | Option.none => xi2_update_motion v dev rest
    | some _ => xi2_update_motion v (dev.write_axis code (fun a => a.add value)) rest

/-! ## hidm_device.cpp -/

/-- The part of `hidm_device` the model needs: the base object and the map from
element cookies to codes. -/
structure hidm_device (α : Type) where
  dev : device α
  m_axis_map : List (Nat × input_code)
deriving DecidableEq, Repr

/-- The assignment `m_axis_map[cookie] = axis`. -/
def axis_map_set : List (Nat × input_code) → Nat → input_code → List (Nat × input_code)
  | [], cookie, axis => [(cookie, axis)]
  | (k, a) :: rest, cookie, axis =>
    if k = cookie then (k, axis) :: rest else (k, a) :: axis_map_set rest cookie axis

/-- The lookup `m_axis_map.find(cookie)`. -/
def axis_map_find : List (Nat × input_code) → Nat → Option input_code
  | [], _ => Option.none
  | (k, a) :: rest, cookie => if k = cookie then some a else axis_map_find rest cookie

namespace hidm_device

variable {α : Type}

/-- The method `hidm_device::add_axis(element, axis)`; the element is given by
its cookie. -/
def add_axis [Zero α] (h : hidm_device α) (cookie : Nat) (axis : input_code) : hidm_device α :=
  { dev := (h.dev.add_axis axis).2, m_axis_map := axis_map_set h.m_axis_map cookie axis }

/-- The call `device::add_axis(axis)` made on a `hidm_device`. -/
def add_base_axis [Zero α] (h : hidm_device α) (axis : input_code) : hidm_device α :=
  { h with dev := (h.dev.add_axis axis).2 }

end hidm_device

/-- The usage page `kHIDPage_GenericDesktop` (IOKit header value). -/
def kHIDPage_GenericDesktop : Nat := 1

/-- The usage page `kHIDPage_Button` (IOKit header value). -/
def kHIDPage_Button : Nat := 9

/-- The usage `kHIDUsage_GD_GamePad` (IOKit header value). -/
def kHIDUsage_GD_GamePad : Nat := 5

/-- The usage `kHIDUsage_GD_X` (IOKit header value). -/
def kHIDUsage_GD_X : Nat := 48

/-- The usage `kHIDUsage_GD_Y` (IOKit header value). -/
def kHIDUsage_GD_Y : Nat := 49

/-- The usage `kHIDUsage_GD_Z` (IOKit header value). -/
def kHIDUsage_GD_Z : Nat := 50

/-- The usage `kHIDUsage_GD_Rx` (IOKit header value). -/
def kHIDUsage_GD_Rx : Nat := 51

/-- The usage `kHIDUsage_GD_Ry` (IOKit header value). -/
def kHIDUsage_GD_Ry : Nat := 52

/-- The usage `kHIDUsage_GD_Rz` (IOKit header value). -/
def kHIDUsage_GD_Rz : Nat := 53

/-- The inner `switch (usage)` of the case `kHIDPage_GenericDesktop` of
`hidm_device::add_gamepad_element`. -/
def add_gamepad_desktop_usage {α : Type} [Zero α] (h : hidm_device α) (cookie usage : Nat) :
    hidm_device α :=
  if usage = kHIDUsage_GD_X then
    ((h.add_axis cookie input_code.pad_left_stick_x).add_base_axis
      input_code.pad_left_stick_left).add_base_axis input_code.pad_left_stick_right
  else if usage = kHIDUsage_GD_Y then
    ((h.add_axis cookie input_code.pad_left_stick_y).add_base_axis
      input_code.pad_left_stick_up).add_base_axis input_code.pad_left_stick_down
  else if usage = kHIDUsage_GD_Z then h.add_axis cookie input_code.pad_left_trigger
  else if usage = kHIDUsage_GD_Rx then
    ((h.add_axis cookie input_code.pad_right_stick_x).add_base_axis
      input_code.pad_right_stick_left).add_base_axis input_code.pad_right_stick_right
  else if usage = kHIDUsage_GD_Ry then
    ((h.add_axis cookie input_code.pad_right_stick_y).add_base_axis
      input_code.pad_right_stick_up).add_base_axis input_code.pad_right_stick_down
  else if usage = kHIDUsage_GD_Rz then h.add_axis cookie input_code.pad_right_trigger
  else h

/-- The inner `switch (usage)` of the case `kHIDPage_Button` of
`hidm_device::add_gamepad_element`. -/
def add_gamepad_button_usage {α : Type} [Zero α] (h : hidm_device α) (cookie usage : Nat) :
    hidm_device α :=
  match usage with
  | 1 => h.add_axis cookie input_code.pad_a
  | 2 => h.add_axis cookie input_code.pad_b
  | 3 => h.add_axis cookie input_code.pad_x
  | 4 => h.add_axis cookie input_code.pad_y
  | 5 => h.add_axis cookie input_code.pad_left_bumper
  | 6 => h.add_axis cookie input_code.pad_right_bumper
  | 7 => h.add_axis cookie input_code.pad_left_stick
  | 8 => h.add_axis cookie input_code.pad_right_stick
  | 9 => h.add_axis cookie input_code.pad_start
  | 10 => h.add_axis cookie input_code.pad_back
  | 12 => (h.add_axis cookie input_code.pad_dpad_up).add_base_axis input_code.pad_dpad_y
  | 13 => (h.add_axis cookie input_code.pad_dpad_down).add_base_axis input_code.pad_dpad_y
  | 14 => (h.add_axis cookie input_code.pad_dpad_left).add_base_axis input_code.pad_dpad_x
  | 15 => (h.add_axis cookie input_code.pad_dpad_right).add_base_axis input_code.pad_dpad_x
  | _ => h

/-- The method `hidm_device::add_gamepad_element` for an element with the given
cookie, usage page and usage. The case `kHIDPage_GenericDesktop` has no
`break` after its inner switch, so control falls into the case
`kHIDPage_Button`. -/
def add_gamepad_element {α : Type} [Zero α] (h : hidm_device α) (cookie page usage : Nat) :
    hidm_device α :=
  if page = kHIDPage_GenericDesktop then
    add_gamepad_button_usage (add_gamepad_desktop_usage h cookie usage) cookie usage
  else if page = kHIDPage_Button then add_gamepad_button_usage h cookie usage
  else h

/-- The method `hidm_device::on_input` for a value on the element with the
given cookie. `none` is a write through a null pointer or a mapped value
that does not exist. -/
def hidm_on_input {α : Type} [LinearOrderedField α] (h : hidm_device α) (cookie : Nat)
    (raw_value : α) : Option (hidm_device α) :=
  match axis_map_find h.m_axis_map cookie with
  | Option.none => some h
  | some code =>
    let value : Option α :=
      if code = input_code.pad_left_stick_x ∨ code = input_code.pad_left_stick_y ∨
          code = input_code.pad_right_stick_x ∨ code = input_code.pad_right_stick_y ∨
          code = input_code.pad_left_trigger ∨ code = input_code.pad_right_trigger then
        map_pad_value code raw_value
      else some raw_value
    match h.dev.get_axis code, value with
    | some _, some v => some { h with dev := h.dev.write_axis code (fun a => a.set v) }
    | _, _ => Option.none

/-- A two button mouse as `raw_input_device` builds it. -/
def two_button_mouse : device ℚ := raw_input_device_init_mouse 6 device_meta.init 2

/-- A five button mouse as `raw_input_device` builds it, with 3 staged on
`mouse_x`, 5 on `mouse_y` and -2 on `mouse_wheel`. -/
def moving_mouse : device Int :=
  (((raw_input_device_init_mouse 7 device_meta.init 5).write_axis input_code.mouse_x
    (fun a => a.set 3)).write_axis input_code.mouse_y (fun a => a.set 5)).write_axis
    input_code.mouse_wheel (fun a => a.set (-2))

/-- A macOS mouse whose element with cookie 1 is mapped to `mouse_x`, as
`add_mouse_element` registers it for the usage X. -/
def hidm_mouse : hidm_device ℚ :=
  ((({ dev := device.init device_kind.hidm 8, m_axis_map := [] } : hidm_device ℚ).add_axis 1
    input_code.mouse_x).add_base_axis input_code.mouse_x_left).add_base_axis
    input_code.mouse_x_right

/-- An `xi2_device` mouse whose valuator 0 is the relative x axis. -/
def xi2_mouse : device Int :=
  (device.init device_kind.xi2 9).add_axes
    [input_code.mouse_x_left, input_code.mouse_x_right, input_code.mouse_x]

/-! ## Sources: enum_devices -/

/-- The lookup `m_device_map.find(handle)` of a source; the map takes the
native handle of a device to its device id. -/
def device_map_find {κ : Type} [DecidableEq κ] : List (κ × Int) → κ → Option Int
  | [], _ => Option.none
  | (k, id) :: rest, handle => if k = handle then some id else device_map_find rest handle

/-- Result of `m_device_map.emplace(handle, id)`: an entry that already has
the key is kept. -/
def device_map_emplace {κ : Type} [DecidableEq κ] (m : List (κ × Int)) (handle : κ)
    (id : Int) : List (κ × Int) :=
  match device_map_find m handle with
  | some _ => m
  | Option.none => m ++ [(handle, id)]

/-- Result of `m_device_map.erase(m_device_map.find(handle))`. -/
def device_map_erase {κ : Type} [DecidableEq κ] : List (κ × Int) → κ → List (κ × Int)
  | [], _ => []
  | (k, id) :: rest, handle =>
    if k = handle then rest else (k, id) :: device_map_erase rest handle

/-- The sources whose `enum_devices` discards and rediscovers: `xi2_source`,
`evdev_source`, `raw_input_source` and `hidm_source`. -/
inductive rescanning_source where
  | xi2_source
  | evdev_source
  | raw_input_source
  | hidm_source
deriving DecidableEq, Repr

/-- What `add_device` does with a handle that is in the map already:
`xi2_source` and `evdev_source` remove the old device and go on,
`raw_input_source` and `hidm_source` return. -/
def rescanning_source.replaces_existing : rescanning_source → Bool
  | rescanning_source.xi2_source => true
  | rescanning_source.evdev_source => true
  | rescanning_source.raw_input_source => false
  | rescanning_source.hidm_source => false

/-- The method `remove_device(handle)` of a source, on the pair of
`m_device_map` and the context. -/
def source_remove_device {κ α : Type} [DecidableEq κ] (s : List (κ × Int) × context α)
    (handle : κ) : List (κ × Int) × context α :=
  match device_map_find s.1 handle with
  | Option.none => s
  | some id => (device_map_erase s.1 handle, s.2.remove_device id)

/-- The tail shared by the `add_device` methods: `get_next_id`, the device
constructor (which gets the context and the id), `add_device` on the context
and `m_device_map.emplace`. -/
def source_create_device {κ α : Type} [DecidableEq κ]
    (construct : κ → Int → context α → device α × context α)
    (s : List (κ × Int) × context α) (handle : κ) : List (κ × Int) × context α :=
  let r := s.2.get_next_id
  let built := construct handle r.1 r.2
  (device_map_emplace s.1 handle r.1, built.2.add_device built.1)

/-- The method `add_device` of a source for a handle the platform reported.
The flag of `found` tells whether the device passes the tests of the source
(`is_interesting` for `xi2_source`; an `event` node tagged as joystick that
can be opened for `evdev_source`; a `found_devices` entry and the type mouse
or keyboard for `raw_input_source`; a name that is not empty for
`hidm_source`), as `source_accepts` computes it. -/
def source_add_device {κ α : Type} [DecidableEq κ] (b : rescanning_source)
    (construct : κ → Int → context α → device α × context α)
    (s : List (κ × Int) × context α) (found : κ × Bool) : List (κ × Int) × context α :=
  if b.replaces_existing then
    if found.2 = false then s
    else
      source_create_device construct
        (if (device_map_find s.1 found.1).isSome then source_remove_device s found.1 else s)
        found.1
  else
    if (device_map_find s.1 found.1).isSome then s
    else if found.2 = false then s
    else source_create_device construct s found.1

/-- A device that the platform lists for `enum_devices`: its native handle, the
instance id that `raw_input_source::add_device` makes from its raw name (used by
that source only), and whether it passes the tests that `add_device` makes on
the device itself (`is_interesting` for `xi2_source`; an `event` node tagged as
joystick that can be opened for `evdev_source`; the type mouse or keyboard for
`raw_input_source`; a name that is not empty for `hidm_source`). -/
structure reported_device (κ : Type) where
  handle : κ
  instance_id : String
  passes : Bool
deriving DecidableEq, Repr

/-- Whether `add_device` goes on to create a device object for a listed device
that is not in the map: for `raw_input_source` the instance id must have an
entry in `found_devices`, the result of `enumerate_devices`. -/
def source_accepts {κ : Type} (b : rescanning_source)
    (found_devices : List (String × setup_device_info)) (r : reported_device κ) : Bool :=
  match b with
  | rescanning_source.raw_input_source =>
    (found_devices.find? (fun entry => entry.1 = r.instance_id)).isSome && r.passes
  | _ => r.passes

/-- The method `enum_devices` of a rescanning source: `remove_device` on the
context for every id of the map (in iteration order), `clear`, then
`add_device` for every device the platform lists. In `raw_input_source` the
call `enumerate_devices(m_ctx)` stands between `clear` and the `add_device`
loop; `setup` is the list of present devices that call walks and `fuel`
bounds the iterations of its loop, so `none` means that `enum_devices` has not
returned. The other sources make no such call and ignore `setup` and `fuel`. -/
def source_enum_devices {κ α : Type} [DecidableEq κ] (b : rescanning_source)
    (construct : κ → Int → context α → device α × context α)
    (s : List (κ × Int) × context α) (reported : List (reported_device κ))
    (setup : List present_device) (fuel : Nat) : Option (List (κ × Int) × context α) :=
  let c1 := s.1.foldl (fun c pair => c.remove_device pair.2) s.2
  let found_devices :=
    match b with
    | rescanning_source.raw_input_source => enumerate_devices_loop setup fuel 0 []
    | _ => some []
  found_devices.map (fun found =>
    reported.foldl
      (fun st r => source_add_device b construct st (r.handle, source_accepts b found r))
      ([], c1))

/-- Invariant of a source state during rediscovery that started with the id
counter at `c0` and the registry `base`: mapped ids are distinct, at least
`c0`, below the counter and registered; registry keys are unique; ids below
`c0` are registered as in `base`. -/
def source_state_wf {κ α : Type} (c0 : Int) (base : List (Int × device α))
    (s : List (κ × Int) × context α) : Prop :=
  c0 ≤ s.2.m_next_unique_id ∧
    (∀ pair ∈ s.1, c0 ≤ pair.2 ∧ pair.2 < s.2.m_next_unique_id ∧
      (devices_find s.2.m_devices pair.2).isSome = true) ∧
    (s.1.map (fun pair => pair.2)).Nodup ∧
    (s.2.m_devices.map (fun pair => pair.1)).Nodup ∧
    ∀ id, id < c0 → devices_find s.2.m_devices id = devices_find base id

/-- The members `m_created_devices` and `m_devices` of `xinput_source`; a
pointer in `m_devices` is given by the id of its device. -/
structure xinput_source where
  m_created_devices : Bool
  m_devices : List Int
deriving DecidableEq, Repr

/-- Constructor `xinput_source::xinput_source`. -/
def xinput_source.init : xinput_source := { m_created_devices := false, m_devices := [] }

/-- Constructor `xinput_device::xinput_device` for a pad whose state holds the
packet number 0, so that `update` returns after `set_usable`; `connected` is
whether `XInputGetState` succeeded. -/
def xinput_device_init {α : Type} [Zero α] (c : context α) (id : Int) (index : Nat)
    (connected : Bool) : device α × context α :=
  let d0 : device α := device.init device_kind.xinput id
  let internal_id := "xinput:" ++ toString index
  let mt := { d0.m_meta with m_name := "XInput Gamepad " ++ toString (index + 1),
                             m_internal_id := internal_id, m_location_id := internal_id }
  let d1 := { d0 with m_meta := mt }
  let d2 := d1.add_axes [input_code.pad_left_stick_up, input_code.pad_left_stick_down,
    input_code.pad_left_stick_left, input_code.pad_left_stick_right,
    input_code.pad_left_stick, input_code.pad_left_stick_x, input_code.pad_left_stick_y,
    input_code.pad_right_stick_up, input_code.pad_right_stick_down,
    input_code.pad_right_stick_left, input_code.pad_right_stick_right,
    input_code.pad_right_stick, input_code.pad_right_stick_x, input_code.pad_right_stick_y,
    input_code.pad_dpad_up, input_code.pad_dpad_down, input_code.pad_dpad_left,
    input_code.pad_dpad_right, input_code.pad_dpad_x, input_code.pad_dpad_y,
    input_code.pad_a, input_code.pad_b, input_code.pad_x, input_code.pad_y,
    input_code.pad_left_trigger, input_code.pad_right_trigger, input_code.pad_left_bumper,
    input_code.pad_right_bumper, input_code.pad_back, input_code.pad_start]
  d2.set_usable c connected

/-- The method `xinput_source::enum_devices`; `construct index id ctx` is the
constructor call `new xinput_device(m_ctx, id, index)`. -/
def xinput_source_enum_devices {α : Type}
    (construct : Nat → Int → context α → device α × context α)
    (s : xinput_source × context α) : xinput_source × context α :=
  if s.1.m_created_devices then s
  else
    let out := (List.range 4).foldl
      (fun (st : List Int × context α) index =>
        let r := st.2.get_next_id
        let built := construct index r.1 r.2
        (st.1 ++ [r.1], built.2.add_device built.1))
      ([], s.2)
    ({ m_created_devices := true, m_devices := out.1 }, out.2)

/-- The constructor of `xinput_source_enum_devices` on a machine where no pad
is connected. -/
def no_pad_connected (index : Nat) (id : Int) (c : context Int) : device Int × context Int :=
  xinput_device_init c id index false

/-- The state of a fresh `xinput_source` and a fresh context after the first
`enum_devices`. -/
def xinput_enumerated : xinput_source × context Int :=
  xinput_source_enum_devices no_pad_connected (xinput_source.init, context.init)

/-- The constructor of an `xi2_source` whose devices are all enabled. -/
def xi2_enabled_device (_handle : Nat) (id : Int) (c : context Int) :
    device Int × context Int :=
  xi2_device_init c id device_meta.init true

/-- A context with the devices 1 and 2, of which a source registered the
second under the handle 11. -/
def xi2_source_sample : List (Nat × Int) × context Int :=
  ([(11, 2)], { two_pads with m_next_unique_id := 3 })

/-- The constructor of a `raw_input_source` whose devices are all mice with
three buttons. -/
def raw_input_mouse_device (_handle : Nat) (id : Int) (c : context Int) :
    device Int × context Int :=
  (raw_input_device_init_mouse id device_meta.init 3, c)

/-- A present device with a friendly name. -/
def named_device : present_device :=
  { instance_id := "hid1", name := "mouse", m_has_attrs := false, m_product_name := "",
    m_vendor_id := 0, m_product_id := 0, m_revision := 0, m_serial := "" }

end multi_input

/-! # Properties -/

namespace multi_input

section axes_lemmas

variable {α : Type}

theorem axes_find_isSome_iff (axes : List (input_code × virtual_axis α)) (code : input_code) :
    (axes_find axes code).isSome = true ↔ code ∈ axes.map (fun pair => pair.1) := by
  induction axes with
  | nil => simp [axes_find]
  | cons hd tl ih =>
    obtain ⟨k, a⟩ := hd
    by_cases h : k = code
    · simp [axes_find, h]
    · have h2 : ¬ code = k := fun e => h e.symm
      simp only [axes_find, h, if_false, Option.isSome_map', List.map_cons, List.mem_cons, h2,
        false_or]
      exact ih

theorem axes_find_eq_none_iff (axes : List (input_code × virtual_axis α)) (code : input_code) :
    axes_find axes code = Option.none ↔ code ∉ axes.map (fun pair => pair.1) := by
  rw [← axes_find_isSome_iff]
  cases axes_find axes code <;> simp

theorem axes_find_append_of_some (l1 l2 : List (input_code × virtual_axis α))
    (code : input_code) (r : Nat × virtual_axis α) (h : axes_find l1 code = some r) :
    axes_find (l1 ++ l2) code = some r := by
  induction l1 generalizing r with
  | nil => simp [axes_find] at h
  | cons hd tl ih =>
    obtain ⟨k, a⟩ := hd
    by_cases hk : k = code
    · simpa [axes_find, hk] using h
    · rw [List.cons_append]
      simp only [axes_find, hk, if_false] at h ⊢
      cases hf : axes_find tl code with
      | none => simp [hf] at h
      | some r1 =>
        rw [ih r1 hf]
        simpa [hf] using h

theorem axes_find_append_single (l : List (input_code × virtual_axis α))
    (code : input_code) (v : virtual_axis α) (h : axes_find l code = Option.none) :
    axes_find (l ++ [(code, v)]) code = some (l.length, v) := by
  induction l with
  | nil => simp [axes_find]
  | cons hd tl ih =>
    obtain ⟨k, a⟩ := hd
    by_cases hk : k = code
    · simp [axes_find, hk] at h
    · rw [List.cons_append]
      simp only [axes_find, hk, if_false] at h ⊢
      have hf : axes_find tl code = Option.none := by
        cases hf : axes_find tl code with
        | none => rfl
        | some r1 => simp [hf] at h
      rw [ih hf]
      simp

theorem axes_emplace_of_some (axes : List (input_code × virtual_axis α)) (code : input_code)
    (v : virtual_axis α) (r : Nat × virtual_axis α) (h : axes_find axes code = some r) :
    axes_emplace axes code v = axes := by
  simp [axes_emplace, h]

theorem axes_find_emplace_isSome (axes : List (input_code × virtual_axis α))
    (code : input_code) (v : virtual_axis α) :
    ∃ r, axes_find (axes_emplace axes code v) code = some r := by
  cases h : axes_find axes code with
  | some r => exact ⟨r, by simp [axes_emplace, h]⟩
  | none => exact ⟨(axes.length, v), by simp [axes_emplace, h, axes_find_append_single]⟩

theorem axes_emplace_keys (axes : List (input_code × virtual_axis α)) (code : input_code)
    (v : virtual_axis α) (k : input_code) :
    k ∈ (axes_emplace axes code v).map (fun pair => pair.1) ↔
      k ∈ axes.map (fun pair => pair.1) ∨ k = code := by
  cases h : axes_find axes code with
  | some r =>
    have hc : code ∈ axes.map (fun pair => pair.1) := by
      rw [← axes_find_isSome_iff, h]; rfl
    simp only [axes_emplace, h]
    constructor
    · exact fun hk => Or.inl hk
    · rintro (hk | hk)
      · exact hk
      · exact hk ▸ hc
  | none => simp [axes_emplace, h]

end axes_lemmas

section device_lemmas

variable {α : Type}

theorem add_axis_of_get_axis [Zero α] (d : device α) (code : input_code)
    (ax : Nat × virtual_axis α) (h : d.get_axis code = some ax) :
    d.add_axis code = (some ax, d) := by
  unfold device.get_axis at h
  by_cases hn : code = input_code.none
  · simp [hn] at h
  · simp only [hn, if_false] at h
    simp [device.add_axis, hn, axes_emplace, h]

theorem add_axes_keys [Zero α] (codes : List input_code) (d : device α) (k : input_code) :
    k ∈ (d.add_axes codes).get_axis_codes ↔
      k ∈ d.get_axis_codes ∨ (k ≠ input_code.none ∧ k ∈ codes) := by
  induction codes generalizing d with
  | nil => simp [device.add_axes]
  | cons c cs ih =>
    have step : d.add_axes (c :: cs) = ((d.add_axis c).2).add_axes cs := rfl
    rw [step, ih]
    by_cases hc : c = input_code.none
    · have h1 : (d.add_axis c).2 = d := by simp [device.add_axis, hc]
      rw [h1]
      constructor
      · rintro (h | ⟨h, h2⟩)
        · exact Or.inl h
        · exact Or.inr ⟨h, List.mem_cons_of_mem _ h2⟩
      · rintro (h | ⟨h, h2⟩)
        · exact Or.inl h
        · rcases List.mem_cons.mp h2 with h3 | h3
          · exact absurd (h3.trans hc) h
          · exact Or.inr ⟨h, h3⟩
    · have h1 : ((d.add_axis c).2).get_axis_codes =
          (axes_emplace d.m_axes c virtual_axis.init).map (fun pair => pair.1) := by
        simp [device.add_axis, hc, device.get_axis_codes]
      rw [h1, axes_emplace_keys]
      simp only [device.get_axis_codes]
      constructor
      · rintro ((h | h) | ⟨h, h2⟩)
        · exact Or.inl h
        · exact Or.inr ⟨h ▸ hc, h ▸ List.mem_cons_self _ _⟩
        · exact Or.inr ⟨h, List.mem_cons_of_mem _ h2⟩
      · rintro (h | ⟨h, h2⟩)
        · exact Or.inl (Or.inl h)
        · rcases List.mem_cons.mp h2 with h3 | h3
          · exact Or.inl (Or.inr h3)
          · exact Or.inr ⟨h, h3⟩

end device_lemmas

section registry_lemmas

variable {α : Type}

theorem devices_find_mem (devs : List (Int × device α)) (id : Int) (d : device α)
    (h : devices_find devs id = some d) : (id, d) ∈ devs := by
  induction devs with
  | nil => simp [devices_find] at h
  | cons hd tl ih =>
    obtain ⟨k, e⟩ := hd
    by_cases hk : k = id
    · simp only [devices_find, hk, if_true, Option.some.injEq] at h
      simp [hk, h]
    · simp only [devices_find, hk, if_false] at h
      exact List.mem_cons_of_mem _ (ih h)

theorem devices_find_eq_none_iff (devs : List (Int × device α)) (id : Int) :
    devices_find devs id = Option.none ↔ id ∉ devs.map (fun pair => pair.1) := by
  induction devs with
  | nil => simp [devices_find]
  | cons hd tl ih =>
    obtain ⟨k, e⟩ := hd
    by_cases hk : k = id
    · simp [devices_find, hk]
    · have h2 : ¬ id = k := fun e => hk e.symm
      simp only [devices_find, hk, if_false, List.map_cons, List.mem_cons, h2, false_or]
      exact ih

theorem devices_find_of_mem (devs : List (Int × device α))
    (hnd : (devs.map (fun pair => pair.1)).Nodup) (id : Int) (d : device α)
    (h : (id, d) ∈ devs) : devices_find devs id = some d := by
  induction devs with
  | nil => simp at h
  | cons hd tl ih =>
    obtain ⟨k, e⟩ := hd
    simp only [List.map_cons, List.nodup_cons] at hnd
    rcases List.mem_cons.mp h with h1 | h1
    · simp only [Prod.mk.injEq] at h1
      simp [devices_find, h1.1, h1.2]
    · have hk : ¬ k = id := by
        intro hk
        apply hnd.1
        rw [hk]
        exact List.mem_map.mpr ⟨(id, d), h1, rfl⟩
      simp only [devices_find, hk, if_false]
      exact ih hnd.2 h1

theorem devices_find_append_single (devs : List (Int × device α)) (id : Int) (d : device α)
    (h : devices_find devs id = Option.none) :
    devices_find (devs ++ [(id, d)]) id = some d := by
  induction devs with
  | nil => simp [devices_find]
  | cons hd tl ih =>
    obtain ⟨k, e⟩ := hd
    by_cases hk : k = id
    · simp [devices_find, hk] at h
    · rw [List.cons_append]
      simp only [devices_find, hk, if_false] at h ⊢
      exact ih h

theorem devices_erase_keys_subset (devs : List (Int × device α)) (id k : Int)
    (h : k ∈ (devices_erase devs id).map (fun pair => pair.1)) :
    k ∈ devs.map (fun pair => pair.1) := by
  induction devs with
  | nil => simp [devices_erase] at h
  | cons hd tl ih =>
    obtain ⟨k1, e⟩ := hd
    by_cases hk : k1 = id
    · simp only [devices_erase, hk, if_true] at h
      exact List.mem_cons_of_mem _ h
    · simp only [devices_erase, hk, if_false, List.map_cons, List.mem_cons] at h ⊢
      rcases h with h | h
      · exact Or.inl h
      · exact Or.inr (ih h)

theorem devices_find_erase_self (devs : List (Int × device α))
    (hnd : (devs.map (fun pair => pair.1)).Nodup) (id : Int) :
    devices_find (devices_erase devs id) id = Option.none := by
  induction devs with
  | nil => simp [devices_erase, devices_find]
  | cons hd tl ih =>
    obtain ⟨k, e⟩ := hd
    simp only [List.map_cons, List.nodup_cons] at hnd
    by_cases hk : k = id
    · simp only [devices_erase, hk, if_true]
      rw [devices_find_eq_none_iff]
      exact hk ▸ hnd.1
    · simp only [devices_erase, hk, if_false, devices_find]
      exact ih hnd.2

theorem devices_find_erase_ne (devs : List (Int × device α)) (id other : Int)
    (hne : other ≠ id) :
    devices_find (devices_erase devs id) other = devices_find devs other := by
  induction devs with
  | nil => simp [devices_erase]
  | cons hd tl ih =>
    obtain ⟨k, e⟩ := hd
    by_cases hk : k = id
    · have h2 : ¬ k = other := fun h => hne (h.symm.trans hk)
      simp [devices_erase, hk, devices_find, h2, hk ▸ h2]
    · by_cases ho : k = other
      · subst ho
        simp [devices_erase, hk, devices_find]
      · simp [devices_erase, hk, devices_find, ho, ih]

theorem devices_erase_nodup (devs : List (Int × device α))
    (hnd : (devs.map (fun pair => pair.1)).Nodup) (id : Int) :
    ((devices_erase devs id).map (fun pair => pair.1)).Nodup := by
  induction devs with
  | nil => simp [devices_erase]
  | cons hd tl ih =>
    obtain ⟨k, e⟩ := hd
    simp only [List.map_cons, List.nodup_cons] at hnd
    by_cases hk : k = id
    · simp only [devices_erase, hk, if_true]
      exact hnd.2
    · simp only [devices_erase, hk, if_false, List.map_cons, List.nodup_cons]
      exact ⟨fun h => hnd.1 (devices_erase_keys_subset tl id k h), ih hnd.2⟩

theorem devices_erase_subset (devs : List (Int × device α)) (id : Int)
    (pair : Int × device α) (h : pair ∈ devices_erase devs id) : pair ∈ devs := by
  induction devs with
  | nil => simp [devices_erase] at h
  | cons hd tl ih =>
    obtain ⟨k, e⟩ := hd
    by_cases hk : k = id
    · simp only [devices_erase, hk, if_true] at h
      exact List.mem_cons_of_mem _ h
    · simp only [devices_erase, hk, if_false, List.mem_cons] at h ⊢
      rcases h with h | h
      · exact Or.inl h
      · exact Or.inr (ih h)

theorem devices_find_modify_self (f : device α → device α) (devs : List (Int × device α))
    (id : Int) :
    devices_find (devices_modify f devs id) id = (devices_find devs id).map f := by
  induction devs with
  | nil => simp [devices_modify, devices_find]
  | cons hd tl ih =>
    obtain ⟨k, e⟩ := hd
    by_cases hk : k = id
    · simp [devices_modify, devices_find, hk]
    · simp [devices_modify, devices_find, hk, ih]

theorem devices_find_modify_ne (f : device α → device α) (devs : List (Int × device α))
    (id other : Int) (hne : other ≠ id) :
    devices_find (devices_modify f devs id) other = devices_find devs other := by
  induction devs with
  | nil => simp [devices_modify]
  | cons hd tl ih =>
    obtain ⟨k, e⟩ := hd
    by_cases hk : k = id
    · have h2 : ¬ k = other := fun h => hne (h.symm.trans hk)
      simp [devices_modify, hk, devices_find, h2, hk ▸ h2]
    · by_cases ho : k = other
      · subst ho
        simp [devices_modify, hk, devices_find]
      · simp [devices_modify, hk, devices_find, ho, ih]

/-- The registry invariant holds initially. -/
theorem wf_init : (context.init : context α).wf := by
  simp [context.wf, context.init]

/-- The method `notify_device` only records a call. -/
theorem notify_device_devices (c : context α) (id : Int) (event : device_event) :
    (c.notify_device id event).m_devices = c.m_devices ∧
      (c.notify_device id event).m_next_unique_id = c.m_next_unique_id := by
  unfold context.notify_device
  cases devices_find c.m_devices id <;> simp

/-- The method `add_device` keeps the registry invariant. -/
theorem wf_add_device (c : context α) (dev : device α) (h : c.wf) : (c.add_device dev).wf := by
  unfold context.wf context.add_device
  rw [(notify_device_devices _ _ _).1]
  simp only [devices_emplace]
  cases hf : devices_find c.m_devices dev.get_id with
  | some _ => exact h
  | none =>
    have hk := (devices_find_eq_none_iff _ _).mp hf
    refine ⟨?_, ?_⟩
    · simp only [List.map_append, List.map_cons, List.map_nil]
      rw [List.nodup_append]
      refine ⟨h.1, by simp, ?_⟩
      intro a ha hb
      simp only [List.mem_singleton] at hb
      exact hk (hb ▸ ha)
    · intro pair hp
      rcases List.mem_append.mp hp with hp | hp
      · exact h.2 pair hp
      · simp only [List.mem_singleton] at hp
        rw [hp]
        rfl

/-- The method `remove_device` keeps the registry invariant. -/
theorem wf_remove_device (c : context α) (id : Int) (h : c.wf) : (c.remove_device id).wf := by
  unfold context.remove_device
  cases hf : devices_find c.m_devices id with
  | none => exact h
  | some _ =>
    unfold context.wf
    simp only
    rw [(notify_device_devices _ _ _).1]
    exact ⟨devices_erase_nodup _ h.1 id, fun pair hp => h.2 pair (devices_erase_subset _ id pair hp)⟩

end registry_lemmas

/-- C1: for every axis and value `v`, after `set(v)` and `commit()` the value
returned by `get()` is `v` and `get_previous()` is what `get()` returned just
before the commit (which `set` had left as it was). -/
theorem virtual_axis_set_commit {α : Type} (a : virtual_axis α) (v : α) :
    ((a.set v).commit).get = v ∧
      ((a.set v).commit).get_previous = (a.set v).get ∧
      (a.set v).get = a.get := by
  simp [virtual_axis.set, virtual_axis.commit, virtual_axis.get, virtual_axis.get_previous]

/-- C2: `device::reset` commits each axis once, so on a device whose `pad_a`
axis has current value 5 the axis afterwards has `get() = 0` but
`get_previous() = 5`; `context::reset` on a registry holding that device
leaves the same axis. -/
theorem device_reset_keeps_previous :
    (sample_pad.reset.get_axis input_code.pad_a).map (fun r => (r.2.get, r.2.get_previous))
        = some (0, 5) ∧
      (((({ m_devices := [(1, sample_pad)], m_next_unique_id := 2, m_device_calls := [] } :
          context Int).reset.get_device 1).bind
          (fun d => d.get_axis input_code.pad_a)).map
            (fun r => (r.2.get, r.2.get_previous))) = some (0, 5) := by
  decide

/-- C4: for a code other than `none`, a second `add_axis(code)` returns the
pointer the first call returned (a real axis, not null), and leaves the
device as the first call left it: same axis count, same entries. More
generally `add_axis(code)` on a device that has an axis for `code`, whatever
values it holds by then, returns that axis and changes nothing. -/
theorem add_axis_twice {α : Type} [Zero α] (d : device α) (code : input_code)
    (hcode : code ≠ input_code.none) :
    (((d.add_axis code).2).add_axis code).1 = (d.add_axis code).1 ∧
      (d.add_axis code).1 ≠ Option.none ∧
      (((d.add_axis code).2).add_axis code).2 = (d.add_axis code).2 ∧
      (((d.add_axis code).2).add_axis code).2.get_axis_count
        = (d.add_axis code).2.get_axis_count ∧
      (((d.add_axis code).2).add_axis code).2.get_axis code
        = (d.add_axis code).2.get_axis code ∧
      ∀ (e : device α) (ax : Nat × virtual_axis α), e.get_axis code = some ax →
        e.add_axis code = (some ax, e) := by
  obtain ⟨r, hr⟩ := axes_find_emplace_isSome d.m_axes code (virtual_axis.init : virtual_axis α)
  have h1 : d.add_axis code
      = (some r, { d with m_axes := axes_emplace d.m_axes code virtual_axis.init }) := by
    simp [device.add_axis, hcode, hr]
  have h2 : ((d.add_axis code).2).add_axis code = (some r, (d.add_axis code).2) := by
    apply add_axis_of_get_axis
    rw [h1]
    simp [device.get_axis, hcode, hr]
  rw [h2]
  refine ⟨by rw [h1], by rw [h1]; simp, rfl, rfl, rfl, ?_⟩
  intro e ax he
  exact add_axis_of_get_axis e code ax he

/-- Instance of C4 on a device that already holds a committed `pad_a` axis and
on a fresh `key_a` code. -/
theorem add_axis_twice_witness :
    input_code.key_a ≠ input_code.none ∧
      (((sample_pad.add_axis input_code.key_a).2).add_axis input_code.key_a).1
        = some (1, virtual_axis.init) ∧
      (((sample_pad.add_axis input_code.key_a).2).add_axis input_code.key_a).2.get_axis_count
        = 2 := by
  have h := add_axis_twice sample_pad input_code.key_a (by decide)
  refine ⟨by decide, ?_, ?_⟩
  · rw [h.1]; decide
  · rw [h.2.2.2.1]; decide

/-- C5: on a device built by the constructor and any sequence of `add_axis`
calls, `get_axis(code)` is non-null exactly when `code` is not `none` and
`add_axis(code)` was among the calls; `add_axis(none)` returns null and
leaves the device as it was, and `get_axis(none)` is null. -/
theorem get_axis_iff_added {α : Type} [Zero α] (kind : device_kind) (id : Int)
    (codes : List input_code) (code : input_code) :
    ((((device.init kind id : device α).add_axes codes).get_axis code).isSome = true ↔
        code ≠ input_code.none ∧ code ∈ codes) ∧
      (∀ d : device α, d.add_axis input_code.none = (Option.none, d)) ∧
      (∀ d : device α, d.get_axis input_code.none = Option.none) ∧
      input_code.none ∉ ((device.init kind id : device α).add_axes codes).get_axis_codes := by
  have hk := fun k => add_axes_keys codes (device.init kind id : device α) k
  have h0 : (device.init kind id : device α).get_axis_codes = [] := rfl
  refine ⟨?_, ?_, ?_, ?_⟩
  · by_cases hn : code = input_code.none
    · simp [device.get_axis, hn]
    · simp only [device.get_axis, hn, if_false, axes_find_isSome_iff]
      have := hk code
      simp only [device.get_axis_codes] at this h0
      rw [this, h0]
      simp [hn]
  · intro d
    simp [device.add_axis]
  · intro d
    simp [device.get_axis]
  · rw [hk, h0]
    simp

section find_first_lemmas

variable {α : Type}

theorem find_first_device_cons_none (callback : Int → input_code → α → α → α → Bool)
    (dev : device α) (c : input_code) (cs : List input_code)
    (hg : dev.get_axis c = Option.none) :
    find_first_device callback dev (c :: cs) = find_first_device callback dev cs := by
  rw [find_first_device]
  simp only [hg]

theorem find_first_device_cons_some (callback : Int → input_code → α → α → α → Bool)
    (dev : device α) (c : input_code) (cs : List input_code) (axis : Nat × virtual_axis α)
    (hg : dev.get_axis c = some axis) :
    find_first_device callback dev (c :: cs) =
      if callback dev.get_id c axis.2.get axis.2.get_previous axis.2.get_next then
        some (dev.get_id, c)
      else find_first_device callback dev cs := by
  rw [find_first_device]
  simp only [hg]

theorem find_first_loop_cons (callback : Int → input_code → α → α → α → Bool)
    (filter : Option (List input_code)) (pair : Int × device α)
    (rest : List (Int × device α)) :
    find_first_loop callback filter (pair :: rest) =
      if pair.2.is_usable = true then
        match find_first_device callback pair.2 (find_first_codes filter pair.2) with
        | some found => some found
        | Option.none => find_first_loop callback filter rest
      else find_first_loop callback filter rest := by
  conv_lhs => unfold find_first_loop
  by_cases hu : pair.2.is_usable = true
  · simp only [hu, Bool.not_true, Bool.false_eq_true, if_false, if_true]
    cases filter with
    | none =>
      simp only [find_first_codes]
      by_cases hl : pair.2.get_axis_codes.length = 0
      · have hnil : pair.2.get_axis_codes = [] := List.length_eq_zero.mp hl
        simp [hnil, find_first_device]
      · simp only [hl, if_false]
    | some codes => simp only [find_first_codes]
  · have hu2 : pair.2.is_usable = false := by simpa using hu
    simp [hu2]

theorem find_first_device_some (callback : Int → input_code → α → α → α → Bool)
    (dev : device α) (codes : List input_code) (id : Int) (code : input_code)
    (h : find_first_device callback dev codes = some (id, code)) :
    id = dev.get_id ∧ code ∈ codes ∧ ∃ axis, dev.get_axis code = some axis ∧
      callback id code axis.2.get axis.2.get_previous axis.2.get_next = true := by
  induction codes with
  | nil => simp [find_first_device] at h
  | cons c cs ih =>
    cases hg : dev.get_axis c with
    | none =>
      rw [find_first_device_cons_none callback dev c cs hg] at h
      obtain ⟨h1, h2, h3⟩ := ih h
      exact ⟨h1, List.mem_cons_of_mem _ h2, h3⟩
    | some axis =>
      rw [find_first_device_cons_some callback dev c cs axis hg] at h
      by_cases hcb : callback dev.get_id c axis.2.get axis.2.get_previous axis.2.get_next = true
      · rw [if_pos hcb] at h
        simp only [Option.some.injEq, Prod.mk.injEq] at h
        obtain ⟨h1, h2⟩ := h
        subst h1 h2
        exact ⟨rfl, List.mem_cons_self _ _, axis, hg, hcb⟩
      · rw [if_neg hcb] at h
        obtain ⟨h1, h2, h3⟩ := ih h
        exact ⟨h1, List.mem_cons_of_mem _ h2, h3⟩

theorem find_first_device_none (callback : Int → input_code → α → α → α → Bool)
    (dev : device α) (codes : List input_code) :
    find_first_device callback dev codes = Option.none ↔
      ∀ code ∈ codes, ∀ axis, dev.get_axis code = some axis →
        callback dev.get_id code axis.2.get axis.2.get_previous axis.2.get_next = false := by
  induction codes with
  | nil => simp [find_first_device]
  | cons c cs ih =>
    cases hg : dev.get_axis c with
    | none =>
      rw [find_first_device_cons_none callback dev c cs hg, ih]
      constructor
      · intro h code hcode axis hax
        rcases List.mem_cons.mp hcode with hc | hc
        · rw [hc, hg] at hax
          exact absurd hax (by simp)
        · exact h code hc axis hax
      · intro h code hcode axis hax
        exact h code (List.mem_cons_of_mem _ hcode) axis hax
    | some axis =>
      rw [find_first_device_cons_some callback dev c cs axis hg]
      by_cases hcb : callback dev.get_id c axis.2.get axis.2.get_previous axis.2.get_next = true
      · rw [if_pos hcb]
        constructor
        · intro h
          exact absurd h (by simp)
        · intro h
          have := h c (List.mem_cons_self _ _) axis hg
          rw [hcb] at this
          exact absurd this (by simp)
      · rw [if_neg hcb, ih]
        constructor
        · intro h code hcode ax hax
          rcases List.mem_cons.mp hcode with hc | hc
          · rw [hc, hg] at hax
            simp only [Option.some.injEq] at hax
            subst hax
            rw [hc]
            simpa using hcb
          · exact h code hc ax hax
        · intro h code hcode ax hax
          exact h code (List.mem_cons_of_mem _ hcode) ax hax

theorem find_first_loop_some (callback : Int → input_code → α → α → α → Bool)
    (filter : Option (List input_code)) (devs : List (Int × device α))
    (id : Int) (code : input_code)
    (h : find_first_loop callback filter devs = some (id, code)) :
    ∃ pair ∈ devs, pair.2.is_usable = true ∧ id = pair.2.get_id ∧
      code ∈ find_first_codes filter pair.2 ∧ ∃ axis, pair.2.get_axis code = some axis ∧
        callback id code axis.2.get axis.2.get_previous axis.2.get_next = true := by
  induction devs with
  | nil => simp [find_first_loop] at h
  | cons hd tl ih =>
    have lift : find_first_loop callback filter tl = some (id, code) →
        ∃ pair ∈ hd :: tl, pair.2.is_usable = true ∧ id = pair.2.get_id ∧
        code ∈ find_first_codes filter pair.2 ∧ ∃ axis, pair.2.get_axis code = some axis ∧
          callback id code axis.2.get axis.2.get_previous axis.2.get_next = true := by
      intro h2
      obtain ⟨pair, hp, rest⟩ := ih h2
      exact ⟨pair, List.mem_cons_of_mem _ hp, rest⟩
    rw [find_first_loop_cons] at h
    by_cases hu : hd.2.is_usable = true
    · rw [if_pos hu] at h
      cases hf : find_first_device callback hd.2 (find_first_codes filter hd.2) with
      | none =>
        simp only [hf] at h
        exact lift h
      | some found =>
        simp only [hf, Option.some.injEq] at h
        subst h
        obtain ⟨h1, h2, h3⟩ := find_first_device_some callback hd.2 _ id code hf
        exact ⟨hd, List.mem_cons_self _ _, hu, h1, h2, h3⟩
    · rw [if_neg hu] at h
      exact lift h

theorem find_first_loop_none (callback : Int → input_code → α → α → α → Bool)
    (filter : Option (List input_code)) (devs : List (Int × device α)) :
    find_first_loop callback filter devs = Option.none ↔
      ∀ pair ∈ devs, pair.2.is_usable = true →
        ∀ code ∈ find_first_codes filter pair.2, ∀ axis, pair.2.get_axis code = some axis →
          callback pair.2.get_id code axis.2.get axis.2.get_previous axis.2.get_next
            = false := by
  induction devs with
  | nil => simp [find_first_loop]
  | cons hd tl ih =>
    rw [find_first_loop_cons]
    simp only [List.mem_cons, forall_eq_or_imp]
    rw [← ih, ← find_first_device_none]
    by_cases hu : hd.2.is_usable = true
    · rw [if_pos hu]
      cases hf : find_first_device callback hd.2 (find_first_codes filter hd.2) with
      | none => simp
      | some found => simp [hu]
    · rw [if_neg hu]
      simp [hu]

theorem axes_find_modify (f : virtual_axis α → virtual_axis α)
    (axes : List (input_code × virtual_axis α)) (code other : input_code) :
    axes_find (axes_modify f axes code) other =
      (axes_find axes other).map (fun r => (r.1, if other = code then f r.2 else r.2)) := by
  induction axes with
  | nil => simp [axes_modify, axes_find]
  | cons hd tl ih =>
    obtain ⟨k, a⟩ := hd
    by_cases hk : k = code
    · subst hk
      by_cases ho : k = other
      · subst ho
        simp [axes_modify, axes_find]
      · have ho2 : ¬ other = k := fun e => ho e.symm
        simp only [axes_modify, if_true, axes_find, ho, if_false, ho2, Option.map_map]
        congr 1
    · by_cases ho : k = other
      · subst ho
        simp [axes_modify, axes_find, hk]
      · simp only [axes_modify, hk, if_false, axes_find, ho, ih, Option.map_map]
        rfl

theorem axes_modify_keys (f : virtual_axis α → virtual_axis α)
    (axes : List (input_code × virtual_axis α)) (code : input_code) :
    (axes_modify f axes code).map (fun pair => pair.1) = axes.map (fun pair => pair.1) := by
  induction axes with
  | nil => simp [axes_modify]
  | cons hd tl ih =>
    obtain ⟨k, a⟩ := hd
    by_cases hk : k = code
    · simp [axes_modify, hk]
    · simp [axes_modify, hk, ih]

theorem find_first_device_set (p : Int → input_code → α → Bool) (dev : device α)
    (code : input_code) (v : α) (codes : List input_code) :
    find_first_device (fun i k cur _ _ => p i k cur)
        { dev with m_axes := axes_modify (fun a => a.set v) dev.m_axes code } codes
      = find_first_device (fun i k cur _ _ => p i k cur) dev codes := by
  induction codes with
  | nil => simp [find_first_device]
  | cons c cs ih =>
    unfold find_first_device
    rw [ih]
    by_cases hn : c = input_code.none
    · simp [device.get_axis, hn]
    · simp only [device.get_axis, hn, if_false, axes_find_modify, device.get_id]
      cases axes_find dev.m_axes c with
      | none => simp
      | some r =>
        by_cases hc : c = code
        · simp [hc, virtual_axis.set, virtual_axis.get]
        · simp [hc]

theorem find_first_loop_set (p : Int → input_code → α → Bool)
    (filter : Option (List input_code)) (code : input_code) (v : α)
    (devs : List (Int × device α)) (id : Int) :
    find_first_loop (fun i k cur _ _ => p i k cur) filter
        (devices_modify
          (fun o => { o with m_axes := axes_modify (fun a => a.set v) o.m_axes code }) devs id)
      = find_first_loop (fun i k cur _ _ => p i k cur) filter devs := by
  induction devs with
  | nil => simp [devices_modify]
  | cons hd tl ih =>
    obtain ⟨k, e⟩ := hd
    by_cases hk : k = id
    · simp only [devices_modify, hk, if_true]
      unfold find_first_loop
      simp only [find_first_device_set, device.is_usable, device.get_axis_codes,
        axes_modify_keys, ih]
    · simp only [devices_modify, hk, if_false]
      unfold find_first_loop
      rw [ih]

end find_first_lemmas

/-- C3: on a registry with unique keys whose devices are stored under their
own id, `find_first` returns `(id, code)` only if device `id` is registered and
usable, `code` is a code of the filter when one is given and otherwise one of
the codes of the device, the device has an axis for `code` and the callback
holds on that axis; it returns false exactly when the callback is false on
every axis that `get_axis` resolves (for a code of the filter, when one is
given) on every registered usable device. For a callback that reads only
`current`, staging a value through `rb_minput_set_value` never changes the
result. -/
theorem find_first_spec {α : Type} (c : context α) (hwf : c.wf)
    (callback : Int → input_code → α → α → α → Bool) (filter : Option (List input_code)) :
    (∀ id code, c.find_first callback filter = some (id, code) →
      ∃ d axis, c.get_device id = some d ∧ d.is_usable = true ∧
        code ∈ find_first_codes filter d ∧ (∀ codes, filter = some codes → code ∈ codes) ∧
        d.get_axis code = some axis ∧
        callback id code axis.2.get axis.2.get_previous axis.2.get_next = true) ∧
    (c.find_first callback filter = Option.none ↔
      ∀ id d, c.get_device id = some d → d.is_usable = true →
        ∀ code axis, (∀ codes, filter = some codes → code ∈ codes) →
          d.get_axis code = some axis →
          callback id code axis.2.get axis.2.get_previous axis.2.get_next = false) ∧
    (∀ (p : Int → input_code → α → Bool) (id : Int) (code : input_code) (v : α),
      ((rb_minput_set_value c id code v).2).find_first (fun i k cur _ _ => p i k cur) filter
        = c.find_first (fun i k cur _ _ => p i k cur) filter) := by
  have hwalk : ∀ (d : device α) (code : input_code) (axis : Nat × virtual_axis α),
      d.get_axis code = some axis →
      (code ∈ find_first_codes filter d ↔ ∀ codes, filter = some codes → code ∈ codes) := by
    intro d code axis hax
    cases filter with
    | none =>
      constructor
      · intro _ codes hc
        cases hc
      · intro _
        unfold device.get_axis at hax
        by_cases hn : code = input_code.none
        · rw [if_pos hn] at hax
          cases hax
        · rw [if_neg hn] at hax
          have hs : (axes_find d.m_axes code).isSome = true := by rw [hax]; rfl
          exact (axes_find_isSome_iff d.m_axes code).mp hs
    | some codes =>
      constructor
      · intro h codes2 hc
        cases hc
        exact h
      · intro h
        exact h codes rfl
  refine ⟨?_, ?_, ?_⟩
  · intro id code h
    obtain ⟨pair, hp, hu, hid, hcode, axis, hax, hcb⟩ :=
      find_first_loop_some callback filter c.m_devices id code h
    have hkey : pair.2.m_id = pair.1 := hwf.2 pair hp
    have hfind : devices_find c.m_devices pair.1 = some pair.2 :=
      devices_find_of_mem c.m_devices hwf.1 pair.1 pair.2 hp
    refine ⟨pair.2, axis, ?_, hu, hcode, (hwalk pair.2 code axis hax).mp hcode, hax, hcb⟩
    unfold context.get_device
    rw [hid, device.get_id, hkey]
    exact hfind
  · unfold context.find_first context.get_device
    rw [find_first_loop_none]
    constructor
    · intro h id d hd hu code axis hcode hax
      have hm := devices_find_mem c.m_devices id d hd
      have hkey : d.m_id = id := hwf.2 (id, d) hm
      have := h (id, d) hm hu code ((hwalk d code axis hax).mpr hcode) axis hax
      simpa [device.get_id, hkey] using this
    · intro h pair hp hu code hcode axis hax
      have hkey : pair.2.m_id = pair.1 := hwf.2 pair hp
      have hfind := devices_find_of_mem c.m_devices hwf.1 pair.1 pair.2 hp
      have := h pair.1 pair.2 hfind hu code axis ((hwalk pair.2 code axis hax).mp hcode) hax
      simpa [device.get_id, hkey] using this
  · intro p id code v
    unfold rb_minput_set_value
    cases hd : c.get_device id with
    | none => rfl
    | some dev =>
      cases hax : dev.get_axis code with
      | none => simp only [hax]
      | some _ =>
        simp only [hax, context.find_first]
        exact find_first_loop_set p filter code v c.m_devices id

/-- Instance of C3. On `sample_pad_context`, whose device 1 has the committed
value 5 on `pad_a`, `find_first` with `any_non_zero` returns `(1, pad_a)`, and
with a filter that lacks `pad_a` it returns false. On `two_pads_staged`, with
1 staged but not committed on device 2, it finds nothing, with or without a
filter, and so `any_non_zero` is false on the `pad_a` axis of device 2. -/
theorem find_first_spec_witness :
    sample_pad_context.wf ∧
      sample_pad_context.find_first any_non_zero Option.none = some (1, input_code.pad_a) ∧
      (∃ d axis, sample_pad_context.get_device 1 = some d ∧ d.is_usable = true ∧
        input_code.pad_a ∈ find_first_codes Option.none d ∧
        (∀ codes, (Option.none : Option (List input_code)) = some codes →
          input_code.pad_a ∈ codes) ∧
        d.get_axis input_code.pad_a = some axis ∧
        any_non_zero 1 input_code.pad_a axis.2.get axis.2.get_previous axis.2.get_next
          = true) ∧
      sample_pad_context.find_first any_non_zero (some [input_code.key_a]) = Option.none ∧
      two_pads_staged.wf ∧
      ((two_pads_staged.get_device 2).bind (fun d => d.get_axis input_code.pad_a)).map
        (fun r => r.2.get_next) = some 1 ∧
      two_pads_staged.find_first any_non_zero Option.none = Option.none ∧
      two_pads_staged.find_first any_non_zero (some [input_code.pad_a]) = Option.none ∧
      (∀ d axis, two_pads_staged.get_device 2 = some d →
        d.get_axis input_code.pad_a = some axis →
        any_non_zero 2 input_code.pad_a axis.2.get axis.2.get_previous axis.2.get_next
          = false) := by
  have hwf : two_pads_staged.wf := by decide
  have hwp : sample_pad_context.wf := by decide
  have h := find_first_spec two_pads (by decide) (any_non_zero (α := Int)) Option.none
  have h2 := find_first_spec two_pads (by decide) (any_non_zero (α := Int))
    (some [input_code.pad_a])
  have h3 := find_first_spec two_pads_staged hwf (any_non_zero (α := Int)) Option.none
  have h4 := find_first_spec sample_pad_context hwp (any_non_zero (α := Int)) Option.none
  have e1 : two_pads_staged.find_first any_non_zero Option.none = Option.none :=
    (h.2.2 (fun _ _ cur => if cur ≠ 0 then true else false) 2 input_code.pad_a 1).trans
      (by decide)
  refine ⟨hwp, by decide, h4.1 1 input_code.pad_a (by decide), by decide, hwf, by decide,
    e1, ?_, ?_⟩
  · have e := h2.2.2 (fun _ _ cur => if cur ≠ 0 then true else false) 2 input_code.pad_a 1
    exact e.trans (by decide)
  · intro d axis hd hax
    exact h3.2.1.mp e1 2 d hd (by
      have hd2 : two_pads_staged.get_device 2 = some d := hd
      have : (two_pads_staged.get_device 2).map device.is_usable = some true := by decide
      rw [hd2] at this
      simpa using this) input_code.pad_a axis (fun codes hc => by cases hc) hax

section set_usable_lemmas

variable {α : Type}

theorem set_usable_step_fst (d : device α) (x : Bool) :
    (d.set_usable_step x).1 = { d with m_is_usable := x } := by
  unfold device.set_usable_step
  by_cases h : (d.m_is_usable != x) = true <;> simp [h]

theorem set_usable_step_same (d : device α) (x : Bool) (h : d.is_usable = x) :
    (d.set_usable_step x).2 = Option.none := by
  unfold device.is_usable at h
  simp [device.set_usable_step, h]

theorem set_usable_step_changed (d : device α) (x : Bool) (h : d.is_usable ≠ x) :
    (d.set_usable_step x).2 =
      some (if x then device_event.usable else device_event.unusable) := by
  unfold device.is_usable at h
  simp [device.set_usable_step, h]

theorem notify_device_calls (c : context α) (id : Int) (event : device_event) :
    (c.notify_device id event).m_device_calls = c.m_device_calls ++
      [⟨event, id, (devices_find c.m_devices id).map api_device.set_from⟩] := by
  unfold context.notify_device
  cases devices_find c.m_devices id <;> simp

end set_usable_lemmas

/-- C6: `set_usable(x)` leaves `is_usable() = x`; it makes no call to the device
callback when the flag already was `x`, and exactly one call, with the event
`usable` for `x = true` and `unusable` for `x = false` and the id of the
device, when the flag differed. This holds for a call on an object outside
the registry and for a call on the object registered under `id`. -/
theorem set_usable_notifications {α : Type} (d : device α) (c : context α) (x : Bool) :
    (d.set_usable c x).1.is_usable = x ∧
      (d.is_usable = x → (d.set_usable c x).2.m_device_calls = c.m_device_calls) ∧
      (d.is_usable ≠ x → ∃ info, (d.set_usable c x).2.m_device_calls = c.m_device_calls ++
        [⟨if x then device_event.usable else device_event.unusable, d.get_id, info⟩]) ∧
      (∀ id, c.get_device id = some d →
        ((c.set_usable id x).get_device id).map device.is_usable = some x ∧
        (d.is_usable = x → (c.set_usable id x).m_device_calls = c.m_device_calls) ∧
        (d.is_usable ≠ x → ∃ info, (c.set_usable id x).m_device_calls = c.m_device_calls ++
          [⟨if x then device_event.usable else device_event.unusable, d.get_id, info⟩])) := by
  refine ⟨?_, ?_, ?_, ?_⟩
  · unfold device.set_usable
    cases (d.set_usable_step x).2 <;> simp [set_usable_step_fst, device.is_usable]
  · intro h
    simp [device.set_usable, set_usable_step_same d x h]
  · intro h
    refine ⟨(devices_find c.m_devices d.m_id).map api_device.set_from, ?_⟩
    simp only [device.set_usable, set_usable_step_changed d x h, notify_device_calls]
    rfl
  · intro id hreg
    unfold context.get_device at hreg
    refine ⟨?_, ?_, ?_⟩
    · have hdev : (c.set_usable id x).m_devices =
          devices_modify (fun o => (o.set_usable_step x).1) c.m_devices id := by
        unfold context.set_usable
        simp only [hreg]
        cases (d.set_usable_step x).2 with
        | none => rfl
        | some e => exact (notify_device_devices _ _ _).1
      unfold context.get_device
      rw [hdev, devices_find_modify_self, hreg]
      simp [set_usable_step_fst, device.is_usable]
    · intro h
      unfold context.set_usable
      simp [hreg, set_usable_step_same d x h]
    · intro h
      refine ⟨(devices_find (devices_modify (fun o => (o.set_usable_step x).1)
        c.m_devices id) d.m_id).map api_device.set_from, ?_⟩
      unfold context.set_usable
      simp only [hreg, set_usable_step_changed d x h, notify_device_calls]
      rfl

/-- Instance of C6 on `two_pads`: device 2 is registered and usable, so
`set_usable(false)` records one `unusable` call for id 2 after the two
`created` calls, and `set_usable(true)` records nothing. -/
theorem set_usable_notifications_witness :
    two_pads.get_device 2 = some device_b ∧
      ((two_pads.set_usable 2 false).get_device 2).map device.is_usable = some false ∧
      (two_pads.set_usable 2 true).m_device_calls = two_pads.m_device_calls ∧
      (two_pads.set_usable 2 false).m_device_calls.length = 3 := by
  have h := (set_usable_notifications device_b two_pads false).2.2.2 2 (by decide)
  have ht := (set_usable_notifications device_b two_pads true).2.2.2 2 (by decide)
  refine ⟨by decide, h.1, ht.2.1 (by decide), ?_⟩
  obtain ⟨info, hinfo⟩ := h.2.2 (by decide)
  rw [hinfo, List.length_append, List.length_singleton]
  decide

/-- C7, as the code has it: when `set_usable(x)` changes the flag of the device
that the registry holds under its own id, the one call to the device
callback carries an info struct filled from that device as it is after the
change; when it changes the flag of an object whose id is not registered
(a device still under construction), the call carries a null info. -/
theorem set_usable_info {α : Type} (c : context α) (id : Int) (d : device α) (x : Bool)
    (hreg : c.get_device id = some d) (hid : d.get_id = id) (hchg : d.is_usable ≠ x) :
    (c.set_usable id x).get_device id = some { d with m_is_usable := x } ∧
      (c.set_usable id x).m_device_calls = c.m_device_calls ++
        [⟨if x then device_event.usable else device_event.unusable, id,
          some (api_device.set_from { d with m_is_usable := x })⟩] ∧
      (api_device.set_from { d with m_is_usable := x }).m_is_usable = x ∧
      (api_device.set_from { d with m_is_usable := x }).m_id = id ∧
      ∀ e : device α, c.get_device e.get_id = Option.none → e.is_usable ≠ x →
        (e.set_usable c x).2.m_device_calls = c.m_device_calls ++
          [⟨if x then device_event.usable else device_event.unusable, e.get_id,
            Option.none⟩] := by
  unfold context.get_device at hreg
  unfold device.get_id at hid
  have hdev : (c.set_usable id x).m_devices =
      devices_modify (fun o => (o.set_usable_step x).1) c.m_devices id := by
    unfold context.set_usable
    simp only [hreg, set_usable_step_changed d x hchg]
    exact (notify_device_devices _ _ _).1
  refine ⟨?_, ?_, rfl, hid, ?_⟩
  · unfold context.get_device
    rw [hdev, devices_find_modify_self, hreg]
    simp [set_usable_step_fst]
  · unfold context.set_usable
    simp only [hreg, set_usable_step_changed d x hchg, notify_device_calls, hid,
      devices_find_modify_self, Option.map_some', set_usable_step_fst]
  · intro e he hx
    unfold context.get_device at he
    simp only [device.set_usable, set_usable_step_changed e x hx, notify_device_calls]
    unfold device.get_id at he
    rw [he]
    rfl

/-- Instance of C7 on `two_pads`, where device 2 is registered under its id
and usable. -/
theorem set_usable_info_witness :
    two_pads.get_device 2 = some device_b ∧ device_b.get_id = 2 ∧
      device_b.is_usable ≠ false ∧
      (two_pads.set_usable 2 false).m_device_calls = two_pads.m_device_calls ++
        [⟨device_event.unusable, 2,
          some (api_device.set_from { device_b with m_is_usable := false })⟩] := by
  have h := set_usable_info two_pads 2 device_b false (by decide) (by decide) (by decide)
  exact ⟨by decide, by decide, by decide, h.2.1⟩

/-- C7 fails for the call made from the constructor of `xi2_device`: on a new
context, with the id handed out by `get_next_id` and `info.enabled` false,
the device goes from usable to unusable and the one call to the device
callback carries a null info, because the object is not registered yet. -/
theorem set_usable_in_constructor_null_info :
    (context.init : context Int).get_next_id.1 = 1 ∧
      (device.init device_kind.xi2 1 : device Int).is_usable = true ∧
      (xi2_device_init (context.init : context Int).get_next_id.2 1
        device_meta.init false).1.is_usable = false ∧
      (xi2_device_init (context.init : context Int).get_next_id.2 1
        device_meta.init false).2.m_device_calls
        = [⟨device_event.unusable, 1, Option.none⟩] := by
  decide

section counter_lemmas

variable {α : Type}

theorem wrap_int64_of_range (x : Int) (h1 : -(2 ^ 63) ≤ x) (h2 : x < 2 ^ 63) :
    wrap_int64 x = x := by
  unfold wrap_int64
  rw [Int.emod_eq_of_lt (by omega) (by omega)]
  omega

theorem add_device_counter (c : context α) (dev : device α) :
    (c.add_device dev).m_next_unique_id = c.m_next_unique_id := by
  unfold context.add_device
  exact (notify_device_devices _ _ _).2

theorem remove_device_counter (c : context α) (id : Int) :
    (c.remove_device id).m_next_unique_id = c.m_next_unique_id := by
  unfold context.remove_device
  cases devices_find c.m_devices id with
  | none => rfl
  | some _ => exact (notify_device_devices _ _ _).2

theorem run_ids_increasing (ops : List (context_op α)) (c : context α)
    (h1 : 1 ≤ c.m_next_unique_id)
    (h2 : c.m_next_unique_id + ((c.run ops).1.length : Int) < 2 ^ 63) :
    ((c.run ops).1).Pairwise (fun a b => a < b) ∧
      ∀ x ∈ (c.run ops).1, c.m_next_unique_id ≤ x := by
  induction ops generalizing c with
  | nil => simp [context.run]
  | cons op rest ih =>
    cases op with
    | get_next_id =>
      have hrun : (c.run (context_op.get_next_id :: rest)).1 =
          c.m_next_unique_id :: ((c.get_next_id).2.run rest).1 := rfl
      rw [hrun] at h2 ⊢
      rw [List.length_cons] at h2
      push_cast at h2
      have hw : wrap_int64 (c.m_next_unique_id + 1) = c.m_next_unique_id + 1 :=
        wrap_int64_of_range _ (by omega) (by omega)
      have hc : (c.get_next_id).2.m_next_unique_id = c.m_next_unique_id + 1 := hw
      obtain ⟨ih1, ih2⟩ := ih (c.get_next_id).2 (by rw [hc]; omega) (by rw [hc]; omega)
      refine ⟨List.pairwise_cons.mpr ⟨?_, ih1⟩, ?_⟩
      · intro x hx
        have := ih2 x hx
        rw [hc] at this
        omega
      · intro x hx
        rcases List.mem_cons.mp hx with hx | hx
        · omega
        · have := ih2 x hx
          rw [hc] at this
          omega
    | add_device dev =>
      have hc := add_device_counter c dev
      have hrun : (c.run (context_op.add_device dev :: rest)) = (c.add_device dev).run rest := rfl
      rw [hrun] at h2 ⊢
      rw [← hc] at h2 ⊢
      exact ih (c.add_device dev) (by rw [hc]; exact h1) h2
    | remove_device id =>
      have hc := remove_device_counter c id
      have hrun : (c.run (context_op.remove_device id :: rest)) = (c.remove_device id).run rest :=
        rfl
      rw [hrun] at h2 ⊢
      rw [← hc] at h2 ⊢
      exact ih (c.remove_device id) (by rw [hc]; exact h1) h2

theorem run_ids_length (ops : List (context_op α)) (c e : context α) :
    (c.run ops).1.length = (e.run ops).1.length := by
  induction ops generalizing c e with
  | nil => rfl
  | cons op rest ih =>
    cases op with
    | get_next_id =>
      have h1 : (c.run (context_op.get_next_id :: rest)).1 =
          c.m_next_unique_id :: ((c.get_next_id).2.run rest).1 := rfl
      have h2 : (e.run (context_op.get_next_id :: rest)).1 =
          e.m_next_unique_id :: ((e.get_next_id).2.run rest).1 := rfl
      rw [h1, h2, List.length_cons, List.length_cons, ih (c.get_next_id).2 (e.get_next_id).2]
    | add_device dev => exact ih (c.add_device dev) (e.add_device dev)
    | remove_device id => exact ih (c.remove_device id) (e.remove_device id)

end counter_lemmas

/-- C8: the counter of a new context is 1, and from any context whose counter
is at least 1, along every interleaving of `get_next_id`, `add_device` and
`remove_device` whose `get_next_id` calls keep the counter inside the
`int64_t` range, every id returned by `get_next_id` is strictly greater than
all ids returned earlier and not below the counter at the start. -/
theorem get_next_id_strictly_increasing {α : Type} (c : context α)
    (ops : List (context_op α)) (h1 : 1 ≤ c.m_next_unique_id)
    (h2 : c.m_next_unique_id + ((c.run ops).1.length : Int) < 2 ^ 63) :
    (context.init : context α).m_next_unique_id = 1 ∧
      ((c.run ops).1).Pairwise (fun a b => a < b) ∧
      (∀ x ∈ (c.run ops).1, c.m_next_unique_id ≤ x) ∧
      ((context.init : context α).run ops).1.Pairwise (fun a b => a < b) := by
  have h := run_ids_increasing ops c h1 h2
  refine ⟨rfl, h.1, h.2, ?_⟩
  have h3 : (context.init : context α).m_next_unique_id
      + (((context.init : context α).run ops).1.length : Int) < 2 ^ 63 := by
    have e1 : (context.init : context α).m_next_unique_id = 1 := rfl
    rw [e1, run_ids_length ops (context.init : context α) c]
    omega
  exact (run_ids_increasing ops (context.init : context α) (le_refl 1) h3).1

/-- Instance of C8: ids drawn around an add and a remove of device 1 on a new
context are 1, 2, 3. -/
theorem get_next_id_strictly_increasing_witness :
    (1 : Int) ≤ (context.init : context Int).m_next_unique_id ∧
      ((context.init : context Int).run
        [context_op.get_next_id, context_op.add_device device_a, context_op.get_next_id,
          context_op.remove_device 1, context_op.get_next_id]).1 = [1, 2, 3] ∧
      ((context.init : context Int).run
        [context_op.get_next_id, context_op.add_device device_a, context_op.get_next_id,
          context_op.remove_device 1, context_op.get_next_id]).1.Pairwise
            (fun a b => a < b) := by
  have h := get_next_id_strictly_increasing (context.init : context Int)
    [context_op.get_next_id, context_op.add_device device_a, context_op.get_next_id,
      context_op.remove_device 1, context_op.get_next_id] (by decide) (by decide)
  exact ⟨by decide, by decide, h.2.1⟩

/-- C9, as the code has it: `add_device(d)` always makes exactly one call to the
device callback, a `created` call for the id of `d`. When that id is not
registered yet, `get_device(d.get_id())` afterwards returns `d`, the info of
the call is filled from `d`, and the other registered devices stay. When the
id is registered already, for a device `old`, the registry is left as it
was: `get_device(d.get_id())` still returns `old`, `d` is dropped, and the info
of the call is filled from `old`. -/
theorem add_device_registers {α : Type} (c : context α) (d : device α) :
    (∃ info, (c.add_device d).m_device_calls = c.m_device_calls ++
        [⟨device_event.created, d.get_id, info⟩]) ∧
      (c.get_device d.get_id = Option.none →
        (c.add_device d).get_device d.get_id = some d ∧
        (c.add_device d).m_device_calls = c.m_device_calls ++
          [⟨device_event.created, d.get_id, some (api_device.set_from d)⟩] ∧
        ∀ other, other ≠ d.get_id → (c.add_device d).get_device other = c.get_device other) ∧
      (∀ old, c.get_device d.get_id = some old →
        (c.add_device d).m_devices = c.m_devices ∧
        (c.add_device d).get_device d.get_id = some old ∧
        (∀ other, (c.add_device d).get_device other = c.get_device other) ∧
        (c.add_device d).m_device_calls = c.m_device_calls ++
          [⟨device_event.created, d.get_id, some (api_device.set_from old)⟩]) := by
  refine ⟨⟨(devices_find (devices_emplace c.m_devices d.get_id d) d.get_id).map
    api_device.set_from, by unfold context.add_device; simp only [notify_device_calls]⟩, ?_, ?_⟩
  · intro h
    unfold context.get_device at h
    have hdev : (c.add_device d).m_devices = c.m_devices ++ [(d.get_id, d)] := by
      unfold context.add_device
      rw [(notify_device_devices _ _ _).1]
      simp [devices_emplace, h]
    refine ⟨?_, ?_, ?_⟩
    · unfold context.get_device
      rw [hdev]
      exact devices_find_append_single _ _ _ h
    · unfold context.add_device
      simp only [notify_device_calls, devices_emplace, h,
        devices_find_append_single c.m_devices d.get_id d h, Option.map_some']
    · intro other hne
      unfold context.get_device
      rw [hdev]
      induction c.m_devices with
      | nil =>
        have hne2 : ¬ d.get_id = other := fun e => hne e.symm
        simp [devices_find, hne2]
      | cons hd tl ih =>
        rw [List.cons_append]
        simp only [devices_find, ih]
  · intro old h
    unfold context.get_device at h
    have hdev : (c.add_device d).m_devices = c.m_devices := by
      unfold context.add_device
      rw [(notify_device_devices _ _ _).1]
      simp [devices_emplace, h]
    refine ⟨hdev, ?_, ?_, ?_⟩
    · unfold context.get_device
      rw [hdev]
      exact h
    · intro other
      unfold context.get_device
      rw [hdev]
    · unfold context.add_device
      simp only [notify_device_calls, devices_emplace, h, Option.map_some']

/-- Instance of C9: id 2 is not registered after `device_a` was added, and
adding `device_b` registers it; id 1 is taken by `device_a`, and adding
`device_a_clone`, another object with id 1, keeps `device_a`. -/
theorem add_device_registers_witness :
    (context.init.add_device device_a).get_device device_b.get_id = Option.none ∧
      two_pads.get_device device_b.get_id = some device_b ∧
      two_pads.m_device_calls = (context.init.add_device device_a).m_device_calls ++
        [⟨device_event.created, device_b.get_id, some (api_device.set_from device_b)⟩] ∧
      (context.init.add_device device_a).get_device device_a_clone.get_id = some device_a ∧
      ((context.init.add_device device_a).add_device device_a_clone).get_device
        device_a_clone.get_id = some device_a ∧
      ((context.init.add_device device_a).add_device device_a_clone).m_device_calls
        = (context.init.add_device device_a).m_device_calls ++
          [⟨device_event.created, device_a_clone.get_id,
            some (api_device.set_from device_a)⟩] := by
  have h := (add_device_registers (context.init.add_device device_a) device_b).2.1 (by decide)
  have k := (add_device_registers (context.init.add_device device_a) device_a_clone).2.2
    device_a (by decide)
  exact ⟨by decide, h.1, h.2.1, by decide, k.2.1, k.2.2.2⟩

/-- C9 fails when the id is taken: with `device_a` registered under id 1,
`add_device` of another object with id 1 keeps `device_a`, so `get_device(1)`
does not return the added object. -/
theorem add_device_taken_id_keeps_old :
    device_a_clone.get_id = 1 ∧
      (context.init.add_device device_a).get_device 1 = some device_a ∧
      ((context.init.add_device device_a).add_device device_a_clone).get_device
        device_a_clone.get_id = some device_a ∧
      device_a ≠ device_a_clone := by
  decide

/-- C10: on a registry with unique keys, `remove_device(id)` for a registered
id makes `get_device(id)` null, leaves the result of `get_device` for every
other id and the counter as they were, and makes exactly one call to the
device callback, a `removed` call for `id` (with null info); for an id that
is not registered it returns the context unchanged. -/
theorem remove_device_spec {α : Type} (c : context α) (id : Int)
    (hnd : (c.m_devices.map (fun pair => pair.1)).Nodup) :
    (∀ d, c.get_device id = some d →
        (c.remove_device id).get_device id = Option.none ∧
        (∀ other, other ≠ id → (c.remove_device id).get_device other = c.get_device other) ∧
        (c.remove_device id).m_device_calls = c.m_device_calls ++
          [⟨device_event.removed, id, Option.none⟩] ∧
        (c.remove_device id).m_next_unique_id = c.m_next_unique_id) ∧
      (c.get_device id = Option.none → c.remove_device id = c) := by
  refine ⟨?_, ?_⟩
  · intro d h
    unfold context.get_device at h
    have hdev : (c.remove_device id).m_devices = devices_erase c.m_devices id := by
      unfold context.remove_device
      simp only [h]
      exact (notify_device_devices _ _ _).1
    refine ⟨?_, ?_, ?_, remove_device_counter c id⟩
    · unfold context.get_device
      rw [hdev]
      exact devices_find_erase_self _ hnd id
    · intro other hne
      unfold context.get_device
      rw [hdev]
      exact devices_find_erase_ne _ id other hne
    · unfold context.remove_device
      simp only [h, notify_device_calls, devices_find_erase_self _ hnd id, Option.map_none']
  · intro h
    unfold context.get_device at h
    unfold context.remove_device
    simp only [h]

/-- Instance of C10 on `two_pads`: removing device 1 leaves device 2, removing
the unregistered id 7 changes nothing. -/
theorem remove_device_spec_witness :
    (two_pads.m_devices.map (fun pair => pair.1)).Nodup ∧
      two_pads.get_device 1 = some device_a ∧
      (two_pads.remove_device 1).get_device 1 = Option.none ∧
      (two_pads.remove_device 1).get_device 2 = some device_b ∧
      (two_pads.remove_device 1).m_device_calls = two_pads.m_device_calls ++
        [⟨device_event.removed, 1, Option.none⟩] ∧
      two_pads.remove_device 7 = two_pads := by
  have hnd : (two_pads.m_devices.map (fun pair => pair.1)).Nodup := by decide
  have h := remove_device_spec two_pads 1 hnd
  have h7 := remove_device_spec two_pads 7 hnd
  have h1 := h.1 device_a (by decide)
  refine ⟨hnd, by decide, h1.1, ?_, h1.2.2.1, h7.2 (by decide)⟩
  rw [h1.2.1 2 (by decide)]
  decide

section enumeration_lemmas

variable {α : Type}

theorem nexts_succ (e : enumeration α) (k : Nat) :
    e.nexts (k + 1) = ((e.next).1 :: ((e.next).2.nexts k).1, ((e.next).2.nexts k).2) := rfl

/-- From offset `m_current` of a snapshot with a proper end iterator, `k` calls
of `next` return the next `k` devices and then null. -/
theorem nexts_from (k : Nat) (e : enumeration α) (hend : e.m_end = e.m_devices.length)
    (hcur : e.m_current ≤ e.m_end) :
    (e.nexts k).1 = ((e.m_devices.drop e.m_current).take k).map some
        ++ List.replicate (k - (e.m_end - e.m_current)) Option.none ∧
      (e.nexts k).2.m_devices = e.m_devices ∧ (e.nexts k).2.m_end = e.m_end := by
  induction k generalizing e with
  | zero => simp [enumeration.nexts]
  | succ k ih =>
    rw [nexts_succ]
    by_cases hc : e.m_current = e.m_end
    · have hn : e.next = (Option.none, e) := by simp [enumeration.next, hc]
      rw [hn]
      obtain ⟨ih1, ih2, ih3⟩ := ih e hend hcur
      refine ⟨?_, ih2, ih3⟩
      have hd : e.m_devices.drop e.m_current = [] := by
        rw [hc, hend]
        exact List.drop_length _
      rw [ih1, hd, hc, Nat.sub_self, Nat.sub_zero, Nat.sub_zero]
      simp [List.replicate_succ]
    · have hlt : e.m_current < e.m_devices.length := by omega
      have hn : e.next = (some (e.m_devices[e.m_current]),
          { e with m_current := e.m_current + 1 }) := by
        simp [enumeration.next, hc, List.getElem?_eq_getElem hlt]
      rw [hn]
      obtain ⟨ih1, ih2, ih3⟩ := ih { e with m_current := e.m_current + 1 } hend (by
        show e.m_current + 1 ≤ e.m_end
        omega)
      refine ⟨?_, ih2, ih3⟩
      have hd : e.m_devices.drop e.m_current =
          e.m_devices[e.m_current] :: e.m_devices.drop (e.m_current + 1) :=
        List.drop_eq_getElem_cons hlt
      have hk : k + 1 - (e.m_end - e.m_current) = k - (e.m_end - (e.m_current + 1)) := by omega
      rw [ih1, hd, hk]
      rfl

theorem session_run_results (ops : List (session_op α)) (c : context α) (e : enumeration α) :
    (session_run c e ops).1 = (e.nexts (session_nexts ops)).1 := by
  induction ops generalizing c e with
  | nil => rfl
  | cons op rest ih =>
    cases op with
    | next =>
      have h1 : (session_run c e (session_op.next :: rest)).1 =
          (e.next).1 :: (session_run c (e.next).2 rest).1 := rfl
      have h2 : session_nexts (session_op.next :: rest) = session_nexts rest + 1 := rfl
      rw [h1, h2, nexts_succ, ih]
    | add_device dev => exact ih (c.add_device dev) e
    | remove_device id => exact ih (c.remove_device id) e

end enumeration_lemmas

/-- C11: for an enumeration whose snapshot is `L` (any enumeration after
`reset`, and the one built by the constructor from a context, where `L` is
`get_devices()`), `k` calls of `next` return the first `k` devices of `L` in
order, followed by null for every call beyond the length of `L`; after `k`
calls, `reset` gives back the enumeration that produces this sequence from
the start. -/
theorem enumeration_next_sequence {α : Type} (e : enumeration α) (c : context α) (k : Nat) :
    ((e.reset).nexts k).1 = (e.m_devices.take k).map some
        ++ List.replicate (k - e.m_devices.length) Option.none ∧
      ((e.reset).nexts e.m_devices.length).1 = e.m_devices.map some ∧
      (((e.reset).nexts k).2.reset) = e.reset ∧
      (∀ j, ((((e.reset).nexts k).2.reset).nexts j).1 = ((e.reset).nexts j).1) ∧
      ((enumeration.init c).nexts k).1 = (c.get_devices.take k).map some
        ++ List.replicate (k - c.get_devices.length) Option.none := by
  have key : ∀ (x : enumeration α) (n : Nat),
      ((x.reset).nexts n).1 = (x.m_devices.take n).map some
        ++ List.replicate (n - x.m_devices.length) Option.none ∧
      ((x.reset).nexts n).2.m_devices = x.m_devices := by
    intro x n
    have h := nexts_from n x.reset rfl (Nat.zero_le _)
    refine ⟨?_, h.2.1⟩
    rw [h.1]
    simp [enumeration.reset]
  have hreset : ((e.reset).nexts k).2.reset = e.reset := by
    have h := (key e k).2
    simp only [enumeration.reset] at h ⊢
    rw [h]
  refine ⟨(key e k).1, ?_, hreset, ?_, ?_⟩
  · rw [(key e e.m_devices.length).1]
    simp
  · intro j
    rw [hreset]
  · exact (key { m_devices := c.get_devices, m_current := 0, m_end := 0 } k).1

/-- C12: in any interleaving of `next` calls on an enumeration built from a
context with `add_device` and `remove_device` calls on that context, the
`next` calls return what they return without those calls: the devices
`get_devices()` held at construction, in order, then null. On a registry
with unique keys, a registered device is part of the snapshot, and after
`remove_device(id)` the context answers null for `id` while the enumeration
still returns the whole snapshot. -/
theorem enumeration_snapshot_fixed {α : Type} (c : context α) (ops : List (session_op α))
    (hnd : (c.m_devices.map (fun pair => pair.1)).Nodup) :
    (session_run c (enumeration.init c) ops).1 = ((enumeration.init c).nexts (session_nexts ops)).1 ∧
      (session_run c (enumeration.init c) ops).1 =
        (c.get_devices.take (session_nexts ops)).map some
          ++ List.replicate (session_nexts ops - c.get_devices.length) Option.none ∧
      ∀ id d, c.get_device id = some d →
        d ∈ (enumeration.init c).m_devices ∧
        (c.remove_device id).get_device id = Option.none ∧
        (session_run c (enumeration.init c)
          (session_op.remove_device id ::
            List.replicate c.get_devices.length session_op.next)).1 = c.get_devices.map some := by
  have hinit : ∀ k, ((enumeration.init c).nexts k).1 = (c.get_devices.take k).map some
      ++ List.replicate (k - c.get_devices.length) Option.none := by
    intro k
    have h := nexts_from k (enumeration.init c) rfl (Nat.zero_le _)
    rw [h.1]
    simp [enumeration.init, enumeration.reset]
  refine ⟨session_run_results ops c _, ?_, ?_⟩
  · rw [session_run_results, hinit]
  · intro id d hd
    refine ⟨?_, ?_, ?_⟩
    · have hm := devices_find_mem c.m_devices id d hd
      show d ∈ c.get_devices
      exact List.mem_map.mpr ⟨(id, d), hm, rfl⟩
    · unfold context.get_device at hd ⊢
      have hdev : (c.remove_device id).m_devices = devices_erase c.m_devices id := by
        unfold context.remove_device
        simp only [hd]
        exact (notify_device_devices _ _ _).1
      rw [hdev]
      exact devices_find_erase_self _ hnd id
    · rw [session_run_results, hinit]
      have hcount : ∀ n : Nat, session_nexts
          (List.replicate n (session_op.next : session_op α)) = n := by
        intro n
        induction n with
        | zero => rfl
        | succ n ih => simp [List.replicate_succ, session_nexts, ih]
      have h2 : session_nexts (session_op.remove_device id ::
          List.replicate c.get_devices.length (session_op.next : session_op α))
          = c.get_devices.length := hcount _
      rw [h2]
      simp

/-- Instance of C12: an enumeration over the two devices of `two_pads`, then
device 1 is removed, then two `next` calls: both devices are returned, and
`get_device(1)` is null. -/
theorem enumeration_snapshot_fixed_witness :
    (two_pads.m_devices.map (fun pair => pair.1)).Nodup ∧
      two_pads.get_device 1 = some device_a ∧
      (session_run two_pads (enumeration.init two_pads)
        [session_op.remove_device 1, session_op.next, session_op.next]).1
          = [some device_a, some device_b] ∧
      (two_pads.remove_device 1).get_device 1 = Option.none ∧
      (two_pads.remove_device 1).get_devices = [device_b] := by
  have hnd : (two_pads.m_devices.map (fun pair => pair.1)).Nodup := by decide
  have h := enumeration_snapshot_fixed two_pads
    [session_op.remove_device 1, session_op.next, session_op.next] hnd
  have h1 := h.2.2 1 device_a (by decide)
  refine ⟨hnd, by decide, ?_, h1.2.1, by decide⟩
  rw [h.2.1]
  decide

/-- C19: for an axis whose staged value is 0, `add(a)`, `add(b)` and `commit()`
leave `get()` equal to `a + b`. -/
theorem virtual_axis_add_add_commit {α : Type} [AddZeroClass α] (x : virtual_axis α) (a b : α)
    (hnext : x.get_next = 0) : (((x.add a).add b).commit).get = a + b := by
  unfold virtual_axis.get_next at hnext
  simp [virtual_axis.add, virtual_axis.commit, virtual_axis.get, hnext]

/-- Instance of C19 on a new axis with 3 and 4. -/
theorem virtual_axis_add_add_commit_witness :
    (virtual_axis.init : virtual_axis Int).get_next = 0 ∧
      ((((virtual_axis.init : virtual_axis Int).add 3).add 4).commit).get = 3 + 4 :=
  ⟨rfl, virtual_axis_add_add_commit (virtual_axis.init : virtual_axis Int) 3 4 rfl⟩

/-- C20: `commit()` turns the state (current `c`, previous `p`, staged `n`) into
(`n`, `c`, `n`); after two commits all three slots hold `n`, every further
commit leaves that state as it is, and no number of commits changes the
staged value. -/
theorem virtual_axis_commit_twice {α : Type} (c p n : α) (k : Nat) :
    (virtual_axis.commit { m_current := c, m_previous := p, m_next := n } : virtual_axis α)
        = { m_current := n, m_previous := c, m_next := n } ∧
      (virtual_axis.commit (virtual_axis.commit
        { m_current := c, m_previous := p, m_next := n }) : virtual_axis α)
        = { m_current := n, m_previous := n, m_next := n } ∧
      (virtual_axis.commit^[k + 2] { m_current := c, m_previous := p, m_next := n }
        : virtual_axis α) = { m_current := n, m_previous := n, m_next := n } ∧
      ((virtual_axis.commit^[k] { m_current := c, m_previous := p, m_next := n }
        : virtual_axis α)).get_next = n := by
  have hfix : ∀ j : Nat, (virtual_axis.commit^[j]
      ({ m_current := n, m_previous := n, m_next := n } : virtual_axis α))
      = { m_current := n, m_previous := n, m_next := n } := by
    intro j
    induction j with
    | zero => rfl
    | succ j ih => rw [Function.iterate_succ_apply, show virtual_axis.commit
        ({ m_current := n, m_previous := n, m_next := n } : virtual_axis α)
        = { m_current := n, m_previous := n, m_next := n } from rfl, ih]
  have hnext : ∀ (j : Nat) (x : virtual_axis α),
      (virtual_axis.commit^[j] x).get_next = x.get_next := by
    intro j
    induction j with
    | zero => intro x; rfl
    | succ j ih =>
      intro x
      rw [Function.iterate_succ_apply, ih]
      rfl
  refine ⟨rfl, rfl, ?_, hnext k _⟩
  rw [Function.iterate_add_apply]
  exact hfix k

section deadzone_lemmas

variable {α : Type} [LinearOrderedField α]

/-- Closed form of `apply_deadzone` when the divisor is not zero. -/
theorem apply_deadzone_eq (value abs_max deadzone : α) (h : deadzone ≠ abs_max) :
    apply_deadzone value abs_max deadzone =
      some (if value ≤ deadzone then 0
        else (min value abs_max - deadzone) / (abs_max - deadzone)) := by
  have hd : ¬ abs_max - deadzone = 0 := fun e => h (sub_eq_zero.mp e).symm
  unfold apply_deadzone
  by_cases h1 : value ≤ deadzone
  · simp [h1]
  · simp only [h1, if_false, hd, gt_iff_lt]
    by_cases h2 : abs_max < value
    · simp [h2, min_eq_right (le_of_lt h2)]
    · simp [h2, min_eq_left (not_lt.mp h2)]

theorem deadzone_curve_range (value abs_max deadzone : α) (h : deadzone ≠ abs_max) :
    0 ≤ (if value ≤ deadzone then 0
        else (min value abs_max - deadzone) / (abs_max - deadzone)) ∧
      (if value ≤ deadzone then 0
        else (min value abs_max - deadzone) / (abs_max - deadzone)) ≤ 1 := by
  by_cases h1 : value ≤ deadzone
  · simp [h1]
  · simp only [h1, if_false]
    have hv : deadzone < value := not_le.mp h1
    rcases lt_or_gt_of_ne h with hlt | hgt
    · have hD : 0 < abs_max - deadzone := sub_pos.mpr hlt
      have hN : 0 ≤ min value abs_max - deadzone :=
        sub_nonneg.mpr (le_min (le_of_lt hv) (le_of_lt hlt))
      have hND : min value abs_max - deadzone ≤ abs_max - deadzone :=
        sub_le_sub_right (min_le_right _ _) _
      exact ⟨div_nonneg hN (le_of_lt hD), (div_le_one hD).mpr hND⟩
    · have hm : min value abs_max = abs_max := min_eq_right (le_of_lt (lt_trans hgt hv))
      have hD : abs_max - deadzone ≠ 0 := fun e => h (sub_eq_zero.mp e).symm
      rw [hm, div_self hD]
      exact ⟨zero_le_one, le_refl 1⟩

theorem deadzone_curve_mono (v1 v2 abs_max deadzone : α) (h : deadzone ≠ abs_max)
    (hv : v1 ≤ v2) :
    (if v1 ≤ deadzone then 0 else (min v1 abs_max - deadzone) / (abs_max - deadzone)) ≤
      (if v2 ≤ deadzone then 0 else (min v2 abs_max - deadzone) / (abs_max - deadzone)) := by
  by_cases h1 : v1 ≤ deadzone
  · rw [if_pos h1]
    exact (deadzone_curve_range v2 abs_max deadzone h).1
  · have h2 : ¬ v2 ≤ deadzone := fun e => h1 (le_trans hv e)
    rw [if_neg h1, if_neg h2]
    rcases lt_or_gt_of_ne h with hlt | hgt
    · have hD : 0 < abs_max - deadzone := sub_pos.mpr hlt
      have hN : min v1 abs_max - deadzone ≤ min v2 abs_max - deadzone :=
        sub_le_sub_right (min_le_min_right _ hv) _
      exact (div_le_div_iff_of_pos_right hD).mpr hN
    · have hm1 : min v1 abs_max = abs_max :=
        min_eq_right (le_of_lt (lt_trans hgt (not_le.mp h1)))
      have hm2 : min v2 abs_max = abs_max :=
        min_eq_right (le_of_lt (lt_trans hgt (not_le.mp h2)))
      rw [hm1, hm2]

end deadzone_lemmas

/-- C13: when `value <= deadzone`, `apply_deadzone` returns 0, for every
`abs_max`. -/
theorem apply_deadzone_below {α : Type} [LinearOrderedField α] (value abs_max deadzone : α)
    (h : value ≤ deadzone) : apply_deadzone value abs_max deadzone = some 0 := by
  simp [apply_deadzone, h]

/-- Instance of C13 with the left stick deadzone. -/
theorem apply_deadzone_below_witness :
    (7000 : ℚ) ≤ 7849 ∧ apply_deadzone (7000 : ℚ) 32767 7849 = some 0 :=
  ⟨by norm_num, apply_deadzone_below 7000 32767 7849 (by norm_num)⟩

/-- C14, as the code has it: when `deadzone < abs_max`, the result at
`value = abs_max` is 1 and every value above `abs_max` gives the result of
`abs_max`. -/
theorem apply_deadzone_at_max {α : Type} [LinearOrderedField α] (abs_max deadzone : α)
    (h : deadzone < abs_max) :
    apply_deadzone abs_max abs_max deadzone = some 1 ∧
      ∀ value, abs_max < value →
        apply_deadzone value abs_max deadzone = apply_deadzone abs_max abs_max deadzone := by
  have hne : deadzone ≠ abs_max := ne_of_lt h
  have hD : abs_max - deadzone ≠ 0 := fun e => hne (sub_eq_zero.mp e).symm
  have h1 : apply_deadzone abs_max abs_max deadzone = some 1 := by
    rw [apply_deadzone_eq _ _ _ hne, if_neg (not_le.mpr h), min_self, div_self hD]
  refine ⟨h1, ?_⟩
  intro value hv
  rw [h1, apply_deadzone_eq _ _ _ hne, if_neg (not_le.mpr (lt_trans h hv)),
    min_eq_right (le_of_lt hv), div_self hD]

/-- Instance of C14 with the left stick deadzone. -/
theorem apply_deadzone_at_max_witness :
    (7849 : ℚ) < 32767 ∧ apply_deadzone (32767 : ℚ) 32767 7849 = some 1 ∧
      apply_deadzone (40000 : ℚ) 32767 7849 = apply_deadzone (32767 : ℚ) 32767 7849 := by
  have h := apply_deadzone_at_max (32767 : ℚ) 7849 (by norm_num)
  exact ⟨by norm_num, h.1, h.2 40000 (by norm_num)⟩

/-- C14 fails when `abs_max <= deadzone`: with `abs_max = 1` and
`deadzone = 2` the result at `value = abs_max` is 0, not 1, and the value 3
above `abs_max` gives 1, not the result of `abs_max`. -/
theorem apply_deadzone_max_below_deadzone :
    apply_deadzone (1 : ℚ) 1 2 = some 0 ∧ apply_deadzone (1 : ℚ) 1 2 ≠ some 1 ∧
      apply_deadzone (3 : ℚ) 1 2 = some 1 ∧
      apply_deadzone (3 : ℚ) 1 2 ≠ apply_deadzone (1 : ℚ) 1 2 := by
  have h1 : apply_deadzone (1 : ℚ) 1 2 = some 0 := by
    rw [apply_deadzone_eq _ _ _ (by norm_num)]
    norm_num
  have h3 : apply_deadzone (3 : ℚ) 1 2 = some 1 := by
    rw [apply_deadzone_eq _ _ _ (by norm_num)]
    norm_num
  refine ⟨h1, ?_, h3, ?_⟩
  · rw [h1]
    norm_num
  · rw [h1, h3]
    norm_num

/-- C15, as the code has it: when `deadzone` differs from `abs_max`, every value
has a result, the result lies in [0, 1], it is non-decreasing in the value,
and for `deadzone < value <= abs_max` it is
`(value - deadzone) / (abs_max - deadzone)`. -/
theorem apply_deadzone_shape {α : Type} [LinearOrderedField α] (abs_max deadzone : α)
    (h : deadzone ≠ abs_max) :
    (∀ value, ∃ r, apply_deadzone value abs_max deadzone = some r ∧ 0 ≤ r ∧ r ≤ 1) ∧
      (∀ v1 v2 r1 r2, v1 ≤ v2 → apply_deadzone v1 abs_max deadzone = some r1 →
        apply_deadzone v2 abs_max deadzone = some r2 → r1 ≤ r2) ∧
      (∀ value, deadzone < value → value ≤ abs_max →
        apply_deadzone value abs_max deadzone =
          some ((value - deadzone) / (abs_max - deadzone))) := by
  refine ⟨?_, ?_, ?_⟩
  · intro value
    exact ⟨_, apply_deadzone_eq value abs_max deadzone h,
      deadzone_curve_range value abs_max deadzone h⟩
  · intro v1 v2 r1 r2 hv h1 h2
    rw [apply_deadzone_eq _ _ _ h, Option.some.injEq] at h1 h2
    rw [← h1, ← h2]
    exact deadzone_curve_mono v1 v2 abs_max deadzone h hv
  · intro value hlo hhi
    rw [apply_deadzone_eq _ _ _ h, if_neg (not_le.mpr hlo), min_eq_left hhi]

/-- Instance of C15 with the left stick deadzone: the value halfway between
the deadzone and the maximum gives one half. -/
theorem apply_deadzone_shape_witness :
    (7849 : ℚ) ≠ 32767 ∧ apply_deadzone (20308 : ℚ) 32767 7849 = some (1 / 2) ∧
      ∃ r, apply_deadzone (40000 : ℚ) 32767 7849 = some r ∧ 0 ≤ r ∧ r ≤ 1 := by
  have h := apply_deadzone_shape (32767 : ℚ) 7849 (by norm_num)
  refine ⟨by norm_num, ?_, h.1 40000⟩
  rw [h.2.2 20308 (by norm_num) (by norm_num)]
  norm_num

/-- C15 fails when `deadzone = abs_max`: with both equal to 1 the value 2 is
above the deadzone, is clamped to 1, and the quotient 0 / 0 has no value, so
there is no result in [0, 1]. -/
theorem apply_deadzone_zero_divisor :
    apply_deadzone (2 : ℚ) 1 1 = Option.none ∧
      ¬ ∃ r, apply_deadzone (2 : ℚ) 1 1 = some r ∧ 0 ≤ r ∧ r ≤ 1 := by
  have h : apply_deadzone (2 : ℚ) 1 1 = Option.none := by
    unfold apply_deadzone
    norm_num
  refine ⟨h, ?_⟩
  rintro ⟨r, hr, _⟩
  rw [h] at hr
  exact absurd hr (by simp)

section derive_lemmas

variable {α : Type}

theorem axes_find_map (g : virtual_axis α → virtual_axis α)
    (axes : List (input_code × virtual_axis α)) (code : input_code) :
    axes_find (axes.map (fun pair => (pair.1, g pair.2))) code =
      (axes_find axes code).map (fun r => (r.1, g r.2)) := by
  induction axes with
  | nil => simp [axes_find]
  | cons hd tl ih =>
    obtain ⟨k, a⟩ := hd
    by_cases hk : k = code
    · simp [axes_find, hk]
    · simp only [List.map_cons, axes_find, hk, if_false, ih, Option.map_map]
      rfl

theorem get_axis_commit (d : device α) (code : input_code) :
    (d.commit).get_axis code = (d.get_axis code).map (fun r => (r.1, r.2.commit)) := by
  unfold device.get_axis device.commit
  by_cases hn : code = input_code.none
  · simp [hn]
  · simp only [hn, if_false]
    exact axes_find_map virtual_axis.commit d.m_axes code

theorem get_axis_write_axis (d : device α) (code other : input_code)
    (f : virtual_axis α → virtual_axis α) :
    (d.write_axis code f).get_axis other =
      (d.get_axis other).map (fun r => (r.1, if other = code then f r.2 else r.2)) := by
  unfold device.get_axis device.write_axis
  by_cases hn : other = input_code.none
  · simp [hn]
  · simp only [hn, if_false]
    exact axes_find_modify f d.m_axes code other

theorem get_axis_write_axis_ne (d : device α) (code other : input_code)
    (f : virtual_axis α → virtual_axis α) (h : other ≠ code) :
    (d.write_axis code f).get_axis other = d.get_axis other := by
  rw [get_axis_write_axis]
  cases d.get_axis other <;> simp [h]

theorem get_axis_write_axis_self (d : device α) (code : input_code)
    (f : virtual_axis α → virtual_axis α) :
    (d.write_axis code f).get_axis code = (d.get_axis code).map (fun r => (r.1, f r.2)) := by
  rw [get_axis_write_axis]
  cases d.get_axis code <;> simp

variable [LinearOrderedRing α]

theorem derive_axis_of_some (dev : device α) (source negative positive : input_code)
    (s n p : Nat × virtual_axis α) (hs : dev.get_axis source = some s)
    (hn : dev.get_axis negative = some n) (hp : dev.get_axis positive = some p) :
    derive_axis dev source negative positive =
      if s.2.get_next > 0 then
        (dev.write_axis positive (fun a => a.set s.2.get_next)).write_axis negative
          (fun a => a.set 0)
      else
        (dev.write_axis positive (fun a => a.set 0)).write_axis negative
          (fun a => a.set (-s.2.get_next)) := by
  unfold derive_axis
  simp only [hs, hn, hp]

theorem derive_axis_of_none (dev : device α) (source negative positive : input_code)
    (h : dev.get_axis source = Option.none ∨ dev.get_axis negative = Option.none ∨
      dev.get_axis positive = Option.none) :
    derive_axis dev source negative positive = dev := by
  unfold derive_axis
  cases hs : dev.get_axis source with
  | none => rfl
  | some s =>
    cases hn : dev.get_axis negative with
    | none => rfl
    | some n =>
      cases hp : dev.get_axis positive with
      | none => rfl
      | some p =>
        rw [hs, hn, hp] at h
        simp at h

theorem derive_axis_get_axis_other (dev : device α) (source negative positive other : input_code)
    (h1 : other ≠ negative) (h2 : other ≠ positive) :
    (derive_axis dev source negative positive).get_axis other = dev.get_axis other := by
  cases hs : dev.get_axis source with
  | none => rw [derive_axis_of_none dev _ _ _ (Or.inl hs)]
  | some s =>
    cases hn : dev.get_axis negative with
    | none => rw [derive_axis_of_none dev _ _ _ (Or.inr (Or.inl hn))]
    | some n =>
      cases hp : dev.get_axis positive with
      | none => rw [derive_axis_of_none dev _ _ _ (Or.inr (Or.inr hp))]
      | some p =>
        rw [derive_axis_of_some dev _ _ _ s n p hs hn hp]
        by_cases hv : s.2.get_next > 0
        · rw [if_pos hv, get_axis_write_axis_ne _ _ _ _ h1, get_axis_write_axis_ne _ _ _ _ h2]
        · rw [if_neg hv, get_axis_write_axis_ne _ _ _ _ h1, get_axis_write_axis_ne _ _ _ _ h2]

theorem derive_button_axis_of_some (dev : device α) (negative positive target : input_code)
    (t n p : Nat × virtual_axis α) (ht : dev.get_axis target = some t)
    (hn : dev.get_axis negative = some n) (hp : dev.get_axis positive = some p) :
    derive_button_axis dev negative positive target =
      dev.write_axis target
        (fun a => a.set (if n.2.get_next ≠ 0 then -n.2.get_next else p.2.get_next)) := by
  unfold derive_button_axis
  simp only [ht, hn, hp]
  by_cases hv : n.2.get_next ≠ 0
  · rw [if_pos hv, if_pos hv]
  · rw [if_neg hv, if_neg hv]

theorem derive_button_axis_get_axis_other (dev : device α)
    (negative positive target other : input_code) (h : other ≠ target) :
    (derive_button_axis dev negative positive target).get_axis other = dev.get_axis other := by
  cases ht : dev.get_axis target with
  | none => simp [derive_button_axis, ht]
  | some t =>
    cases hn : dev.get_axis negative with
    | none => simp [derive_button_axis, ht, hn]
    | some n =>
      cases hp : dev.get_axis positive with
      | none => simp [derive_button_axis, ht, hn, hp]
      | some p =>
        rw [derive_button_axis_of_some dev _ _ _ t n p ht hn hp,
          get_axis_write_axis_ne _ _ _ _ h]

theorem derive_button_axis_target (dev : device α) (negative positive target : input_code)
    (t n p : Nat × virtual_axis α) (ht : dev.get_axis target = some t)
    (hn : dev.get_axis negative = some n) (hp : dev.get_axis positive = some p) :
    ((derive_button_axis dev negative positive target).get_axis target).map
        (fun r => r.2.get_next) =
      some (if n.2.get_next ≠ 0 then -n.2.get_next else p.2.get_next) := by
  rw [derive_button_axis_of_some dev _ _ _ t n p ht hn hp, get_axis_write_axis_self, ht]
  rfl

/-- The four `derive_axis` calls of `derive_stick_pre_commit` leave the d-pad
axes as they were. -/
theorem stick_axes_keep_dpad (dev : device α) (other : input_code)
    (h : other ∈ [input_code.pad_dpad_left, input_code.pad_dpad_right, input_code.pad_dpad_x,
      input_code.pad_dpad_down, input_code.pad_dpad_up, input_code.pad_dpad_y]) :
    (derive_axis (derive_axis (derive_axis (derive_axis dev
        input_code.pad_left_stick_x input_code.pad_left_stick_left
          input_code.pad_left_stick_right)
        input_code.pad_left_stick_y input_code.pad_left_stick_down
          input_code.pad_left_stick_up)
        input_code.pad_right_stick_x input_code.pad_right_stick_left
          input_code.pad_right_stick_right)
        input_code.pad_right_stick_y input_code.pad_right_stick_down
          input_code.pad_right_stick_up).get_axis other = dev.get_axis other := by
  have hne : ∀ k ∈ [input_code.pad_left_stick_left, input_code.pad_left_stick_right,
      input_code.pad_left_stick_down, input_code.pad_left_stick_up,
      input_code.pad_right_stick_left, input_code.pad_right_stick_right,
      input_code.pad_right_stick_down, input_code.pad_right_stick_up], other ≠ k := by
    simp only [List.mem_cons, List.mem_singleton, List.not_mem_nil, or_false] at h
    rcases h with h | h | h | h | h | h <;> subst h <;> decide
  rw [derive_axis_get_axis_other _ _ _ _ _ (hne _ (by simp)) (hne _ (by simp)),
    derive_axis_get_axis_other _ _ _ _ _ (hne _ (by simp)) (hne _ (by simp)),
    derive_axis_get_axis_other _ _ _ _ _ (hne _ (by simp)) (hne _ (by simp)),
    derive_axis_get_axis_other _ _ _ _ _ (hne _ (by simp)) (hne _ (by simp))]

end derive_lemmas

/-- C16: on a device that has the source axis and two different axes for
`negative` and `positive`, with `v` staged on the source: after `derive_axis`
and the device commit the positive axis holds `v` and the negative axis 0
when `v > 0`; the positive axis holds 0 and the negative axis `-v` when
`v <= 0`, so both hold 0 when `v = 0`. When one of the three axes is missing,
`derive_axis` returns the device as it was. -/
theorem derive_axis_commit {α : Type} [LinearOrderedRing α] (dev : device α)
    (source negative positive : input_code) :
    (∀ s n p, dev.get_axis source = some s → dev.get_axis negative = some n →
      dev.get_axis positive = some p → negative ≠ positive →
      (0 < s.2.get_next →
        (((derive_axis dev source negative positive).commit).get_axis positive).map
            (fun r => r.2.get) = some s.2.get_next ∧
        (((derive_axis dev source negative positive).commit).get_axis negative).map
            (fun r => r.2.get) = some 0) ∧
      (s.2.get_next ≤ 0 →
        (((derive_axis dev source negative positive).commit).get_axis positive).map
            (fun r => r.2.get) = some 0 ∧
        (((derive_axis dev source negative positive).commit).get_axis negative).map
            (fun r => r.2.get) = some (-s.2.get_next)) ∧
      (s.2.get_next = 0 →
        (((derive_axis dev source negative positive).commit).get_axis positive).map
            (fun r => r.2.get) = some 0 ∧
        (((derive_axis dev source negative positive).commit).get_axis negative).map
            (fun r => r.2.get) = some 0)) ∧
    ((dev.get_axis source = Option.none ∨ dev.get_axis negative = Option.none ∨
        dev.get_axis positive = Option.none) →
      derive_axis dev source negative positive = dev) := by
  refine ⟨?_, derive_axis_of_none dev source negative positive⟩
  intro s n p hs hn hp hne
  have hne2 : positive ≠ negative := fun e => hne e.symm
  have hpos : 0 < s.2.get_next →
      (((derive_axis dev source negative positive).commit).get_axis positive).map
          (fun r => r.2.get) = some s.2.get_next ∧
      (((derive_axis dev source negative positive).commit).get_axis negative).map
          (fun r => r.2.get) = some 0 := by
    intro hv
    rw [derive_axis_of_some dev _ _ _ s n p hs hn hp, if_pos hv]
    constructor
    · rw [get_axis_commit, get_axis_write_axis_ne _ _ _ _ hne2, get_axis_write_axis_self, hp]
      rfl
    · rw [get_axis_commit, get_axis_write_axis_self, get_axis_write_axis_ne _ _ _ _ hne, hn]
      rfl
  have hneg : s.2.get_next ≤ 0 →
      (((derive_axis dev source negative positive).commit).get_axis positive).map
          (fun r => r.2.get) = some 0 ∧
      (((derive_axis dev source negative positive).commit).get_axis negative).map
          (fun r => r.2.get) = some (-s.2.get_next) := by
    intro hv
    rw [derive_axis_of_some dev _ _ _ s n p hs hn hp, if_neg (not_lt.mpr hv)]
    constructor
    · rw [get_axis_commit, get_axis_write_axis_ne _ _ _ _ hne2, get_axis_write_axis_self, hp]
      rfl
    · rw [get_axis_commit, get_axis_write_axis_self, get_axis_write_axis_ne _ _ _ _ hne, hn]
      rfl
  refine ⟨hpos, hneg, ?_⟩
  intro h0
  have h := hneg (le_of_eq h0)
  rw [h0, neg_zero] at h
  exact h

/-- Instance of C16 on `sample_mouse`, where 3 is staged on `mouse_x`: after
`derive_axis` and the commit, `mouse_x_right` holds 3 and `mouse_x_left` 0. -/
theorem derive_axis_commit_witness :
    sample_mouse.get_axis input_code.mouse_x
        = some (0, { m_current := 0, m_previous := 0, m_next := 3 }) ∧
      sample_mouse.get_axis input_code.mouse_x_left = some (1, virtual_axis.init) ∧
      sample_mouse.get_axis input_code.mouse_x_right = some (2, virtual_axis.init) ∧
      input_code.mouse_x_left ≠ input_code.mouse_x_right ∧
      (((derive_axis sample_mouse input_code.mouse_x input_code.mouse_x_left
        input_code.mouse_x_right).commit).get_axis input_code.mouse_x_right).map
          (fun r => r.2.get) = some 3 ∧
      (((derive_axis sample_mouse input_code.mouse_x input_code.mouse_x_left
        input_code.mouse_x_right).commit).get_axis input_code.mouse_x_left).map
          (fun r => r.2.get) = some 0 := by
  have h := (derive_axis_commit sample_mouse input_code.mouse_x input_code.mouse_x_left
    input_code.mouse_x_right).1 (0, { m_current := 0, m_previous := 0, m_next := 3 })
    (1, virtual_axis.init) (2, virtual_axis.init) (by decide) (by decide) (by decide)
    (by decide)
  have h3 := h.1 (by decide)
  exact ⟨by decide, by decide, by decide, by decide, h3.1, h3.2⟩

/-- C17: on a device that has the target axis and the two button axes,
`derive_button_axis` stages on the target the negated staged value of the
negative button when that value is not 0, whatever the positive button
holds, and the staged value of the positive button otherwise; it changes no
other axis. After `derive_stick_pre_commit`, `pad_dpad_x` is staged in this
way from (`pad_dpad_left`, `pad_dpad_right`) and `pad_dpad_y` from
(`pad_dpad_down`, `pad_dpad_up`). -/
theorem derive_button_axis_spec {α : Type} [LinearOrderedRing α] (dev : device α)
    (negative positive target : input_code) :
    (∀ t n p, dev.get_axis target = some t → dev.get_axis negative = some n →
      dev.get_axis positive = some p →
      ((derive_button_axis dev negative positive target).get_axis target).map
          (fun r => r.2.get_next) =
        some (if n.2.get_next ≠ 0 then -n.2.get_next else p.2.get_next) ∧
      ∀ other, other ≠ target →
        (derive_button_axis dev negative positive target).get_axis other
          = dev.get_axis other) ∧
    (∀ l r x, dev.get_axis input_code.pad_dpad_left = some l →
      dev.get_axis input_code.pad_dpad_right = some r →
      dev.get_axis input_code.pad_dpad_x = some x →
      ((derive_stick_pre_commit dev).get_axis input_code.pad_dpad_x).map
          (fun a => a.2.get_next) =
        some (if l.2.get_next ≠ 0 then -l.2.get_next else r.2.get_next)) ∧
    (∀ d u y, dev.get_axis input_code.pad_dpad_down = some d →
      dev.get_axis input_code.pad_dpad_up = some u →
      dev.get_axis input_code.pad_dpad_y = some y →
      ((derive_stick_pre_commit dev).get_axis input_code.pad_dpad_y).map
          (fun a => a.2.get_next) =
        some (if d.2.get_next ≠ 0 then -d.2.get_next else u.2.get_next)) := by
  refine ⟨?_, ?_, ?_⟩
  · intro t n p ht hn hp
    exact ⟨derive_button_axis_target dev _ _ _ t n p ht hn hp,
      fun other ho => derive_button_axis_get_axis_other dev _ _ _ other ho⟩
  · intro l r x hl hr hx
    unfold derive_stick_pre_commit
    simp only
    rw [derive_button_axis_get_axis_other _ _ _ _ _ (by decide)]
    apply derive_button_axis_target _ _ _ _ x l r
    · rw [stick_axes_keep_dpad dev _ (by simp), hx]
    · rw [stick_axes_keep_dpad dev _ (by simp), hl]
    · rw [stick_axes_keep_dpad dev _ (by simp), hr]
  · intro d u y hd hu hy
    unfold derive_stick_pre_commit
    simp only
    apply derive_button_axis_target _ _ _ _ y d u
    · rw [derive_button_axis_get_axis_other _ _ _ _ _ (by decide),
        stick_axes_keep_dpad dev _ (by simp), hy]
    · rw [derive_button_axis_get_axis_other _ _ _ _ _ (by decide),
        stick_axes_keep_dpad dev _ (by simp), hd]
    · rw [derive_button_axis_get_axis_other _ _ _ _ _ (by decide),
        stick_axes_keep_dpad dev _ (by simp), hu]

/-- Instance of C17 on `sample_dpad`: left and right are both pressed, so
`pad_dpad_x` is staged to -1; only up is pressed, so `pad_dpad_y` is staged
to 1. -/
theorem derive_button_axis_spec_witness :
    sample_dpad.get_axis input_code.pad_dpad_left
        = some (0, { m_current := 0, m_previous := 0, m_next := 1 }) ∧
      sample_dpad.get_axis input_code.pad_dpad_right
        = some (1, { m_current := 0, m_previous := 0, m_next := 1 }) ∧
      sample_dpad.get_axis input_code.pad_dpad_x = some (2, virtual_axis.init) ∧
      ((derive_button_axis sample_dpad input_code.pad_dpad_left input_code.pad_dpad_right
        input_code.pad_dpad_x).get_axis input_code.pad_dpad_x).map
          (fun r => r.2.get_next) = some (-1) ∧
      ((derive_stick_pre_commit sample_dpad).get_axis input_code.pad_dpad_x).map
          (fun a => a.2.get_next) = some (-1) ∧
      ((derive_stick_pre_commit sample_dpad).get_axis input_code.pad_dpad_y).map
          (fun a => a.2.get_next) = some 1 := by
  have h := derive_button_axis_spec sample_dpad input_code.pad_dpad_left
    input_code.pad_dpad_right input_code.pad_dpad_x
  have h1 := (h.1 (2, virtual_axis.init)
    (0, { m_current := 0, m_previous := 0, m_next := 1 })
    (1, { m_current := 0, m_previous := 0, m_next := 1 })
    (by decide) (by decide) (by decide)).1
  have h2 := h.2.1 (0, { m_current := 0, m_previous := 0, m_next := 1 })
    (1, { m_current := 0, m_previous := 0, m_next := 1 }) (2, virtual_axis.init)
    (by decide) (by decide) (by decide)
  have h3 := h.2.2 (3, virtual_axis.init)
    (4, { m_current := 0, m_previous := 0, m_next := 1 }) (5, virtual_axis.init)
    (by decide) (by decide) (by decide)
  refine ⟨by decide, by decide, by decide, ?_, ?_, ?_⟩
  · rw [h1]; decide
  · rw [h2]; decide
  · rw [h3]; decide

section vibrate_lemmas

end vibrate_lemmas

section axes_wf_lemmas

variable {α : Type}

theorem axes_wf_init (kind : device_kind) (id : Int) : (device.init kind id : device α).axes_wf := by
  simp [device.axes_wf, device.init]

theorem axes_wf_add_axis [Zero α] (d : device α) (code : input_code) (h : d.axes_wf) :
    ((d.add_axis code).2).axes_wf := by
  by_cases hn : code = input_code.none
  · simpa [device.add_axis, hn] using h
  · unfold device.axes_wf at h ⊢
    simp only [device.add_axis, hn, if_false, axes_emplace]
    cases hf : axes_find d.m_axes code with
    | some r => exact h
    | none =>
      have hk := (axes_find_eq_none_iff d.m_axes code).mp hf
      simp only [List.map_append, List.map_cons, List.map_nil]
      refine ⟨?_, ?_⟩
      · rw [List.nodup_append]
        refine ⟨h.1, by simp, ?_⟩
        intro a ha hb
        simp only [List.mem_singleton] at hb
        exact hk (hb ▸ ha)
      · intro hm
        rcases List.mem_append.mp hm with hm | hm
        · exact h.2 hm
        · simp only [List.mem_singleton] at hm
          exact hn hm.symm

theorem axes_wf_add_axes [Zero α] (codes : List input_code) (d : device α) (h : d.axes_wf) :
    (d.add_axes codes).axes_wf := by
  induction codes generalizing d with
  | nil => exact h
  | cons c cs ih => exact ih (d.add_axis c).2 (axes_wf_add_axis d c h)

/-- Writing through an axis pointer keeps the set of codes. -/
theorem axes_wf_write_axis (d : device α) (code : input_code)
    (f : virtual_axis α → virtual_axis α) (h : d.axes_wf) : (d.write_axis code f).axes_wf := by
  unfold device.axes_wf device.write_axis at *
  simp only [axes_modify_keys]
  exact h

/-- The base `commit` keeps the set of codes. -/
theorem axes_wf_commit (d : device α) (h : d.axes_wf) : d.commit.axes_wf := by
  unfold device.axes_wf device.commit at *
  simpa [List.map_map, Function.comp] using h

end axes_wf_lemmas

/-- C21: on a device whose axis map has unique keys and no `none` key, which is
so for every device built by the constructor and `add_axis` calls,
`get_axis_codes()` has `get_axis_count()` entries, without duplicates and
without `none`; `get_axis` finds an axis for every one of them, so
`rb_minput_get_values` succeeds for it on the context that holds the device;
the `m_axis_count` written by `api_device::set_from` equals
`get_axis_count()`, which is also what `rb_minput_get_axis_count` returns, and
`rb_minput_get_axes` with that size returns all codes. -/
theorem axis_codes_consistent {α : Type} [Zero α] (d : device α) (hwf : d.axes_wf) :
    d.get_axis_codes.length = d.get_axis_count ∧
      d.get_axis_codes.Nodup ∧
      input_code.none ∉ d.get_axis_codes ∧
      (∀ code ∈ d.get_axis_codes, (d.get_axis code).isSome = true) ∧
      (api_device.set_from d).m_axis_count = d.get_axis_count ∧
      (∀ (c : context α) (id : Int), c.get_device id = some d →
        rb_minput_get_axis_count c id = (api_device.set_from d).m_axis_count ∧
        (0 < d.get_axis_count →
          rb_minput_get_axes c id d.get_axis_count = some d.get_axis_codes) ∧
        ∀ code ∈ d.get_axis_codes, (rb_minput_get_values c id code).isSome = true) ∧
      (∀ (kind : device_kind) (id : Int) (codes : List input_code),
        ((device.init kind id : device α).add_axes codes).axes_wf) := by
  have hfound : ∀ code ∈ d.get_axis_codes, (d.get_axis code).isSome = true := by
    intro code hcode
    have hne : code ≠ input_code.none := fun e => hwf.2 (e ▸ hcode)
    simp only [device.get_axis, hne, if_false]
    exact (axes_find_isSome_iff d.m_axes code).mpr hcode
  refine ⟨by simp [device.get_axis_codes, device.get_axis_count], hwf.1, hwf.2, hfound, rfl,
    ?_, fun kind id codes => axes_wf_add_axes codes _ (axes_wf_init kind id)⟩
  intro c id hreg
  refine ⟨by simp [rb_minput_get_axis_count, hreg, api_device.set_from], ?_, ?_⟩
  · intro hpos
    have hne : ¬ d.get_axis_count = 0 := by omega
    unfold rb_minput_get_axes
    simp only [hreg, hne, if_false]
    simp [device.get_axis_codes, device.get_axis_count]
  · intro code hcode
    have h := hfound code hcode
    unfold rb_minput_get_values
    simp only [hreg]
    cases hax : d.get_axis code with
    | none => simp [hax] at h
    | some axis => rfl

/-- Instance of C21 on `device_b`, registered under id 2 in `two_pads`. -/
theorem axis_codes_consistent_witness :
    device_b.axes_wf ∧ two_pads.get_device 2 = some device_b ∧
      device_b.get_axis_codes = [input_code.pad_a] ∧
      rb_minput_get_axis_count two_pads 2 = 1 ∧
      (rb_minput_get_values two_pads 2 input_code.pad_a).isSome = true := by
  have hwf : device_b.axes_wf :=
    axes_wf_add_axes _ _ (axes_wf_init device_kind.evdev 2)
  have h := axis_codes_consistent device_b hwf
  have h2 := h.2.2.2.2.2.1 two_pads 2 (by decide)
  exact ⟨hwf, by decide, by decide, h2.1, h2.2.2 input_code.pad_a (by decide)⟩

section mouse_lemmas

variable {α : Type} [LinearOrderedRing α]

theorem derive_axis_get_axis_positive (dev : device α) (source negative positive : input_code)
    (s n p : Nat × virtual_axis α) (hs : dev.get_axis source = some s)
    (hn : dev.get_axis negative = some n) (hp : dev.get_axis positive = some p)
    (hne : negative ≠ positive) :
    (derive_axis dev source negative positive).get_axis positive =
      some (p.1, p.2.set (if s.2.get_next > 0 then s.2.get_next else 0)) := by
  have hne2 : positive ≠ negative := fun e => hne e.symm
  rw [derive_axis_of_some dev _ _ _ s n p hs hn hp]
  by_cases hv : s.2.get_next > 0
  · rw [if_pos hv, if_pos hv, get_axis_write_axis_ne _ _ _ _ hne2, get_axis_write_axis_self, hp]
    rfl
  · rw [if_neg hv, if_neg hv, get_axis_write_axis_ne _ _ _ _ hne2, get_axis_write_axis_self, hp]
    rfl

theorem derive_axis_get_axis_negative (dev : device α) (source negative positive : input_code)
    (s n p : Nat × virtual_axis α) (hs : dev.get_axis source = some s)
    (hn : dev.get_axis negative = some n) (hp : dev.get_axis positive = some p)
    (hne : negative ≠ positive) :
    (derive_axis dev source negative positive).get_axis negative =
      some (n.1, n.2.set (if s.2.get_next > 0 then 0 else -s.2.get_next)) := by
  rw [derive_axis_of_some dev _ _ _ s n p hs hn hp]
  by_cases hv : s.2.get_next > 0
  · rw [if_pos hv, if_pos hv, get_axis_write_axis_self, get_axis_write_axis_ne _ _ _ _ hne, hn]
    rfl
  · rw [if_neg hv, if_neg hv, get_axis_write_axis_self, get_axis_write_axis_ne _ _ _ _ hne, hn]
    rfl

theorem maybe_reset_axis_get_axis_self (dev : device α) (code : input_code) :
    (maybe_reset_axis dev code).get_axis code =
      (dev.get_axis code).map (fun r => (r.1, r.2.set 0)) := by
  unfold maybe_reset_axis
  cases h : dev.get_axis code with
  | none => simp [h]
  | some a => simp only [get_axis_write_axis_self, h]

theorem maybe_reset_axis_get_axis_other (dev : device α) (code other : input_code)
    (hne : other ≠ code) : (maybe_reset_axis dev code).get_axis other = dev.get_axis other := by
  unfold maybe_reset_axis
  cases h : dev.get_axis code with
  | none => rfl
  | some a => exact get_axis_write_axis_ne _ _ _ _ hne

theorem reverse_y_get_axis_self (dev : device α) :
    (derive_mouse_reverse_y dev).get_axis input_code.mouse_y =
      (dev.get_axis input_code.mouse_y).map (fun r => (r.1, r.2.set (-r.2.get_next))) := by
  unfold derive_mouse_reverse_y
  cases h : dev.get_axis input_code.mouse_y with
  | none => simp [h]
  | some a => simp only [get_axis_write_axis_self, h, Option.map_some']

theorem reverse_y_get_axis_other (dev : device α) (other : input_code)
    (hne : other ≠ input_code.mouse_y) :
    (derive_mouse_reverse_y dev).get_axis other = dev.get_axis other := by
  unfold derive_mouse_reverse_y
  cases h : dev.get_axis input_code.mouse_y with
  | none => rfl
  | some a => exact get_axis_write_axis_ne _ _ _ _ hne

/-- The post-commit reset leaves every axis but the three relative ones. -/
theorem post_commit_get_axis_other (dev : device α) (other : input_code)
    (h1 : other ≠ input_code.mouse_x) (h2 : other ≠ input_code.mouse_y)
    (h3 : other ≠ input_code.mouse_wheel) :
    (derive_mouse_post_commit dev).get_axis other = dev.get_axis other := by
  unfold derive_mouse_post_commit
  rw [maybe_reset_axis_get_axis_other _ _ _ h3, maybe_reset_axis_get_axis_other _ _ _ h2,
    maybe_reset_axis_get_axis_other _ _ _ h1]

/-- The post-commit reset stages 0 on each of the three relative axes. -/
theorem post_commit_get_axis_relative (dev : device α) (code : input_code)
    (h : code ∈ [input_code.mouse_x, input_code.mouse_y, input_code.mouse_wheel]) :
    (derive_mouse_post_commit dev).get_axis code =
      (dev.get_axis code).map (fun r => (r.1, r.2.set 0)) := by
  unfold derive_mouse_post_commit
  simp only [List.mem_cons, List.mem_singleton, List.not_mem_nil, or_false] at h
  rcases h with h | h | h <;> subst h
  · rw [maybe_reset_axis_get_axis_other _ _ _ (by decide),
      maybe_reset_axis_get_axis_other _ _ _ (by decide), maybe_reset_axis_get_axis_self]
  · rw [maybe_reset_axis_get_axis_other _ _ _ (by decide), maybe_reset_axis_get_axis_self,
      maybe_reset_axis_get_axis_other _ _ _ (by decide)]
  · rw [maybe_reset_axis_get_axis_self, maybe_reset_axis_get_axis_other _ _ _ (by decide),
      maybe_reset_axis_get_axis_other _ _ _ (by decide)]

/-- The pre-commit pass writes `mouse_x` and `mouse_wheel` never and `mouse_y`
only to reverse it. -/
theorem pre_commit_get_axis_relative (dev : device α) :
    (derive_mouse_pre_commit dev).get_axis input_code.mouse_x
        = dev.get_axis input_code.mouse_x ∧
      (derive_mouse_pre_commit dev).get_axis input_code.mouse_wheel
        = dev.get_axis input_code.mouse_wheel ∧
      (derive_mouse_pre_commit dev).get_axis input_code.mouse_y =
        (dev.get_axis input_code.mouse_y).map (fun r => (r.1, r.2.set (-r.2.get_next))) := by
  unfold derive_mouse_pre_commit
  simp only
  refine ⟨?_, ?_, ?_⟩
  · rw [derive_axis_get_axis_other _ _ _ _ _ (by decide) (by decide),
      derive_axis_get_axis_other _ _ _ _ _ (by decide) (by decide),
      derive_axis_get_axis_other _ _ _ _ _ (by decide) (by decide),
      reverse_y_get_axis_other _ _ (by decide)]
  · rw [derive_axis_get_axis_other _ _ _ _ _ (by decide) (by decide),
      derive_axis_get_axis_other _ _ _ _ _ (by decide) (by decide),
      derive_axis_get_axis_other _ _ _ _ _ (by decide) (by decide),
      reverse_y_get_axis_other _ _ (by decide)]
  · rw [derive_axis_get_axis_other _ _ _ _ _ (by decide) (by decide),
      derive_axis_get_axis_other _ _ _ _ _ (by decide) (by decide),
      derive_axis_get_axis_other _ _ _ _ _ (by decide) (by decide),
      reverse_y_get_axis_self]

/-- The pre-commit pass on a device with the three x axes. -/
theorem pre_commit_x (dev : device α) (s l r : Nat × virtual_axis α)
    (hs : dev.get_axis input_code.mouse_x = some s)
    (hl : dev.get_axis input_code.mouse_x_left = some l)
    (hr : dev.get_axis input_code.mouse_x_right = some r) :
    (derive_mouse_pre_commit dev).get_axis input_code.mouse_x_right =
        some (r.1, r.2.set (if s.2.get_next > 0 then s.2.get_next else 0)) ∧
      (derive_mouse_pre_commit dev).get_axis input_code.mouse_x_left =
        some (l.1, l.2.set (if s.2.get_next > 0 then 0 else -s.2.get_next)) := by
  unfold derive_mouse_pre_commit
  simp only
  have hs0 := (reverse_y_get_axis_other dev input_code.mouse_x (by decide)).trans hs
  have hl0 := (reverse_y_get_axis_other dev input_code.mouse_x_left (by decide)).trans hl
  have hr0 := (reverse_y_get_axis_other dev input_code.mouse_x_right (by decide)).trans hr
  constructor
  · rw [derive_axis_get_axis_other _ _ _ _ _ (by decide) (by decide),
      derive_axis_get_axis_other _ _ _ _ _ (by decide) (by decide)]
    exact derive_axis_get_axis_positive _ _ _ _ s l r hs0 hl0 hr0 (by decide)
  · rw [derive_axis_get_axis_other _ _ _ _ _ (by decide) (by decide),
      derive_axis_get_axis_other _ _ _ _ _ (by decide) (by decide)]
    exact derive_axis_get_axis_negative _ _ _ _ s l r hs0 hl0 hr0 (by decide)

/-- The pre-commit pass on a device with the three y axes: the directions are
derived from the reversed value. -/
theorem pre_commit_y (dev : device α) (s u d : Nat × virtual_axis α)
    (hs : dev.get_axis input_code.mouse_y = some s)
    (hu : dev.get_axis input_code.mouse_y_up = some u)
    (hd : dev.get_axis input_code.mouse_y_down = some d) :
    (derive_mouse_pre_commit dev).get_axis input_code.mouse_y_up =
        some (u.1, u.2.set (if -s.2.get_next > 0 then -s.2.get_next else 0)) ∧
      (derive_mouse_pre_commit dev).get_axis input_code.mouse_y_down =
        some (d.1, d.2.set (if -s.2.get_next > 0 then 0 else - -s.2.get_next)) := by
  unfold derive_mouse_pre_commit
  simp only
  have hs0 : (derive_axis (derive_mouse_reverse_y dev) input_code.mouse_x
      input_code.mouse_x_left input_code.mouse_x_right).get_axis input_code.mouse_y
      = some (s.1, s.2.set (-s.2.get_next)) := by
    rw [derive_axis_get_axis_other _ _ _ _ _ (by decide) (by decide), reverse_y_get_axis_self,
      hs]
    rfl
  have hu0 : (derive_axis (derive_mouse_reverse_y dev) input_code.mouse_x
      input_code.mouse_x_left input_code.mouse_x_right).get_axis input_code.mouse_y_up
      = some u := by
    rw [derive_axis_get_axis_other _ _ _ _ _ (by decide) (by decide),
      reverse_y_get_axis_other _ _ (by decide), hu]
  have hd0 : (derive_axis (derive_mouse_reverse_y dev) input_code.mouse_x
      input_code.mouse_x_left input_code.mouse_x_right).get_axis input_code.mouse_y_down
      = some d := by
    rw [derive_axis_get_axis_other _ _ _ _ _ (by decide) (by decide),
      reverse_y_get_axis_other _ _ (by decide), hd]
  constructor
  · rw [derive_axis_get_axis_other _ _ _ _ _ (by decide) (by decide)]
    exact derive_axis_get_axis_positive _ _ _ _ _ d u hs0 hd0 hu0 (by decide)
  · rw [derive_axis_get_axis_other _ _ _ _ _ (by decide) (by decide)]
    exact derive_axis_get_axis_negative _ _ _ _ _ d u hs0 hd0 hu0 (by decide)

/-- The pre-commit pass on a device with the three wheel axes. -/
theorem pre_commit_wheel (dev : device α) (s u d : Nat × virtual_axis α)
    (hs : dev.get_axis input_code.mouse_wheel = some s)
    (hu : dev.get_axis input_code.mouse_wheel_up = some u)
    (hd : dev.get_axis input_code.mouse_wheel_down = some d) :
    (derive_mouse_pre_commit dev).get_axis input_code.mouse_wheel_up =
        some (u.1, u.2.set (if s.2.get_next > 0 then s.2.get_next else 0)) ∧
      (derive_mouse_pre_commit dev).get_axis input_code.mouse_wheel_down =
        some (d.1, d.2.set (if s.2.get_next > 0 then 0 else -s.2.get_next)) := by
  unfold derive_mouse_pre_commit
  simp only
  have keep : ∀ other, other ≠ input_code.mouse_y → other ≠ input_code.mouse_x_left →
      other ≠ input_code.mouse_x_right → other ≠ input_code.mouse_y_down →
      other ≠ input_code.mouse_y_up →
      (derive_axis (derive_axis (derive_mouse_reverse_y dev) input_code.mouse_x
        input_code.mouse_x_left input_code.mouse_x_right) input_code.mouse_y
        input_code.mouse_y_down input_code.mouse_y_up).get_axis other = dev.get_axis other := by
    intro other h1 h2 h3 h4 h5
    rw [derive_axis_get_axis_other _ _ _ _ _ h4 h5, derive_axis_get_axis_other _ _ _ _ _ h2 h3,
      reverse_y_get_axis_other _ _ h1]
  have hs0 := (keep input_code.mouse_wheel (by decide) (by decide) (by decide) (by decide)
    (by decide)).trans hs
  have hu0 := (keep input_code.mouse_wheel_up (by decide) (by decide) (by decide) (by decide)
    (by decide)).trans hu
  have hd0 := (keep input_code.mouse_wheel_down (by decide) (by decide) (by decide)
    (by decide) (by decide)).trans hd
  exact ⟨derive_axis_get_axis_positive _ _ _ _ s d u hs0 hd0 hu0 (by decide),
    derive_axis_get_axis_negative _ _ _ _ s d u hs0 hd0 hu0 (by decide)⟩

end mouse_lemmas

section mouse_commit_lemmas

variable {α : Type} [LinearOrderedRing α]

theorem xi2_commit_get_axis_direction (dev : device α) (other : input_code)
    (h1 : other ≠ input_code.mouse_x) (h2 : other ≠ input_code.mouse_y)
    (h3 : other ≠ input_code.mouse_wheel) :
    (xi2_device_commit dev).get_axis other =
      ((derive_mouse_pre_commit dev).get_axis other).map (fun r => (r.1, r.2.commit)) := by
  unfold xi2_device_commit
  rw [post_commit_get_axis_other _ _ h1 h2 h3, get_axis_commit]

theorem xi2_commit_get_axis_relative (dev : device α) (code : input_code)
    (h : code ∈ [input_code.mouse_x, input_code.mouse_y, input_code.mouse_wheel]) :
    (xi2_device_commit dev).get_axis code =
      ((derive_mouse_pre_commit dev).get_axis code).map
        (fun r => (r.1, (r.2.commit).set 0)) := by
  unfold xi2_device_commit
  rw [post_commit_get_axis_relative _ _ h, get_axis_commit, Option.map_map]
  rfl

/-- After one commit, a relative axis the device has holds its staged value
(reversed for `mouse_y`) as current and 0 as staged value. -/
theorem xi2_commit_relative (dev : device α) :
    (∀ a, dev.get_axis input_code.mouse_x = some a →
      (xi2_device_commit dev).get_axis input_code.mouse_x = some (a.1,
        { m_current := a.2.m_next, m_previous := a.2.m_current, m_next := 0 })) ∧
    (∀ a, dev.get_axis input_code.mouse_wheel = some a →
      (xi2_device_commit dev).get_axis input_code.mouse_wheel = some (a.1,
        { m_current := a.2.m_next, m_previous := a.2.m_current, m_next := 0 })) ∧
    (∀ a, dev.get_axis input_code.mouse_y = some a →
      (xi2_device_commit dev).get_axis input_code.mouse_y = some (a.1,
        { m_current := -a.2.m_next, m_previous := a.2.m_current, m_next := 0 })) := by
  obtain ⟨hx, hw, hy⟩ := pre_commit_get_axis_relative dev
  refine ⟨?_, ?_, ?_⟩
  · intro a ha
    rw [xi2_commit_get_axis_relative _ _ (by simp), hx, ha]
    rfl
  · intro a ha
    rw [xi2_commit_get_axis_relative _ _ (by simp), hw, ha]
    rfl
  · intro a ha
    rw [xi2_commit_get_axis_relative _ _ (by simp), hy, ha]
    rfl

theorem derived_positive_eq_max (v : α) : (if v > 0 then v else 0) = max v 0 := by
  by_cases h : v > 0
  · rw [if_pos h, max_eq_left (le_of_lt h)]
  · rw [if_neg h, max_eq_right (not_lt.mp h)]

theorem derived_negative_eq_max (v : α) : (if v > 0 then 0 else -v) = max (-v) 0 := by
  by_cases h : v > 0
  · rw [if_pos h, max_eq_right (neg_nonpos.mpr (le_of_lt h))]
  · rw [if_neg h, max_eq_left (neg_nonneg.mpr (not_lt.mp h))]

end mouse_commit_lemmas

/-- C22: on a device that has `mouse_y`, `mouse_y_up` and `mouse_y_down`, with `d`
staged on `mouse_y`, the mouse commit (pre-commit pass, base commit,
post-commit pass) leaves `-d` as the current value of `mouse_y`,
`max(-d, 0)` as that of `mouse_y_up` and `max(d, 0)` as that of `mouse_y_down`.
The current value of `mouse_x` and of `mouse_wheel`, when the device has the
axis, is the value that was staged on it, not its negation. The commits of
`xi2_device` and `raw_input_device` are the same function. -/
theorem mouse_commit_reverses_y {α : Type} [LinearOrderedRing α] (dev : device α)
    (s u d : Nat × virtual_axis α)
    (hs : dev.get_axis input_code.mouse_y = some s)
    (hu : dev.get_axis input_code.mouse_y_up = some u)
    (hd : dev.get_axis input_code.mouse_y_down = some d) :
    ((xi2_device_commit dev).get_axis input_code.mouse_y).map (fun r => r.2.get)
        = some (-s.2.get_next) ∧
      ((xi2_device_commit dev).get_axis input_code.mouse_y_up).map (fun r => r.2.get)
        = some (max (-s.2.get_next) 0) ∧
      ((xi2_device_commit dev).get_axis input_code.mouse_y_down).map (fun r => r.2.get)
        = some (max s.2.get_next 0) ∧
      (∀ x, dev.get_axis input_code.mouse_x = some x →
        ((xi2_device_commit dev).get_axis input_code.mouse_x).map (fun r => r.2.get)
          = some x.2.get_next) ∧
      (∀ w, dev.get_axis input_code.mouse_wheel = some w →
        ((xi2_device_commit dev).get_axis input_code.mouse_wheel).map (fun r => r.2.get)
          = some w.2.get_next) ∧
      raw_input_device_commit dev = xi2_device_commit dev := by
  obtain ⟨hx, hw, hy⟩ := xi2_commit_relative dev
  obtain ⟨hup, hdown⟩ := pre_commit_y dev s u d hs hu hd
  refine ⟨?_, ?_, ?_, ?_, ?_, rfl⟩
  · rw [hy s hs]
    rfl
  · rw [xi2_commit_get_axis_direction _ _ (by decide) (by decide) (by decide), hup,
      derived_positive_eq_max]
    rfl
  · rw [xi2_commit_get_axis_direction _ _ (by decide) (by decide) (by decide), hdown,
      derived_negative_eq_max, neg_neg]
    rfl
  · intro x hxa
    rw [hx x hxa]
    rfl
  · intro w hwa
    rw [hw w hwa]
    rfl

/-- C28: the list of `post_update` holds `pad_x` twice and `pad_y` not at all.
On a usable pad with the five buttons `pad_a`, `pad_b`, `pad_x`,
`pad_dpad_left` and `pad_dpad_right` pressed the count is 6 and the device
is reset; with the six buttons `pad_y`, `pad_a`, `pad_b`, `pad_dpad_left`,
`pad_dpad_right` and `pad_dpad_up` pressed the count is 5 and the device is
left as it is. -/
theorem evdev_post_update_counts_pad_x_twice :
    (pressed_pad [input_code.pad_a, input_code.pad_b, input_code.pad_x,
        input_code.pad_dpad_left, input_code.pad_dpad_right]).is_usable = true ∧
      evdev_post_update_count (pressed_pad [input_code.pad_a, input_code.pad_b,
        input_code.pad_x, input_code.pad_dpad_left, input_code.pad_dpad_right])
        evdev_post_update_buttons = 6 ∧
      evdev_post_update_count (pressed_pad [input_code.pad_a, input_code.pad_b,
        input_code.pad_x, input_code.pad_dpad_left, input_code.pad_dpad_right])
        pad_buttons = 5 ∧
      evdev_post_update (pressed_pad [input_code.pad_a, input_code.pad_b, input_code.pad_x,
        input_code.pad_dpad_left, input_code.pad_dpad_right])
        = (pressed_pad [input_code.pad_a, input_code.pad_b, input_code.pad_x,
          input_code.pad_dpad_left, input_code.pad_dpad_right]).reset ∧
      (evdev_post_update (pressed_pad [input_code.pad_a, input_code.pad_b, input_code.pad_x,
        input_code.pad_dpad_left, input_code.pad_dpad_right])).get_axis input_code.pad_a
        = some (0, { m_current := 0, m_previous := 0, m_next := 0 }) ∧
      evdev_post_update_count (pressed_pad [input_code.pad_y, input_code.pad_a,
        input_code.pad_b, input_code.pad_dpad_left, input_code.pad_dpad_right,
        input_code.pad_dpad_up]) evdev_post_update_buttons = 5 ∧
      evdev_post_update_count (pressed_pad [input_code.pad_y, input_code.pad_a,
        input_code.pad_b, input_code.pad_dpad_left, input_code.pad_dpad_right,
        input_code.pad_dpad_up]) pad_buttons = 6 ∧
      evdev_post_update (pressed_pad [input_code.pad_y, input_code.pad_a, input_code.pad_b,
        input_code.pad_dpad_left, input_code.pad_dpad_right, input_code.pad_dpad_up])
        = pressed_pad [input_code.pad_y, input_code.pad_a, input_code.pad_b,
          input_code.pad_dpad_left, input_code.pad_dpad_right, input_code.pad_dpad_up] ∧
      (evdev_post_update (pressed_pad [input_code.pad_y, input_code.pad_a, input_code.pad_b,
        input_code.pad_dpad_left, input_code.pad_dpad_right,
        input_code.pad_dpad_up])).get_axis input_code.pad_a
        = some (0, { m_current := 0, m_previous := 0, m_next := 1 }) := by
  decide

/-- C30: when the first present device has no friendly name, the loop of
`enumerate_devices` takes the `continue` without advancing `device_index` and
asks for index 0 again: whatever the number of iterations allowed, it has
not left the loop. -/
theorem setupdi_loop_stuck_on_nameless (fuel : Nat) (rest : List present_device)
    (result : List (String × setup_device_info)) :
    enumerate_devices_loop (nameless_device :: rest) fuel 0 result = Option.none := by
  induction fuel with
  | zero => rfl
  | succ n ih =>
    unfold enumerate_devices_loop
    simp only [List.getElem?_cons_zero]
    have hname : nameless_device.name = "" := rfl
    rw [if_pos hname]
    exact ih

section mapping_lemmas

variable {α : Type} [LinearOrderedField α]

/-- The signed use of `apply_deadzone` made by `map_value` and `map_pad_value`,
for a deadzone below the maximum. -/
theorem signed_deadzone_range (raw mx dz : α) (hlt : dz < mx) :
    ∃ v, (if raw < 0 then (apply_deadzone (-raw) mx dz).map (fun v => -v)
        else apply_deadzone raw mx dz) = some v ∧ -1 ≤ v ∧ v ≤ 1 ∧
      (|raw| ≤ dz → v = 0) ∧ (0 ≤ raw → 0 ≤ v) := by
  have hne : dz ≠ mx := ne_of_lt hlt
  by_cases hneg : raw < 0
  · rw [if_pos hneg, apply_deadzone_eq _ _ _ hne]
    obtain ⟨h0, h1⟩ := deadzone_curve_range (-raw) mx dz hne
    refine ⟨_, rfl, ?_, ?_, ?_, ?_⟩
    · exact neg_le_neg h1
    · exact le_trans (neg_nonpos.mpr h0) zero_le_one
    · intro habs
      have hle : -raw ≤ dz := le_trans (neg_le_abs raw) habs
      rw [if_pos hle]
      exact neg_zero
    · intro hpos
      exact absurd hneg (not_lt.mpr hpos)
  · rw [if_neg hneg, apply_deadzone_eq _ _ _ hne]
    obtain ⟨h0, h1⟩ := deadzone_curve_range raw mx dz hne
    refine ⟨_, rfl, ?_, h1, ?_, fun _ => h0⟩
    · exact le_trans (neg_nonpos.mpr zero_le_one) h0
    · intro habs
      have hle : raw ≤ dz := le_trans (le_abs_self raw) habs
      rw [if_pos hle]

theorem signed_deadzone_top (raw mx dz : α) (hdz : 0 ≤ dz) (hlt : dz < mx) (h : mx ≤ raw) :
    (if raw < 0 then (apply_deadzone (-raw) mx dz).map (fun v => -v)
      else apply_deadzone raw mx dz) = some 1 := by
  have hne : dz ≠ mx := ne_of_lt hlt
  have hD : mx - dz ≠ 0 := fun e => hne (sub_eq_zero.mp e).symm
  have hpos : ¬ raw < 0 := not_lt.mpr (le_trans (le_trans hdz (le_of_lt hlt)) h)
  rw [if_neg hpos, apply_deadzone_eq _ _ _ hne, if_neg (not_le.mpr (lt_of_lt_of_le hlt h)),
    min_eq_right h, div_self hD]

theorem signed_deadzone_bottom (raw mx dz : α) (hdz : 0 ≤ dz) (hlt : dz < mx)
    (h : raw ≤ -mx) :
    (if raw < 0 then (apply_deadzone (-raw) mx dz).map (fun v => -v)
      else apply_deadzone raw mx dz) = some (-1) := by
  have hne : dz ≠ mx := ne_of_lt hlt
  have hD : mx - dz ≠ 0 := fun e => hne (sub_eq_zero.mp e).symm
  have hmx : 0 < mx := lt_of_le_of_lt hdz hlt
  have hneg : raw < 0 := lt_of_le_of_lt h (neg_neg_of_pos hmx)
  have hle : mx ≤ -raw := le_neg_of_le_neg h
  rw [if_pos hneg, apply_deadzone_eq _ _ _ hne, if_neg (not_le.mpr (lt_of_lt_of_le hlt hle)),
    min_eq_right hle, div_self hD]
  rfl

theorem stick_parameters (code : input_code)
    (h : code ∈ [input_code.pad_left_stick_x, input_code.pad_left_stick_y,
      input_code.pad_right_stick_x, input_code.pad_right_stick_y]) :
    (get_max_for code : α) = 32767 ∧ (get_pad_max_for code : α) = 32767 ∧
      (get_pad_deadzone_for code : α) = get_deadzone_for code ∧
      (0 : α) ≤ get_deadzone_for code ∧ (get_deadzone_for code : α) < 32767 := by
  simp only [List.mem_cons, List.mem_singleton, List.not_mem_nil, or_false] at h
  rcases h with h | h | h | h <;> subst h <;>
    simp +decide [get_max_for, get_pad_max_for, get_deadzone_for, get_pad_deadzone_for,
      deadzone_left_stick, deadzone_right_stick] <;> norm_num

theorem trigger_parameters (code : input_code)
    (h : code ∈ [input_code.pad_left_trigger, input_code.pad_right_trigger]) :
    (get_max_for code : α) = 255 ∧ (get_pad_max_for code : α) = 255 ∧
      (get_deadzone_for code : α) = 30 ∧ (get_pad_deadzone_for code : α) = 30 := by
  simp only [List.mem_cons, List.mem_singleton, List.not_mem_nil, or_false] at h
  rcases h with h | h <;> subst h <;>
    simp +decide [get_max_for, get_pad_max_for, get_deadzone_for, get_pad_deadzone_for,
      deadzone_trigger]

end mapping_lemmas

/-- C26: for a stick code, `map_value` (XInput) and `map_pad_value` (macOS) send
every reading in [-32768, 32767] to a value in [-1, 1] that is 0 when the
absolute reading is at most the deadzone of the stick; `map_value` gives 1 at
32767 and -1 at -32768, `map_pad_value` gives the same for the x codes and
the opposite signs for the y codes, which it reverses. For a trigger code
both send every reading in [0, 255] to a value in [0, 1] that is 0 up to 30
and 1 at 255. -/
theorem stick_trigger_mapping {α : Type} [LinearOrderedField α] (code : input_code)
    (raw : α) :
    (code ∈ [input_code.pad_left_stick_x, input_code.pad_left_stick_y,
        input_code.pad_right_stick_x, input_code.pad_right_stick_y] →
      -32768 ≤ raw → raw ≤ 32767 →
      (∃ v, map_value code raw = some v ∧ -1 ≤ v ∧ v ≤ 1 ∧
        (|raw| ≤ get_deadzone_for code → v = 0)) ∧
      (∃ v, map_pad_value code raw = some v ∧ -1 ≤ v ∧ v ≤ 1 ∧
        (|raw| ≤ get_pad_deadzone_for code → v = 0)) ∧
      map_value code (32767 : α) = some 1 ∧ map_value code (-32768 : α) = some (-1) ∧
      map_pad_value code (32767 : α) = some
        (if code = input_code.pad_left_stick_y ∨ code = input_code.pad_right_stick_y
          then -1 else 1) ∧
      map_pad_value code (-32768 : α) = some
        (if code = input_code.pad_left_stick_y ∨ code = input_code.pad_right_stick_y
          then 1 else -1)) ∧
    (code ∈ [input_code.pad_left_trigger, input_code.pad_right_trigger] →
      0 ≤ raw → raw ≤ 255 →
      (∃ v, map_value code raw = some v ∧ 0 ≤ v ∧ v ≤ 1 ∧ (raw ≤ 30 → v = 0)) ∧
      (∃ v, map_pad_value code raw = some v ∧ 0 ≤ v ∧ v ≤ 1 ∧ (raw ≤ 30 → v = 0)) ∧
      map_value code (255 : α) = some 1 ∧ map_pad_value code (255 : α) = some 1) := by
  constructor
  · intro hcode _ _
    obtain ⟨hmax, hpmax, hpdz, hdz0, hdzlt⟩ := stick_parameters (α := α) code hcode
    refine ⟨?_, ?_, ?_, ?_, ?_, ?_⟩
    · simp only [map_value]
      rw [hmax]
      obtain ⟨v, hv, h1, h2, h3, _⟩ := signed_deadzone_range raw 32767 (get_deadzone_for code)
        hdzlt
      exact ⟨v, hv, h1, h2, h3⟩
    · simp only [map_pad_value]
      rw [hpmax, hpdz]
      by_cases hy : code = input_code.pad_left_stick_y ∨ code = input_code.pad_right_stick_y
      · rw [if_pos hy]
        obtain ⟨v, hv, h1, h2, h3, _⟩ := signed_deadzone_range (-raw) 32767
          (get_deadzone_for code) hdzlt
        rw [abs_neg] at h3
        exact ⟨v, hv, h1, h2, h3⟩
      · rw [if_neg hy]
        obtain ⟨v, hv, h1, h2, h3, _⟩ := signed_deadzone_range raw 32767
          (get_deadzone_for code) hdzlt
        exact ⟨v, hv, h1, h2, h3⟩
    · simp only [map_value]
      rw [hmax]
      exact signed_deadzone_top _ _ _ hdz0 hdzlt (le_refl _)
    · simp only [map_value]
      rw [hmax]
      exact signed_deadzone_bottom _ _ _ hdz0 hdzlt (by norm_num)
    · simp only [map_pad_value]
      rw [hpmax, hpdz]
      by_cases hy : code = input_code.pad_left_stick_y ∨ code = input_code.pad_right_stick_y
      · rw [if_pos hy, if_pos hy]
        exact signed_deadzone_bottom _ _ _ hdz0 hdzlt (le_refl _)
      · rw [if_neg hy, if_neg hy]
        exact signed_deadzone_top _ _ _ hdz0 hdzlt (le_refl _)
    · simp only [map_pad_value]
      rw [hpmax, hpdz]
      by_cases hy : code = input_code.pad_left_stick_y ∨ code = input_code.pad_right_stick_y
      · rw [if_pos hy, if_pos hy]
        exact signed_deadzone_top _ _ _ hdz0 hdzlt (by norm_num)
      · rw [if_neg hy, if_neg hy]
        exact signed_deadzone_bottom _ _ _ hdz0 hdzlt (by norm_num)
  · intro hcode hlo _
    obtain ⟨hmax, hpmax, hdz, hpdz⟩ := trigger_parameters (α := α) code hcode
    have hlt : (30 : α) < 255 := by norm_num
    have h30 : (0 : α) ≤ 30 := by norm_num
    have hny : ¬ (code = input_code.pad_left_stick_y ∨ code = input_code.pad_right_stick_y) := by
      simp only [List.mem_cons, List.mem_singleton, List.not_mem_nil, or_false] at hcode
      rcases hcode with h | h <;> subst h <;> decide
    have hrange : ∃ v, (if raw < 0 then (apply_deadzone (-raw) 255 30).map (fun v => -v)
        else apply_deadzone raw 255 30) = some v ∧ 0 ≤ v ∧ v ≤ 1 ∧ (raw ≤ 30 → v = 0) := by
      obtain ⟨v, hv, _, h2, h3, h4⟩ := signed_deadzone_range raw 255 30 hlt
      refine ⟨v, hv, h4 hlo, h2, ?_⟩
      intro hr
      apply h3
      rw [abs_of_nonneg hlo]
      exact hr
    refine ⟨?_, ?_, ?_, ?_⟩
    · simp only [map_value]
      rw [hmax, hdz]
      exact hrange
    · simp only [map_pad_value]
      rw [hpmax, hpdz, if_neg hny]
      exact hrange
    · simp only [map_value]
      rw [hmax, hdz]
      exact signed_deadzone_top _ _ _ h30 hlt (le_refl _)
    · simp only [map_pad_value]
      rw [hpmax, hpdz, if_neg hny]
      exact signed_deadzone_top _ _ _ h30 hlt (le_refl _)

/-- Instance of C26: the left stick at 20308, halfway between its deadzone and
the maximum, and a trigger at rest. -/
theorem stick_trigger_mapping_witness :
    input_code.pad_left_stick_x ∈ [input_code.pad_left_stick_x, input_code.pad_left_stick_y,
        input_code.pad_right_stick_x, input_code.pad_right_stick_y] ∧
      (-32768 : ℚ) ≤ 20308 ∧ (20308 : ℚ) ≤ 32767 ∧
      (∃ v, map_value input_code.pad_left_stick_x (20308 : ℚ) = some v ∧ -1 ≤ v ∧ v ≤ 1 ∧
        (|(20308 : ℚ)| ≤ get_deadzone_for input_code.pad_left_stick_x → v = 0)) ∧
      map_value input_code.pad_left_stick_x (32767 : ℚ) = some 1 ∧
      map_value input_code.pad_left_stick_x (-32768 : ℚ) = some (-1) ∧
      map_pad_value input_code.pad_left_trigger (255 : ℚ) = some 1 := by
  have h := (stick_trigger_mapping input_code.pad_left_stick_x (20308 : ℚ)).1 (by simp)
    (by norm_num) (by norm_num)
  have ht := (stick_trigger_mapping input_code.pad_left_trigger (0 : ℚ)).2 (by simp)
    (by norm_num) (by norm_num)
  exact ⟨by simp, by norm_num, by norm_num, h.1, h.2.2.1, h.2.2.2.1, ht.2.2.2⟩

section mouse_decay_lemmas

variable {α : Type} [LinearOrderedRing α]

/-- One commit on a device with a complete triple of mouse axes keeps the
triple and stages 0 on its source. -/
theorem xi2_commit_keeps_triples (dev : device α) :
    (∀ s l r, dev.get_axis input_code.mouse_x = some s →
      dev.get_axis input_code.mouse_x_left = some l →
      dev.get_axis input_code.mouse_x_right = some r →
      ∃ s1 l1 r1, (xi2_device_commit dev).get_axis input_code.mouse_x = some s1 ∧
        (xi2_device_commit dev).get_axis input_code.mouse_x_left = some l1 ∧
        (xi2_device_commit dev).get_axis input_code.mouse_x_right = some r1 ∧
        s1.2.get_next = 0) ∧
    (∀ s u d, dev.get_axis input_code.mouse_y = some s →
      dev.get_axis input_code.mouse_y_up = some u →
      dev.get_axis input_code.mouse_y_down = some d →
      ∃ s1 u1 d1, (xi2_device_commit dev).get_axis input_code.mouse_y = some s1 ∧
        (xi2_device_commit dev).get_axis input_code.mouse_y_up = some u1 ∧
        (xi2_device_commit dev).get_axis input_code.mouse_y_down = some d1 ∧
        s1.2.get_next = 0) ∧
    (∀ s u d, dev.get_axis input_code.mouse_wheel = some s →
      dev.get_axis input_code.mouse_wheel_up = some u →
      dev.get_axis input_code.mouse_wheel_down = some d →
      ∃ s1 u1 d1, (xi2_device_commit dev).get_axis input_code.mouse_wheel = some s1 ∧
        (xi2_device_commit dev).get_axis input_code.mouse_wheel_up = some u1 ∧
        (xi2_device_commit dev).get_axis input_code.mouse_wheel_down = some d1 ∧
        s1.2.get_next = 0) := by
  obtain ⟨hx, hw, hy⟩ := xi2_commit_relative dev
  refine ⟨?_, ?_, ?_⟩
  · intro s l r hs hl hr
    obtain ⟨hright, hleft⟩ := pre_commit_x dev s l r hs hl hr
    have e1 : ∃ p, (xi2_device_commit dev).get_axis input_code.mouse_x_left = some p := by
      rw [xi2_commit_get_axis_direction _ _ (by decide) (by decide) (by decide), hleft]
      exact ⟨_, rfl⟩
    have e2 : ∃ p, (xi2_device_commit dev).get_axis input_code.mouse_x_right = some p := by
      rw [xi2_commit_get_axis_direction _ _ (by decide) (by decide) (by decide), hright]
      exact ⟨_, rfl⟩
    obtain ⟨p1, hp1⟩ := e1
    obtain ⟨p2, hp2⟩ := e2
    exact ⟨_, p1, p2, hx s hs, hp1, hp2, rfl⟩
  · intro s u d hs hu hd
    obtain ⟨hup, hdown⟩ := pre_commit_y dev s u d hs hu hd
    have e1 : ∃ p, (xi2_device_commit dev).get_axis input_code.mouse_y_up = some p := by
      rw [xi2_commit_get_axis_direction _ _ (by decide) (by decide) (by decide), hup]
      exact ⟨_, rfl⟩
    have e2 : ∃ p, (xi2_device_commit dev).get_axis input_code.mouse_y_down = some p := by
      rw [xi2_commit_get_axis_direction _ _ (by decide) (by decide) (by decide), hdown]
      exact ⟨_, rfl⟩
    obtain ⟨p1, hp1⟩ := e1
    obtain ⟨p2, hp2⟩ := e2
    exact ⟨_, p1, p2, hy s hs, hp1, hp2, rfl⟩
  · intro s u d hs hu hd
    obtain ⟨hup, hdown⟩ := pre_commit_wheel dev s u d hs hu hd
    have e1 : ∃ p, (xi2_device_commit dev).get_axis input_code.mouse_wheel_up = some p := by
      rw [xi2_commit_get_axis_direction _ _ (by decide) (by decide) (by decide), hup]
      exact ⟨_, rfl⟩
    have e2 : ∃ p, (xi2_device_commit dev).get_axis input_code.mouse_wheel_down = some p := by
      rw [xi2_commit_get_axis_direction _ _ (by decide) (by decide) (by decide), hdown]
      exact ⟨_, rfl⟩
    obtain ⟨p1, hp1⟩ := e1
    obtain ⟨p2, hp2⟩ := e2
    exact ⟨_, p1, p2, hw s hs, hp1, hp2, rfl⟩

theorem derived_of_zero (v : α) (h : v = 0) :
    (if v > 0 then v else 0) = 0 ∧ (if v > 0 then 0 else -v) = 0 ∧
      (if -v > 0 then -v else 0) = 0 ∧ (if -v > 0 then 0 else - -v) = 0 := by
  subst h
  simp

end mouse_decay_lemmas

/-- C23: after the mouse commit, each of `mouse_x`, `mouse_y` and `mouse_wheel`
that the device has holds 0 as staged value, whatever the state was; after
a second commit with nothing staged in between, its current value is 0, and
so is the current value of the two directional axes of every triple the
device has completely (as the backends register them). -/
theorem mouse_relative_axes_decay {α : Type} [LinearOrderedRing α] (dev : device α) :
    (∀ code ∈ [input_code.mouse_x, input_code.mouse_y, input_code.mouse_wheel],
      ∀ a, dev.get_axis code = some a →
        ((xi2_device_commit dev).get_axis code).map (fun r => r.2.get_next) = some 0 ∧
        ((xi2_device_commit (xi2_device_commit dev)).get_axis code).map
          (fun r => r.2.get) = some 0) ∧
    (∀ s l r, dev.get_axis input_code.mouse_x = some s →
      dev.get_axis input_code.mouse_x_left = some l →
      dev.get_axis input_code.mouse_x_right = some r →
      ((xi2_device_commit (xi2_device_commit dev)).get_axis input_code.mouse_x_left).map
          (fun r => r.2.get) = some 0 ∧
      ((xi2_device_commit (xi2_device_commit dev)).get_axis input_code.mouse_x_right).map
          (fun r => r.2.get) = some 0) ∧
    (∀ s u d, dev.get_axis input_code.mouse_y = some s →
      dev.get_axis input_code.mouse_y_up = some u →
      dev.get_axis input_code.mouse_y_down = some d →
      ((xi2_device_commit (xi2_device_commit dev)).get_axis input_code.mouse_y_up).map
          (fun r => r.2.get) = some 0 ∧
      ((xi2_device_commit (xi2_device_commit dev)).get_axis input_code.mouse_y_down).map
          (fun r => r.2.get) = some 0) ∧
    (∀ s u d, dev.get_axis input_code.mouse_wheel = some s →
      dev.get_axis input_code.mouse_wheel_up = some u →
      dev.get_axis input_code.mouse_wheel_down = some d →
      ((xi2_device_commit (xi2_device_commit dev)).get_axis input_code.mouse_wheel_up).map
          (fun r => r.2.get) = some 0 ∧
      ((xi2_device_commit (xi2_device_commit dev)).get_axis input_code.mouse_wheel_down).map
          (fun r => r.2.get) = some 0) := by
  obtain ⟨hx, hw, hy⟩ := xi2_commit_relative dev
  obtain ⟨hx2, hw2, hy2⟩ := xi2_commit_relative (xi2_device_commit dev)
  obtain ⟨kx, ky, kw⟩ := xi2_commit_keeps_triples dev
  refine ⟨?_, ?_, ?_, ?_⟩
  · intro code hcode a ha
    simp only [List.mem_cons, List.mem_singleton, List.not_mem_nil, or_false] at hcode
    rcases hcode with h | h | h <;> subst h
    · rw [hx2 _ (hx a ha), hx a ha]
      exact ⟨rfl, rfl⟩
    · rw [hy2 _ (hy a ha), hy a ha]
      refine ⟨rfl, ?_⟩
      simp [virtual_axis.get]
    · rw [hw2 _ (hw a ha), hw a ha]
      exact ⟨rfl, rfl⟩
  · intro s l r hs hl hr
    obtain ⟨s1, l1, r1, hs1, hl1, hr1, hz⟩ := kx s l r hs hl hr
    obtain ⟨hright, hleft⟩ := pre_commit_x (xi2_device_commit dev) s1 l1 r1 hs1 hl1 hr1
    obtain ⟨z1, z2, _, _⟩ := derived_of_zero s1.2.get_next hz
    constructor
    · rw [xi2_commit_get_axis_direction _ _ (by decide) (by decide) (by decide), hleft, z2]
      rfl
    · rw [xi2_commit_get_axis_direction _ _ (by decide) (by decide) (by decide), hright, z1]
      rfl
  · intro s u d hs hu hd
    obtain ⟨s1, u1, d1, hs1, hu1, hd1, hz⟩ := ky s u d hs hu hd
    obtain ⟨hup, hdown⟩ := pre_commit_y (xi2_device_commit dev) s1 u1 d1 hs1 hu1 hd1
    obtain ⟨_, _, z3, z4⟩ := derived_of_zero s1.2.get_next hz
    constructor
    · rw [xi2_commit_get_axis_direction _ _ (by decide) (by decide) (by decide), hup, z3]
      rfl
    · rw [xi2_commit_get_axis_direction _ _ (by decide) (by decide) (by decide), hdown, z4]
      rfl
  · intro s u d hs hu hd
    obtain ⟨s1, u1, d1, hs1, hu1, hd1, hz⟩ := kw s u d hs hu hd
    obtain ⟨hup, hdown⟩ := pre_commit_wheel (xi2_device_commit dev) s1 u1 d1 hs1 hu1 hd1
    obtain ⟨z1, z2, _, _⟩ := derived_of_zero s1.2.get_next hz
    constructor
    · rw [xi2_commit_get_axis_direction _ _ (by decide) (by decide) (by decide), hup, z1]
      rfl
    · rw [xi2_commit_get_axis_direction _ _ (by decide) (by decide) (by decide), hdown, z2]
      rfl

/-- Instance of C22 on `moving_mouse`, where 5 is staged on `mouse_y`, 3 on
`mouse_x` and -2 on `mouse_wheel`. -/
theorem mouse_commit_reverses_y_witness :
    moving_mouse.get_axis input_code.mouse_y
        = some (3, { m_current := 0, m_previous := 0, m_next := 5 }) ∧
      moving_mouse.get_axis input_code.mouse_y_up = some (4, virtual_axis.init) ∧
      moving_mouse.get_axis input_code.mouse_y_down = some (5, virtual_axis.init) ∧
      ((xi2_device_commit moving_mouse).get_axis input_code.mouse_y).map (fun r => r.2.get)
        = some (-5) ∧
      ((xi2_device_commit moving_mouse).get_axis input_code.mouse_y_up).map
        (fun r => r.2.get) = some 0 ∧
      ((xi2_device_commit moving_mouse).get_axis input_code.mouse_y_down).map
        (fun r => r.2.get) = some 5 ∧
      ((xi2_device_commit moving_mouse).get_axis input_code.mouse_x).map (fun r => r.2.get)
        = some 3 := by
  have h := mouse_commit_reverses_y moving_mouse
    (3, { m_current := 0, m_previous := 0, m_next := 5 }) (4, virtual_axis.init)
    (5, virtual_axis.init) (by decide) (by decide) (by decide)
  refine ⟨by decide, by decide, by decide, h.1, ?_, ?_, ?_⟩
  · rw [h.2.1]; decide
  · rw [h.2.2.1]; decide
  · rw [h.2.2.2.1 (0, { m_current := 0, m_previous := 0, m_next := 3 }) (by decide)]
    rfl

/-- Instance of C23 on `moving_mouse`: after one commit nothing is staged on
`mouse_x`, after two commits `mouse_x` and `mouse_x_right` are back at 0. -/
theorem mouse_relative_axes_decay_witness :
    input_code.mouse_x ∈ [input_code.mouse_x, input_code.mouse_y, input_code.mouse_wheel] ∧
      moving_mouse.get_axis input_code.mouse_x
        = some (0, { m_current := 0, m_previous := 0, m_next := 3 }) ∧
      ((xi2_device_commit moving_mouse).get_axis input_code.mouse_x_right).map
        (fun r => r.2.get) = some 3 ∧
      ((xi2_device_commit moving_mouse).get_axis input_code.mouse_x).map
        (fun r => r.2.get_next) = some 0 ∧
      ((xi2_device_commit (xi2_device_commit moving_mouse)).get_axis
        input_code.mouse_x).map (fun r => r.2.get) = some 0 ∧
      ((xi2_device_commit (xi2_device_commit moving_mouse)).get_axis
        input_code.mouse_x_right).map (fun r => r.2.get) = some 0 := by
  have h := mouse_relative_axes_decay moving_mouse
  have h1 := h.1 input_code.mouse_x (by simp)
    (0, { m_current := 0, m_previous := 0, m_next := 3 }) (by decide)
  have h2 := h.2.1 (0, { m_current := 0, m_previous := 0, m_next := 3 })
    (1, virtual_axis.init) (2, virtual_axis.init) (by decide) (by decide) (by decide)
  exact ⟨by simp, by decide, by decide, h1.1, h1.2, h2.2⟩

theorem raw_input_update_mouse_axis_of_some {α : Type} [LinearOrderedField α]
    (dev : device α) (code : input_code) (value : α) (r : Nat × virtual_axis α)
    (hv : ¬ |value| < 1 / 100000) (h : dev.get_axis code = some r) :
    raw_input_update_mouse_axis dev code value
      = some (dev.write_axis code (fun a => a.add value)) := by
  unfold raw_input_update_mouse_axis
  rw [if_neg hv, h]

theorem raw_input_update_mouse_axis_of_small {α : Type} [LinearOrderedField α]
    (dev : device α) (code : input_code) (value : α) (hv : |value| < 1 / 100000) :
    raw_input_update_mouse_axis dev code value = some dev := by
  unfold raw_input_update_mouse_axis
  rw [if_pos hv]

/-- C24: on macOS `hidm_device::on_input` stages with `set`: two motion events
with deltas 3 and 4 on the element mapped to `mouse_x` leave 4 staged, not 7,
while `xi2_device::update_motion` and `raw_input_device::update_mouse_axis`
leave 7 staged for the same two deltas. -/
theorem hidm_on_input_overwrites_delta :
    (((hidm_on_input hidm_mouse 1 3).bind (fun h => hidm_on_input h 1 4)).bind
        (fun h => h.dev.get_axis input_code.mouse_x)).map (fun r => r.2.get_next)
      = some 4 ∧
    ((xi2_update_motion ⟨0, 1, -1, 2⟩ (xi2_update_motion ⟨0, 1, -1, 2⟩ xi2_mouse [(0, 3)])
        [(0, 4)]).get_axis input_code.mouse_x).map (fun r => r.2.get_next) = some 7 ∧
    (((raw_input_update_mouse_axis two_button_mouse input_code.mouse_x 3).bind
        (fun d => raw_input_update_mouse_axis d input_code.mouse_x 4)).bind
        (fun d => d.get_axis input_code.mouse_x)).map (fun r => r.2.get_next) = some 7 := by
  refine ⟨by decide, by decide, ?_⟩
  have h0 : two_button_mouse.get_axis input_code.mouse_x = some (0, virtual_axis.init) := by
    decide
  have e3 : ¬ |(3 : ℚ)| < 1 / 100000 := by
    rw [abs_of_pos (by norm_num)]
    norm_num
  have e4 : ¬ |(4 : ℚ)| < 1 / 100000 := by
    rw [abs_of_pos (by norm_num)]
    norm_num
  have h1 : (two_button_mouse.write_axis input_code.mouse_x
      (fun a => a.add (3 : ℚ))).get_axis input_code.mouse_x
        = some (0, virtual_axis.init.add 3) := by
    rw [get_axis_write_axis_self, h0]
    rfl
  rw [raw_input_update_mouse_axis_of_some _ _ _ _ e3 h0, Option.some_bind,
    raw_input_update_mouse_axis_of_some _ _ _ _ e4 h1, Option.some_bind,
    get_axis_write_axis_self, h1]
  simp only [Option.map_some', virtual_axis.add, virtual_axis.init, virtual_axis.get_next]
  norm_num

/-- C27: the constructor of a two button mouse registers no `mouse_middle`
axis, and a mouse packet with no motion, no wheel step and the button flags
`RI_MOUSE_BUTTON_3_DOWN` makes `update_mouse_button`, and so `update_mouse`,
write through the null pointer that `get_axis` returned. -/
theorem raw_input_two_button_mouse_null_write :
    (two_button_mouse.get_axis input_code.mouse_middle).isNone = true ∧
      (raw_input_update_mouse_button two_button_mouse input_code.mouse_middle
        RI_MOUSE_BUTTON_3_DOWN RI_MOUSE_BUTTON_3_UP RI_MOUSE_BUTTON_3_DOWN).isNone = true ∧
      (raw_input_update_mouse two_button_mouse 0 true 0 0 RI_MOUSE_BUTTON_3_DOWN).isNone
        = true := by
  have e0 : |(0 : ℚ)| < 1 / 100000 := by
    rw [abs_zero]
    norm_num
  refine ⟨by decide, by decide, ?_⟩
  simp only [raw_input_update_mouse, raw_input_update_mouse_axis_of_small _ _ _ e0,
    Option.bind_eq_bind, Option.some_bind, if_true]
  decide

/-- C29: for an element on the Generic Desktop page with the usage GamePad
(5), which is none of X, Y, Z, Rx, Ry, Rz, `add_gamepad_element` falls through
into the button cases and registers the button axis `pad_left_bumper` on a
device that had no axis, mapping the element to it. -/
theorem add_gamepad_element_desktop_registers_button :
    let h0 : hidm_device ℚ := { dev := device.init device_kind.hidm 8, m_axis_map := [] }
    let h1 := add_gamepad_element h0 42 kHIDPage_GenericDesktop kHIDUsage_GD_GamePad
    h0.dev.get_axis_count = 0 ∧
      kHIDUsage_GD_GamePad ∉ [kHIDUsage_GD_X, kHIDUsage_GD_Y, kHIDUsage_GD_Z,
        kHIDUsage_GD_Rx, kHIDUsage_GD_Ry, kHIDUsage_GD_Rz] ∧
      h1.dev.get_axis_codes = [input_code.pad_left_bumper] ∧
      axis_map_find h1.m_axis_map 42 = some input_code.pad_left_bumper ∧
      add_gamepad_element h0 42 kHIDPage_GenericDesktop kHIDUsage_GD_X
        = add_gamepad_desktop_usage h0 42 kHIDUsage_GD_X := by
  decide

section source_lemmas

variable {κ α : Type} [DecidableEq κ]

theorem devices_erase_of_none (devs : List (Int × device α)) (id : Int)
    (h : devices_find devs id = Option.none) : devices_erase devs id = devs := by
  induction devs with
  | nil => rfl
  | cons hd tl ih =>
    obtain ⟨k, e⟩ := hd
    by_cases hk : k = id
    · simp [devices_find, hk] at h
    · simp only [devices_find, hk, if_false] at h
      simp [devices_erase, hk, ih h]

theorem remove_device_devices (c : context α) (id : Int) :
    (c.remove_device id).m_devices = devices_erase c.m_devices id := by
  unfold context.remove_device
  cases hf : devices_find c.m_devices id with
  | none => exact (devices_erase_of_none _ _ hf).symm
  | some _ => exact (notify_device_devices _ _ _).1

theorem add_device_devices (c : context α) (dev : device α) :
    (c.add_device dev).m_devices = devices_emplace c.m_devices dev.get_id dev := by
  unfold context.add_device
  exact (notify_device_devices _ _ _).1

theorem devices_find_append_ne (devs : List (Int × device α)) (id other : Int) (d : device α)
    (hne : other ≠ id) : devices_find (devs ++ [(id, d)]) other = devices_find devs other := by
  induction devs with
  | nil =>
    have h2 : ¬ id = other := fun e => hne e.symm
    simp [devices_find, h2]
  | cons hd tl ih =>
    obtain ⟨k, e⟩ := hd
    by_cases hk : k = other
    · simp [devices_find, hk]
    · simp [devices_find, hk, ih]

theorem devices_find_emplace_self (devs : List (Int × device α)) (id : Int) (d : device α) :
    (devices_find (devices_emplace devs id d) id).isSome = true := by
  unfold devices_emplace
  cases hf : devices_find devs id with
  | none => simp [devices_find_append_single _ _ _ hf]
  | some _ => simp [hf]

theorem devices_find_emplace_ne (devs : List (Int × device α)) (id other : Int)
    (d : device α) (hne : other ≠ id) :
    devices_find (devices_emplace devs id d) other = devices_find devs other := by
  unfold devices_emplace
  cases hf : devices_find devs id with
  | none => exact devices_find_append_ne _ _ _ _ hne
  | some _ => rfl

theorem devices_emplace_nodup (devs : List (Int × device α))
    (hnd : (devs.map (fun pair => pair.1)).Nodup) (id : Int) (d : device α) :
    ((devices_emplace devs id d).map (fun pair => pair.1)).Nodup := by
  unfold devices_emplace
  cases hf : devices_find devs id with
  | some _ => exact hnd
  | none =>
    have hk := (devices_find_eq_none_iff _ _).mp hf
    simp only [List.map_append, List.map_cons, List.map_nil]
    rw [List.nodup_append]
    refine ⟨hnd, by simp, ?_⟩
    intro a ha hb
    simp only [List.mem_singleton] at hb
    exact hk (hb ▸ ha)

theorem device_map_find_mem (m : List (κ × Int)) (handle : κ) (id : Int)
    (h : device_map_find m handle = some id) : (handle, id) ∈ m := by
  induction m with
  | nil => simp [device_map_find] at h
  | cons hd tl ih =>
    obtain ⟨k, i⟩ := hd
    by_cases hk : k = handle
    · simp only [device_map_find, hk, if_true, Option.some.injEq] at h
      simp [hk, h]
    · simp only [device_map_find, hk, if_false] at h
      exact List.mem_cons_of_mem _ (ih h)

theorem device_map_erase_sublist (m : List (κ × Int)) (handle : κ) :
    (device_map_erase m handle).Sublist m := by
  induction m with
  | nil => exact List.Sublist.refl _
  | cons hd tl ih =>
    obtain ⟨k, i⟩ := hd
    by_cases hk : k = handle
    · simp only [device_map_erase, hk, if_true]
      exact List.sublist_cons_self _ _
    · simp only [device_map_erase, hk, if_false]
      exact ih.cons₂ _

theorem device_map_erase_ids (m : List (κ × Int)) (handle : κ) (id : Int)
    (hf : device_map_find m handle = some id) (hnd : (m.map (fun pair => pair.2)).Nodup) :
    ∀ pair ∈ device_map_erase m handle, pair.2 ≠ id := by
  induction m with
  | nil => simp [device_map_find] at hf
  | cons hd tl ih =>
    obtain ⟨k, i⟩ := hd
    simp only [List.map_cons, List.nodup_cons] at hnd
    by_cases hk : k = handle
    · simp only [device_map_find, hk, if_true, Option.some.injEq] at hf
      simp only [device_map_erase, hk, if_true]
      intro pair hp he
      apply hnd.1
      rw [hf, ← he]
      exact List.mem_map_of_mem _ hp
    · simp only [device_map_find, hk, if_false] at hf
      simp only [device_map_erase, hk, if_false]
      intro pair hp
      rcases List.mem_cons.mp hp with hp | hp
      · subst hp
        intro he
        apply hnd.1
        simp only at he
        rw [he]
        exact List.mem_map_of_mem (fun pair => pair.2) (device_map_find_mem _ _ _ hf)
      · exact ih hf hnd.2 pair hp

theorem device_map_erase_mem_ne (m : List (κ × Int)) (handle other : κ) (id : Int)
    (hne : other ≠ handle) (hm : (other, id) ∈ m) :
    (other, id) ∈ device_map_erase m handle := by
  induction m with
  | nil => simp at hm
  | cons hd tl ih =>
    obtain ⟨k, i⟩ := hd
    by_cases hk : k = handle
    · simp only [device_map_erase, hk, if_true]
      rcases List.mem_cons.mp hm with hm | hm
      · exfalso
        apply hne
        rw [← hk]
        exact (Prod.mk.inj hm).1
      · exact hm
    · simp only [device_map_erase, hk, if_false]
      rcases List.mem_cons.mp hm with hm | hm
      · rw [hm]
        exact List.mem_cons_self _ _
      · exact List.mem_cons_of_mem _ (ih hm)

theorem device_map_emplace_cases (m : List (κ × Int)) (handle : κ) (id : Int) :
    device_map_emplace m handle id = m ∨ device_map_emplace m handle id = m ++ [(handle, id)] := by
  unfold device_map_emplace
  cases device_map_find m handle with
  | none => exact Or.inr rfl
  | some _ => exact Or.inl rfl

theorem device_map_emplace_mem (m : List (κ × Int)) (handle : κ) (id : Int) (pair : κ × Int)
    (hp : pair ∈ m) : pair ∈ device_map_emplace m handle id := by
  rcases device_map_emplace_cases m handle id with h | h <;> rw [h]
  · exact hp
  · exact List.mem_append_left _ hp

theorem device_map_emplace_has (m : List (κ × Int)) (handle : κ) (id : Int) :
    ∃ i, (handle, i) ∈ device_map_emplace m handle id := by
  unfold device_map_emplace
  cases hf : device_map_find m handle with
  | none => exact ⟨id, by simp⟩
  | some i => exact ⟨i, device_map_find_mem _ _ _ hf⟩

end source_lemmas

section source_step_lemmas

variable {κ α : Type} [DecidableEq κ]

theorem source_remove_device_wf (c0 : Int) (base : List (Int × device α))
    (s : List (κ × Int) × context α) (handle : κ) (hs : source_state_wf c0 base s) :
    source_state_wf c0 base (source_remove_device s handle) ∧
      (source_remove_device s handle).2.m_next_unique_id = s.2.m_next_unique_id ∧
      ∀ other i, other ≠ handle → (other, i) ∈ s.1 →
        (other, i) ∈ (source_remove_device s handle).1 := by
  obtain ⟨h1, h2, h3, h4, h5⟩ := hs
  unfold source_remove_device
  cases hf : device_map_find s.1 handle with
  | none => exact ⟨⟨h1, h2, h3, h4, h5⟩, rfl, fun _ _ _ hm => hm⟩
  | some id =>
    have hsub := device_map_erase_sublist s.1 handle
    have hid := h2 _ (device_map_find_mem _ _ _ hf)
    refine ⟨⟨?_, ?_, ?_, ?_, ?_⟩, ?_, ?_⟩
    · simp only [remove_device_counter]
      exact h1
    · intro pair hp
      have hne := device_map_erase_ids s.1 handle id hf h3 pair hp
      obtain ⟨a, b, c⟩ := h2 pair (hsub.subset hp)
      simp only [remove_device_counter, remove_device_devices]
      rw [devices_find_erase_ne _ _ _ hne]
      exact ⟨a, b, c⟩
    · exact (hsub.map _).nodup h3
    · simp only [remove_device_devices]
      exact devices_erase_nodup _ h4 id
    · intro other ho
      simp only [remove_device_devices]
      have hne : other ≠ id := by
        have := hid.1
        omega
      rw [devices_find_erase_ne _ _ _ hne]
      exact h5 other ho
    · exact remove_device_counter _ _
    · intro other i hne hm
      exact device_map_erase_mem_ne _ _ _ _ hne hm

theorem source_create_device_wf
    (construct : κ → Int → context α → device α × context α)
    (hctor : ∀ handle id c, (construct handle id c).1.get_id = id ∧
      (construct handle id c).2.m_devices = c.m_devices ∧
      (construct handle id c).2.m_next_unique_id = c.m_next_unique_id)
    (c0 : Int) (base : List (Int × device α)) (s : List (κ × Int) × context α) (handle : κ)
    (hs : source_state_wf c0 base s) (hlo : -(2 ^ 63) ≤ c0)
    (hhi : s.2.m_next_unique_id + 1 < 2 ^ 63) :
    source_state_wf c0 base (source_create_device construct s handle) ∧
      (source_create_device construct s handle).2.m_next_unique_id
        = s.2.m_next_unique_id + 1 ∧
      (∃ i, (handle, i) ∈ (source_create_device construct s handle).1) ∧
      ∀ pair ∈ s.1, pair ∈ (source_create_device construct s handle).1 := by
  obtain ⟨h1, h2, h3, h4, h5⟩ := hs
  obtain ⟨k1, k2, k3⟩ := hctor handle s.2.get_next_id.1 s.2.get_next_id.2
  have hw : wrap_int64 (s.2.m_next_unique_id + 1) = s.2.m_next_unique_id + 1 :=
    wrap_int64_of_range _ (by omega) hhi
  have hcnt : (source_create_device construct s handle).2.m_next_unique_id
      = s.2.m_next_unique_id + 1 := by
    simp only [source_create_device, add_device_counter]
    rw [k3]
    exact hw
  have hdev : (source_create_device construct s handle).2.m_devices
      = devices_emplace s.2.m_devices s.2.m_next_unique_id
          (construct handle s.2.get_next_id.1 s.2.get_next_id.2).1 := by
    simp only [source_create_device, add_device_devices]
    rw [k1, k2]
    rfl
  have hmap : (source_create_device construct s handle).1
      = device_map_emplace s.1 handle s.2.m_next_unique_id := rfl
  refine ⟨⟨?_, ?_, ?_, ?_, ?_⟩, hcnt, ?_, ?_⟩
  · rw [hcnt]
    omega
  · intro pair hp
    rw [hcnt, hdev]
    rw [hmap] at hp
    rcases device_map_emplace_cases s.1 handle s.2.m_next_unique_id with hc | hc
    · rw [hc] at hp
      obtain ⟨a, b, c⟩ := h2 pair hp
      rw [devices_find_emplace_ne _ _ _ _ (by omega)]
      exact ⟨a, by omega, c⟩
    · rw [hc] at hp
      rcases List.mem_append.mp hp with hp | hp
      · obtain ⟨a, b, c⟩ := h2 pair hp
        rw [devices_find_emplace_ne _ _ _ _ (by omega)]
        exact ⟨a, by omega, c⟩
      · simp only [List.mem_singleton] at hp
        subst hp
        exact ⟨h1, by simp, devices_find_emplace_self _ _ _⟩
  · rw [hmap]
    rcases device_map_emplace_cases s.1 handle s.2.m_next_unique_id with hc | hc
    · rw [hc]
      exact h3
    · rw [hc]
      simp only [List.map_append, List.map_cons, List.map_nil]
      rw [List.nodup_append]
      refine ⟨h3, by simp, ?_⟩
      intro a ha hb
      simp only [List.mem_singleton] at hb
      obtain ⟨pair, hp, he⟩ := List.mem_map.mp ha
      have := (h2 pair hp).2.1
      omega
  · rw [hdev]
    exact devices_emplace_nodup _ h4 _ _
  · intro other ho
    rw [hdev, devices_find_emplace_ne _ _ _ _ (by omega)]
    exact h5 other ho
  · rw [hmap]
    exact device_map_emplace_has _ _ _
  · intro pair hp
    rw [hmap]
    exact device_map_emplace_mem _ _ _ _ hp

theorem source_add_device_wf (b : rescanning_source)
    (construct : κ → Int → context α → device α × context α)
    (hctor : ∀ handle id c, (construct handle id c).1.get_id = id ∧
      (construct handle id c).2.m_devices = c.m_devices ∧
      (construct handle id c).2.m_next_unique_id = c.m_next_unique_id)
    (c0 : Int) (base : List (Int × device α)) (s : List (κ × Int) × context α)
    (found : κ × Bool) (hs : source_state_wf c0 base s) (hlo : -(2 ^ 63) ≤ c0)
    (hhi : s.2.m_next_unique_id + 1 < 2 ^ 63) :
    source_state_wf c0 base (source_add_device b construct s found) ∧
      (source_add_device b construct s found).2.m_next_unique_id
        ≤ s.2.m_next_unique_id + 1 ∧
      (found.2 = true → ∃ i, (found.1, i) ∈ (source_add_device b construct s found).1) ∧
      ∀ other, (∃ i, (other, i) ∈ s.1) →
        ∃ i, (other, i) ∈ (source_add_device b construct s found).1 := by
  have hcreate : ∀ t : List (κ × Int) × context α, source_state_wf c0 base t →
      t.2.m_next_unique_id = s.2.m_next_unique_id →
      (∀ other i, other ≠ found.1 → (other, i) ∈ s.1 → (other, i) ∈ t.1) →
      source_state_wf c0 base (source_create_device construct t found.1) ∧
        (source_create_device construct t found.1).2.m_next_unique_id
          ≤ s.2.m_next_unique_id + 1 ∧
        (found.2 = true → ∃ i, (found.1, i) ∈ (source_create_device construct t found.1).1) ∧
        ∀ other, (∃ i, (other, i) ∈ s.1) →
          ∃ i, (other, i) ∈ (source_create_device construct t found.1).1 := by
    intro t ht hn hkeep
    obtain ⟨a, b1, c, d⟩ := source_create_device_wf construct hctor c0 base t found.1 ht hlo
      (by rw [hn]; exact hhi)
    refine ⟨a, by rw [b1, hn], fun _ => c, ?_⟩
    rintro other ⟨i, hi⟩
    by_cases ho : other = found.1
    · rw [ho]
      exact c
    · exact ⟨i, d _ (hkeep other i ho hi)⟩
  have hsame : source_state_wf c0 base s ∧ s.2.m_next_unique_id ≤ s.2.m_next_unique_id + 1 ∧
      ∀ other, (∃ i, (other, i) ∈ s.1) → ∃ i, (other, i) ∈ s.1 :=
    ⟨hs, by omega, fun _ h => h⟩
  unfold source_add_device
  by_cases hb : b.replaces_existing = true
  · rw [if_pos hb]
    by_cases hf : found.2 = false
    · rw [if_pos hf]
      exact ⟨hsame.1, hsame.2.1, (fun h => by rw [hf] at h; cases h), hsame.2.2⟩
    · rw [if_neg hf]
      by_cases he : (device_map_find s.1 found.1).isSome = true
      · rw [if_pos he]
        obtain ⟨r1, r2, r3⟩ := source_remove_device_wf c0 base s found.1 hs
        exact hcreate _ r1 r2 r3
      · rw [if_neg he]
        exact hcreate s hs rfl (fun _ _ _ h => h)
  · rw [if_neg hb]
    by_cases he : (device_map_find s.1 found.1).isSome = true
    · rw [if_pos he]
      obtain ⟨i, hi⟩ := Option.isSome_iff_exists.mp he
      exact ⟨hsame.1, hsame.2.1, fun _ => ⟨i, device_map_find_mem _ _ _ hi⟩, hsame.2.2⟩
    · rw [if_neg he]
      by_cases hf : found.2 = false
      · rw [if_pos hf]
        exact ⟨hsame.1, hsame.2.1, (fun h => by rw [hf] at h; cases h), hsame.2.2⟩
      · rw [if_neg hf]
        exact hcreate s hs rfl (fun _ _ _ h => h)

theorem source_fold_wf (b : rescanning_source)
    (construct : κ → Int → context α → device α × context α)
    (hctor : ∀ handle id c, (construct handle id c).1.get_id = id ∧
      (construct handle id c).2.m_devices = c.m_devices ∧
      (construct handle id c).2.m_next_unique_id = c.m_next_unique_id)
    (c0 : Int) (base : List (Int × device α)) (hlo : -(2 ^ 63) ≤ c0)
    (present : List (κ × Bool)) :
    ∀ s : List (κ × Int) × context α, source_state_wf c0 base s →
      s.2.m_next_unique_id + present.length < 2 ^ 63 →
      source_state_wf c0 base (present.foldl (source_add_device b construct) s) ∧
        (∀ found ∈ present, found.2 = true →
          ∃ i, (found.1, i) ∈ (present.foldl (source_add_device b construct) s).1) ∧
        ∀ other, (∃ i, (other, i) ∈ s.1) →
          ∃ i, (other, i) ∈ (present.foldl (source_add_device b construct) s).1 := by
  induction present with
  | nil =>
    intro s hs _
    exact ⟨hs, by simp, fun _ h => h⟩
  | cons hd tl ih =>
    intro s hs hhi
    simp only [List.length_cons, Nat.cast_add, Nat.cast_one] at hhi
    obtain ⟨a, b1, c, d⟩ := source_add_device_wf b construct hctor c0 base s hd hs hlo
      (by omega)
    obtain ⟨e, f, g⟩ := ih (source_add_device b construct s hd) a (by omega)
    rw [List.foldl_cons]
    refine ⟨e, ?_, fun other h => g other (d other h)⟩
    intro found hfound hacc
    rcases List.mem_cons.mp hfound with hfound | hfound
    · rw [hfound]
      rw [hfound] at hacc
      exact g _ (c hacc)
    · exact f found hfound hacc

end source_step_lemmas

theorem devices_find_remove_all {κ α : Type} (m : List (κ × Int)) :
    ∀ c : context α, (c.m_devices.map (fun pair => pair.1)).Nodup →
      ((m.foldl (fun c pair => c.remove_device pair.2) c).m_devices.map
          (fun pair => pair.1)).Nodup ∧
        (m.foldl (fun c pair => c.remove_device pair.2) c).m_next_unique_id
          = c.m_next_unique_id ∧
        ∀ id, devices_find (m.foldl (fun c pair => c.remove_device pair.2) c).m_devices id
          = if id ∈ m.map (fun pair => pair.2) then Option.none
            else devices_find c.m_devices id := by
  induction m with
  | nil =>
    intro c hnd
    exact ⟨hnd, rfl, by simp⟩
  | cons hd tl ih =>
    intro c hnd
    have hnd1 : ((c.remove_device hd.2).m_devices.map (fun pair => pair.1)).Nodup := by
      rw [remove_device_devices]
      exact devices_erase_nodup _ hnd _
    obtain ⟨a, b, d⟩ := ih (c.remove_device hd.2) hnd1
    rw [List.foldl_cons]
    refine ⟨a, by rw [b, remove_device_counter], ?_⟩
    intro id
    rw [d id, remove_device_devices]
    by_cases h1 : id ∈ tl.map (fun pair => pair.2)
    · simp [h1]
    · by_cases h2 : id = hd.2
      · subst h2
        simp [devices_find_erase_self _ hnd]
      · rw [if_neg h1, devices_find_erase_ne _ _ _ h2]
        simp [h1, h2]

/-- C25, as stated: the second call of `xinput_source::enum_devices` returns at
once, so the four ids 1, 2, 3, 4 that the first call registered are still
in the registry, under the same ids, after the second call. -/
theorem xinput_enum_devices_second_call_keeps_ids :
    xinput_enumerated.1.m_devices = [1, 2, 3, 4] ∧
      xinput_enumerated.1.m_created_devices = true ∧
      (xinput_source_enum_devices no_pad_connected xinput_enumerated).1.m_devices
        = [1, 2, 3, 4] ∧
      ∀ id ∈ [1, 2, 3, 4],
        ((xinput_source_enum_devices no_pad_connected xinput_enumerated).2.get_device
          id).isSome = true := by
  decide

section setupdi_lemmas

/-- The loop of `enumerate_devices` never leaves when a device at or after the
current index has an empty or blacklisted name. -/
theorem enumerate_devices_loop_stuck (devices : List present_device) :
    ∀ (fuel index : Nat) (result : List (String × setup_device_info)),
      (∃ j dev, index ≤ j ∧ devices[j]? = some dev ∧
        (dev.name = "" ∨ is_blacklisted dev.name = true)) →
      enumerate_devices_loop devices fuel index result = Option.none := by
  intro fuel
  induction fuel with
  | zero =>
    intro index result _
    rfl
  | succ n ih =>
    intro index result hbad
    obtain ⟨j, bad, hj, hget, hb⟩ := hbad
    unfold enumerate_devices_loop
    cases hd : devices[index]? with
    | none =>
      exfalso
      have h1 : devices.length ≤ index := List.getElem?_eq_none_iff.mp hd
      have h2 : j < devices.length := (List.getElem?_eq_some_iff.mp hget).1
      omega
    | some dev =>
      simp only
      by_cases hname : dev.name = ""
      · rw [if_pos hname]
        exact ih index result ⟨index, dev, le_refl _, hd, Or.inl hname⟩
      · rw [if_neg hname]
        by_cases hbl : is_blacklisted dev.name = true
        · rw [if_pos hbl]
          exact ih index result ⟨index, dev, le_refl _, hd, Or.inr hbl⟩
        · rw [if_neg hbl]
          have hne : j ≠ index := by
            intro e
            rw [e, hd] at hget
            cases hget
            rcases hb with hb | hb
            · exact hname hb
            · exact hbl hb
          have hnext : ∃ j dev, index + 1 ≤ j ∧ devices[j]? = some dev ∧
              (dev.name = "" ∨ is_blacklisted dev.name = true) :=
            ⟨j, bad, by omega, hget, hb⟩
          by_cases hnew : (result.find? (fun entry => entry.1 = dev.instance_id)).isNone = true
          · rw [if_pos hnew]
            exact ih _ _ hnext
          · rw [if_neg hnew]
            exact ih _ _ hnext

/-- The loop of `enumerate_devices` returns, with a result that does not depend
on the fuel, when every present device has a name that is neither empty nor
blacklisted. -/
theorem enumerate_devices_loop_returns (devices : List present_device)
    (hgood : ∀ dev ∈ devices, dev.name ≠ "" ∧ is_blacklisted dev.name = false) :
    ∀ (k index : Nat) (result : List (String × setup_device_info)),
      index + k = devices.length →
      ∃ out, ∀ fuel, k < fuel → enumerate_devices_loop devices fuel index result = some out := by
  intro k
  induction k with
  | zero =>
    intro index result hlen
    refine ⟨result, ?_⟩
    intro fuel hf
    obtain ⟨n, rfl⟩ : ∃ n, fuel = n + 1 := ⟨fuel - 1, by omega⟩
    unfold enumerate_devices_loop
    have hd : devices[index]? = Option.none := List.getElem?_eq_none_iff.mpr (by omega)
    rw [hd]
  | succ k ih =>
    intro index result hlen
    have hlt : index < devices.length := by omega
    have hd : devices[index]? = some devices[index] := List.getElem?_eq_getElem hlt
    obtain ⟨hname, hbl⟩ := hgood devices[index] (List.getElem_mem hlt)
    have hbl2 : ¬ is_blacklisted devices[index].name = true := by
      rw [hbl]
      exact Bool.false_ne_true
    by_cases hnew : (result.find?
        (fun entry => entry.1 = devices[index].instance_id)).isNone = true
    · obtain ⟨out, hout⟩ := ih (index + 1)
        (result ++ [(devices[index].instance_id, make_setup_device_info devices[index])])
        (by omega)
      refine ⟨out, ?_⟩
      intro fuel hf
      obtain ⟨n, rfl⟩ : ∃ n, fuel = n + 1 := ⟨fuel - 1, by omega⟩
      unfold enumerate_devices_loop
      rw [hd]
      simp only
      rw [if_neg hname, if_neg hbl2, if_pos hnew]
      exact hout n (by omega)
    · obtain ⟨out, hout⟩ := ih (index + 1) result (by omega)
      refine ⟨out, ?_⟩
      intro fuel hf
      obtain ⟨n, rfl⟩ : ∃ n, fuel = n + 1 := ⟨fuel - 1, by omega⟩
      unfold enumerate_devices_loop
      rw [hd]
      simp only
      rw [if_neg hname, if_neg hbl2, if_neg hnew]
      exact hout n (by omega)

end setupdi_lemmas

/-- C25, amended: for `xi2_source`, `evdev_source` and `hidm_source`, and for
`raw_input_source` when no present device has an empty or blacklisted name, a
call of `enum_devices` whose platform queries succeed, on a registry with
unique keys, with every mapped id below the id counter and the counter far
enough from the end of its range, returns and leaves no id of the old map in
the registry; every id of the new map is at least the old counter, differs
from every old id and is registered; every listed device that `add_device`
accepts is in the new map. For `raw_input_source` with a present device whose
name is empty or blacklisted the call never returns. For `xinput_source` a
call made when `m_created_devices` is set changes nothing. -/
theorem rescanning_enum_devices_fresh_ids {κ α : Type} [DecidableEq κ]
    (b : rescanning_source) (construct : κ → Int → context α → device α × context α)
    (hctor : ∀ handle id c, (construct handle id c).1.get_id = id ∧
      (construct handle id c).2.m_devices = c.m_devices ∧
      (construct handle id c).2.m_next_unique_id = c.m_next_unique_id)
    (m : List (κ × Int)) (c : context α) (reported : List (reported_device κ))
    (setup : List present_device)
    (hnd : (c.m_devices.map (fun pair => pair.1)).Nodup)
    (hold : ∀ pair ∈ m, pair.2 < c.m_next_unique_id)
    (hlo : -(2 ^ 63) ≤ c.m_next_unique_id)
    (hhi : c.m_next_unique_id + reported.length < 2 ^ 63) :
    ((b = rescanning_source.raw_input_source →
        ∀ dev ∈ setup, dev.name ≠ "" ∧ is_blacklisted dev.name = false) →
      ∃ out found,
        (∀ fuel, setup.length < fuel →
          source_enum_devices b construct (m, c) reported setup fuel = some out) ∧
        (b = rescanning_source.raw_input_source → ∀ fuel, setup.length < fuel →
          enumerate_devices_loop setup fuel 0 [] = some found) ∧
        (∀ pair ∈ m, out.2.get_device pair.2 = Option.none) ∧
        (∀ pair ∈ out.1,
          c.m_next_unique_id ≤ pair.2 ∧ (∀ old ∈ m, pair.2 ≠ old.2) ∧
          (out.2.get_device pair.2).isSome = true) ∧
        (∀ r ∈ reported, source_accepts b found r = true →
          ∃ id, (r.handle, id) ∈ out.1)) ∧
      (b = rescanning_source.raw_input_source →
        (∃ dev ∈ setup, dev.name = "" ∨ is_blacklisted dev.name = true) →
        ∀ fuel, source_enum_devices b construct (m, c) reported setup fuel = Option.none) ∧
      ∀ (build : Nat → Int → context α → device α × context α)
        (s : xinput_source × context α), s.1.m_created_devices = true →
        xinput_source_enum_devices build s = s := by
  refine ⟨?_, ?_, ?_⟩
  · intro hsetup
    have hfound : ∃ found : List (String × setup_device_info),
        b = rescanning_source.raw_input_source → ∀ fuel, setup.length < fuel →
          enumerate_devices_loop setup fuel 0 [] = some found := by
      by_cases hb : b = rescanning_source.raw_input_source
      · obtain ⟨found, hf⟩ := enumerate_devices_loop_returns setup (hsetup hb)
          setup.length 0 [] (by omega)
        exact ⟨found, fun _ => hf⟩
      · exact ⟨[], fun h => absurd h hb⟩
    obtain ⟨found, hf2⟩ := hfound
    obtain ⟨r1, r2, r3⟩ := devices_find_remove_all m c hnd
    have hstart : source_state_wf c.m_next_unique_id
        (m.foldl (fun c pair => c.remove_device pair.2) c).m_devices
        (([] : List (κ × Int)), m.foldl (fun c pair => c.remove_device pair.2) c) := by
      refine ⟨by rw [r2], by simp, by simp, r1, fun _ _ => rfl⟩
    obtain ⟨⟨_, w2, _, _, w5⟩, f2, _⟩ := source_fold_wf b construct hctor c.m_next_unique_id
      (m.foldl (fun c pair => c.remove_device pair.2) c).m_devices hlo
      (reported.map (fun r => (r.handle, source_accepts b found r))) _ hstart
      (by rw [r2, List.length_map]; exact hhi)
    rw [List.foldl_map] at w2 w5 f2
    refine ⟨reported.foldl
      (fun st r => source_add_device b construct st (r.handle, source_accepts b found r))
      ([], m.foldl (fun c pair => c.remove_device pair.2) c), found, ?_, hf2, ?_, ?_, ?_⟩
    · intro fuel hfuel
      unfold source_enum_devices
      by_cases hb : b = rescanning_source.raw_input_source
      · subst hb
        simp only
        rw [hf2 rfl fuel hfuel]
        rfl
      · cases b with
        | raw_input_source => exact absurd rfl hb
        | xi2_source => rfl
        | evdev_source => rfl
        | hidm_source => rfl
    · intro pair hp
      unfold context.get_device
      rw [w5 pair.2 (hold pair hp), r3 pair.2, if_pos (List.mem_map_of_mem _ hp)]
    · intro pair hp
      obtain ⟨a, _, d⟩ := w2 pair hp
      refine ⟨a, ?_, d⟩
      intro old ho he
      have := hold old ho
      omega
    · intro r hr hacc
      exact f2 (r.handle, source_accepts b found r)
        (List.mem_map.mpr ⟨r, hr, rfl⟩) hacc
  · intro hb hbad fuel
    subst hb
    obtain ⟨dev, hmem, hdev⟩ := hbad
    obtain ⟨j, hj⟩ := List.getElem?_of_mem hmem
    unfold source_enum_devices
    simp only
    rw [enumerate_devices_loop_stuck setup fuel 0 [] ⟨j, dev, Nat.zero_le _, hj, hdev⟩]
    rfl
  · intro build s hs
    unfold xinput_source_enum_devices
    rw [if_pos hs]

/-- Instance of the amended C25 on a `raw_input_source` that had registered
device 2 under the handle 11: one present device, with a name; the handles
11 and 12 are listed with its instance id and as mice, 13 with an instance
id that has no entry. The call returns, device 2 is gone and the new map
holds 11 and 12 under the ids 3 and 4. With a nameless present device the
call does not return. -/
theorem rescanning_enum_devices_fresh_ids_witness :
    (xi2_source_sample.2.m_devices.map (fun pair => pair.1)).Nodup ∧
      xi2_source_sample.2.get_device 2 = some device_b ∧
      (∃ out found,
        (∀ fuel, [named_device].length < fuel →
          source_enum_devices rescanning_source.raw_input_source raw_input_mouse_device
            (xi2_source_sample.1, xi2_source_sample.2)
            [⟨11, "hid1", true⟩, ⟨12, "hid1", true⟩, ⟨13, "hid2", true⟩] [named_device] fuel
            = some out) ∧
        (∀ fuel, [named_device].length < fuel →
          enumerate_devices_loop [named_device] fuel 0 [] = some found) ∧
        out.2.get_device 2 = Option.none ∧
        (∀ pair ∈ out.1, 3 ≤ pair.2 ∧ (out.2.get_device pair.2).isSome = true)) ∧
      (source_enum_devices rescanning_source.raw_input_source raw_input_mouse_device
        (xi2_source_sample.1, xi2_source_sample.2)
        [⟨11, "hid1", true⟩, ⟨12, "hid1", true⟩, ⟨13, "hid2", true⟩] [named_device] 2).map
        (fun out => out.1) = some [(11, 3), (12, 4)] ∧
      ∀ fuel, source_enum_devices rescanning_source.raw_input_source raw_input_mouse_device
        (xi2_source_sample.1, xi2_source_sample.2)
        [⟨11, "hid1", true⟩, ⟨12, "hid1", true⟩, ⟨13, "hid2", true⟩]
        [named_device, nameless_device] fuel = Option.none := by
  have hctor : ∀ (handle : Nat) (id : Int) (c : context Int),
      (raw_input_mouse_device handle id c).1.get_id = id ∧
      (raw_input_mouse_device handle id c).2.m_devices = c.m_devices ∧
      (raw_input_mouse_device handle id c).2.m_next_unique_id = c.m_next_unique_id := by
    intro handle id c
    exact ⟨rfl, rfl, rfl⟩
  have h := rescanning_enum_devices_fresh_ids rescanning_source.raw_input_source
    raw_input_mouse_device hctor xi2_source_sample.1 xi2_source_sample.2
    [⟨11, "hid1", true⟩, ⟨12, "hid1", true⟩, ⟨13, "hid2", true⟩] [named_device]
    (by decide) (by decide) (by decide) (by decide)
  have k := rescanning_enum_devices_fresh_ids rescanning_source.raw_input_source
    raw_input_mouse_device hctor xi2_source_sample.1 xi2_source_sample.2
    [⟨11, "hid1", true⟩, ⟨12, "hid1", true⟩, ⟨13, "hid2", true⟩]
    [named_device, nameless_device] (by decide) (by decide) (by decide) (by decide)
  obtain ⟨out, found, o1, o2, o3, o4, _⟩ := h.1 (fun _ => by decide)
  refine ⟨by decide, by decide, ⟨out, found, o1, o2 rfl, o3 (11, 2) (by decide), ?_⟩,
    by decide, k.2.1 rfl ⟨nameless_device, by decide, Or.inl rfl⟩⟩
  intro pair hp
  exact ⟨(o4 pair hp).1, (o4 pair hp).2.2⟩

end multi_input
